import Mathlib

/-!
The autoc4 control core (services/autoc4/autoc4.c)

A shallow embedding of the controller in `services/autoc4/autoc4.c`.

* Bytes (`uint8_t`, `char`) are natural numbers; a store into an 8-bit hardware
  register is reduced modulo 256.
* A C string or receive buffer is the list of bytes readable from the pointer on;
  reading past the end of the list yields the byte 0 (the NUL terminator of a
  configured string).  Advancing a pointer is `List.drop`.
* The arrays `pin_input_states`, `output_states` and the register files
  `ddrs`, `ports`, `pins` are total functions of the index.
* External collaborators appear as parameters: `connected` is the value of
  `mqtt_is_connected()`, `pub i` is the return value of the publish call that
  `autoc4_poll` makes for input `i`, and the publish calls themselves are
  returned as a list in the order they were made.
-/

namespace Autoc4

/-! ## Data model -/

/-- Entry of `input_configs` with the fields the source reads. -/
structure InputConfig where
  port_index : Nat
  pin_index : Nat
  pullup : Bool
  inverted : Bool
  is_emergency_switch : Bool
  topic : List Nat

/-- Entry of `output_configs` with the fields the source reads. -/
structure OutputConfig where
  port_index : Nat
  pin_index : Nat
  opendrain : Bool
  enable_blinking : Bool
  emergency_toggled : Bool
  emergency_zeroed : Bool
  topic : List Nat

/-- Entry of `dmx_configs` with the fields the source reads. -/
structure DmxConfig where
  topic : List Nat
  start_channel : Nat
  channel_count : Nat

/-- The build-time configuration: `autoc4_config` together with the topic strings and
the constant `DMX_STORAGE_CHANNELS` that the source takes from headers outside the
sources.  The counts are 8-bit quantities in the C code, so every index below a count
fits the `uint8_t index` parameter of `autoc4_set_output`. -/
structure Config where
  input_count : Nat
  input_configs : Nat → InputConfig
  output_count : Nat
  output_configs : Nat → OutputConfig
  dmx_count : Nat
  dmx_configs : Nat → DmxConfig
  dmx_topic : List Nat
  string_heartbeat_topic : List Nat
  string_logicer_heartbeat_topic : List Nat
  string_locked_mode_topic : List Nat
  string_status_led_topic : List Nat
  string_fan_topic : List Nat
  DMX_STORAGE_CHANNELS : Nat

/-- The type `autoc4_input_state_t`. -/
structure InputState where
  prev_state : Bool
  mqtt_dirty : Bool
deriving DecidableEq, Repr

/-- The type `autoc4_output_state_t`. -/
structure OutputState where
  value : Nat
  timer : Nat
deriving DecidableEq, Repr

/-- All mutable state the controller touches: its static variables, the two state
arrays, the direction and port register files, the lighting channels of universe
`AUTOC4_DMX_UNIVERSE`, and the PWM duty register `OCR2A`. -/
structure State where
  logicer_state : Bool
  locked_mode : Bool
  status_led_value : Nat
  pin_input_states : Nat → InputState
  output_states : Nat → OutputState
  ddrs : Nat → Nat
  ports : Nat → Nat
  dmx : Nat → Nat
  OCR2A : Nat

/-- The arguments of one call of `mqtt_construct_publish_packet_P`. -/
structure PublishCall where
  topic : List Nat
  payload : List Nat
  retain : Bool
deriving DecidableEq, Repr

/-- Array store `a[i] = v`. -/
def upd {α : Type} (a : Nat → α) (i : Nat) (v : α) : Nat → α :=
  fun j => if j = i then v else a j

/-! ## Constants -/

/-- The table `blink_timeouts`, in units of 100 ms. -/
def blink_timeouts : List Nat := [1, 5, 25, 30]

/-- The table `zero_one`. -/
def zero_one : List Nat := [0, 1]

/-- The string `string_sudo_prefix`, the bytes of "sudo/". -/
def string_sudo_prefix : List Nat := [115, 117, 100, 111, 47]

/-! ## Library and external functions -/

/-- The libc function `strncmp_P`: compares at most `n` bytes, stops after a NUL, and
returns the difference of the first pair of bytes that differ, or 0. -/
def strncmp_P : List Nat → List Nat → Nat → Int
  | _, _, 0 => 0
  | s1, s2, n + 1 =>
    if s1.headD 0 ≠ s2.headD 0 then (s1.headD 0 : Int) - (s2.headD 0 : Int)
    else if s1.headD 0 = 0 then 0
    else strncmp_P s1.tail s2.tail n

/-- Modelled from the spec: `set_dmx_channel` of the lighting-channel store
(`services/dmx-storage`, not part of the sources) writes one channel of the universe. -/
def set_dmx_channel (channel value : Nat) (dmx : Nat → Nat) : Nat → Nat :=
  upd dmx channel value

/-- Modelled from the spec: `set_dmx_channels` of the lighting-channel store
(`services/dmx-storage`, not part of the sources) writes the first `len` bytes of
`data` to the contiguous channels `start, start + 1, ...`. -/
def set_dmx_channels (data : List Nat) (start len : Nat) (dmx : Nat → Nat) : Nat → Nat :=
  fun ch => if start ≤ ch ∧ ch < start + len then data.getD (ch - start) 0 else dmx ch

/-! ## Register access -/

/-- The statement `*r |= m` on an 8-bit register. -/
def reg_or (x m : Nat) : Nat := (x ||| m) % 256

/-- The statement `*r &= ~m` on an 8-bit register; `~` acts on the 16-bit `int` that
`1 << pin_index` is on the target. -/
def reg_and_not (x m : Nat) : Nat := (x &&& (65535 ^^^ m)) % 256

/-- The function `autoc4_set_output` (lines 143-159). -/
def autoc4_set_output (cfg : Config) (index state : Nat) (s : State) : State :=
  let port_index := (cfg.output_configs index).port_index
  let pin_index := (cfg.output_configs index).pin_index
  if (cfg.output_configs index).opendrain then
    if state ≠ 0 then
      { s with ddrs := upd s.ddrs port_index (reg_or (s.ddrs port_index) (1 <<< pin_index)) }
    else
      { s with ddrs := upd s.ddrs port_index (reg_and_not (s.ddrs port_index) (1 <<< pin_index)) }
  else
    if state ≠ 0 then
      { s with ports := upd s.ports port_index (reg_or (s.ports port_index) (1 <<< pin_index)) }
    else
      { s with ports := upd s.ports port_index (reg_and_not (s.ports port_index) (1 <<< pin_index)) }

/-- The function `autoc4_get_output` (lines 160-164); the result 0/1 is a `Bool`. -/
def autoc4_get_output (cfg : Config) (index : Nat) (s : State) : Bool :=
  (s.ports (cfg.output_configs index).port_index
      &&& (1 <<< (cfg.output_configs index).pin_index) != 0)
    || (s.ddrs (cfg.output_configs index).port_index
      &&& (1 <<< (cfg.output_configs index).pin_index) == 0)

/-! ## Emergency interlock -/

/-- The second loop of `autoc4_emergency_switch_toggled` (lines 96-102) over the
indices still to visit. -/
def autoc4_emergency_loop (cfg : Config) (any_output_on : Nat) : List Nat → State → State
  | [], s => s
  | i :: rest, s =>
    if (cfg.output_configs i).emergency_toggled then
      autoc4_emergency_loop cfg any_output_on rest
        (autoc4_set_output cfg i (if any_output_on = 0 then 1 else 0) s)
    else if (cfg.output_configs i).emergency_zeroed then
      autoc4_emergency_loop cfg any_output_on rest (autoc4_set_output cfg i 0 s)
    else
      autoc4_emergency_loop cfg any_output_on rest s

/-- The calls `autoc4_set_output(i, state)` that the second loop of
`autoc4_emergency_switch_toggled` makes, as pairs `(i, state)` in program order. -/
def autoc4_emergency_writes (cfg : Config) (any_output_on : Nat) : List Nat → List (Nat × Nat)
  | [] => []
  | i :: rest =>
    if (cfg.output_configs i).emergency_toggled then
      (i, if any_output_on = 0 then 1 else 0) :: autoc4_emergency_writes cfg any_output_on rest
    else if (cfg.output_configs i).emergency_zeroed then
      (i, 0) :: autoc4_emergency_writes cfg any_output_on rest
    else
      autoc4_emergency_writes cfg any_output_on rest

/-- The first loop of `autoc4_emergency_switch_toggled` (lines 83-84). -/
def autoc4_emergency_zero_dmx (cfg : Config) (s : State) : State :=
  { s with
    dmx := (List.range cfg.DMX_STORAGE_CHANNELS).foldl
              (fun d channel => set_dmx_channel channel 0 d) s.dmx }

/-- The variable `any_output_on` after the search loop of
`autoc4_emergency_switch_toggled` (lines 87-93). -/
def autoc4_any_output_on (cfg : Config) (s : State) : Nat :=
  if (List.range cfg.output_count).any
      (fun i => (cfg.output_configs i).emergency_toggled && autoc4_get_output cfg i s)
  then 1 else 0

/-- The function `autoc4_emergency_switch_toggled` (lines 80-103). -/
def autoc4_emergency_switch_toggled (cfg : Config) (s : State) : State :=
  autoc4_emergency_loop cfg (autoc4_any_output_on cfg (autoc4_emergency_zero_dmx cfg s))
    (List.range cfg.output_count) (autoc4_emergency_zero_dmx cfg s)

/-! ## Connection and publish drain -/

/-- The assignment `pin_input_states[i].mqtt_dirty = true` (line 110). -/
def autoc4_connack_mark (s : State) (i : Nat) : State :=
  { s with
    pin_input_states := upd s.pin_input_states i ⟨(s.pin_input_states i).prev_state, true⟩ }

/-- The function `autoc4_connack_callback` (lines 106-116): the new state and the
publish call it makes (whose result the source ignores). -/
def autoc4_connack_callback (cfg : Config) (s : State) : State × List PublishCall :=
  ({ (List.range cfg.input_count).foldl autoc4_connack_mark s with logicer_state := false },
    [⟨cfg.string_heartbeat_topic, (zero_one.drop 1).take 1, true⟩])

/-- The publish call `autoc4_poll` makes for input `i` (lines 123-130). -/
def autoc4_poll_call (cfg : Config) (s : State) (i : Nat) : PublishCall :=
  ⟨(cfg.input_configs i).topic,
    (if (s.pin_input_states i).prev_state then
      zero_one.drop (if (cfg.input_configs i).inverted then 1 else 0)
    else
      zero_one.drop (if (cfg.input_configs i).inverted then 0 else 1)).take 1,
    true⟩

/-- The assignment `pin_input_states[i].mqtt_dirty = false` (line 133). -/
def autoc4_poll_clear (s : State) (i : Nat) : State :=
  { s with
    pin_input_states := upd s.pin_input_states i ⟨(s.pin_input_states i).prev_state, false⟩ }

/-- The loop of `autoc4_poll` (lines 120-140) over the indices still to visit; `pub i`
is the result of the publish call made for input `i`.  Returns the new state and the
publish calls made, in program order. -/
def autoc4_poll_loop (cfg : Config) (pub : Nat → Bool) :
    List Nat → State → State × List PublishCall
  | [], s => (s, [])
  | i :: rest, s =>
    if (s.pin_input_states i).mqtt_dirty then
      if pub i then
        let r := autoc4_poll_loop cfg pub rest (autoc4_poll_clear s i)
        (r.1, autoc4_poll_call cfg s i :: r.2)
      else
        (s, [autoc4_poll_call cfg s i])
    else
      autoc4_poll_loop cfg pub rest s

/-- The function `autoc4_poll` (lines 118-141). -/
def autoc4_poll (cfg : Config) (pub : Nat → Bool) (s : State) : State × List PublishCall :=
  autoc4_poll_loop cfg pub (List.range cfg.input_count) s

/-! ## Command router -/

/-- The body of `autoc4_publish_callback` after the lock gate (lines 184-241); `topic`
is the possibly advanced pointer, `topic_length` the length the transport passed, and
the payload has `payload.length` bytes. -/
def autoc4_publish_dispatch (cfg : Config) (s : State) (topic : List Nat)
    (topic_length : Nat) (payload : List Nat) : State :=
  if payload.length > 0 then
    match (List.range cfg.output_count).find?
        (fun i => strncmp_P topic (cfg.output_configs i).topic topic_length == 0) with
    | some i =>
      autoc4_set_output cfg i (payload.headD 0)
        { s with output_states := upd s.output_states i ⟨payload.headD 0, 0⟩ }
    | none =>
      if strncmp_P topic cfg.dmx_topic topic_length = 0 then
        { s with dmx := set_dmx_channels payload 0 payload.length s.dmx }
      else
        match (List.range cfg.dmx_count).find?
            (fun i => strncmp_P topic (cfg.dmx_configs i).topic topic_length == 0) with
        | some i =>
          let payload_length :=
            if payload.length > (cfg.dmx_configs i).channel_count
              then (cfg.dmx_configs i).channel_count else payload.length
          let start := ((cfg.dmx_configs i).start_channel + 65535) % 65536
          { s with dmx := set_dmx_channels payload start payload_length s.dmx }
        | none =>
          if strncmp_P topic cfg.string_logicer_heartbeat_topic topic_length = 0 then
            { s with logicer_state := payload.headD 0 != 0 }
          else if strncmp_P topic cfg.string_locked_mode_topic topic_length = 0 then
            { s with locked_mode := payload.headD 0 != 0 }
          else if strncmp_P topic cfg.string_status_led_topic topic_length = 0 then
            { s with status_led_value := payload.headD 0 }
          else if strncmp_P topic cfg.string_fan_topic topic_length = 0 then
            { s with OCR2A := payload.headD 0 }
          else s
  else s

/-- The function `autoc4_publish_callback` (lines 169-242).  `topic` is the memory at
the topic pointer, `topic_length` the topic length the transport passes;
`sizeof( string_sudo_prefix)` counts the terminating NUL. -/
def autoc4_publish_callback (cfg : Config) (s : State) (topic : List Nat)
    (topic_length : Nat) (payload : List Nat) : State :=
  if topic_length ≥ string_sudo_prefix.length + 1
      ∧ strncmp_P topic string_sudo_prefix ( string_sudo_prefix.length + 1 - 1) = 0 then
    autoc4_publish_dispatch cfg s (topic.drop ( string_sudo_prefix.length + 1 - 1))
      topic_length payload
  else if s.locked_mode then s
  else autoc4_publish_dispatch cfg s topic topic_length payload

/-! ## Input scan -/

/-- The assignment `pin_input_states[i].mqtt_dirty = true` (line 334). -/
def autoc4_read_inputs_mark (s : State) (i : Nat) : State :=
  { s with
    pin_input_states := upd s.pin_input_states i ⟨(s.pin_input_states i).prev_state, true⟩ }

/-- The assignment `pin_input_states[i].prev_state = input` (line 337). -/
def autoc4_read_inputs_store (s : State) (i : Nat) (input : Bool) : State :=
  { s with
    pin_input_states := upd s.pin_input_states i ⟨input, (s.pin_input_states i).mqtt_dirty⟩ }

/-- The level `input` read for input `i` in a scan (line 322). -/
def autoc4_input_level (cfg : Config) (pins : Nat → Nat) (i : Nat) : Bool :=
  pins (cfg.input_configs i).port_index &&& (1 <<< (cfg.input_configs i).pin_index) != 0

/-- The body of the loop of `autoc4_read_inputs` for input `i` (lines 322-337);
`connected` is `mqtt_is_connected()` and `pins` the pin registers read in the scan. -/
def autoc4_read_inputs_step (cfg : Config) (connected : Bool) (pins : Nat → Nat)
    (s : State) (i : Nat) : State :=
  let input : Bool := autoc4_input_level cfg pins i
  let s1 : State :=
    if (input && !(s.pin_input_states i).prev_state)
        || (!input && (s.pin_input_states i).prev_state) then
      if !connected || !s.logicer_state then
        if (cfg.input_configs i).is_emergency_switch then
          autoc4_emergency_switch_toggled cfg s
        else s
      else
        autoc4_read_inputs_mark s i
    else s
  autoc4_read_inputs_store s1 i input

/-- The loop of `autoc4_read_inputs` (lines 320-338) over the indices still to visit. -/
def autoc4_read_inputs_loop (cfg : Config) (connected : Bool) (pins : Nat → Nat) :
    List Nat → State → State
  | [], s => s
  | i :: rest, s =>
    autoc4_read_inputs_loop cfg connected pins rest
      (autoc4_read_inputs_step cfg connected pins s i)

/-- The function `autoc4_read_inputs` (lines 318-339). -/
def autoc4_read_inputs (cfg : Config) (connected : Bool) (pins : Nat → Nat) (s : State) :
    State :=
  autoc4_read_inputs_loop cfg connected pins (List.range cfg.input_count) s

/-! ## Direction initialisation -/

/-- The statement `*ddrs[port_index] |= 1 << pin_index` for output `i` (line 248). -/
def autoc4_ddr_init_output (cfg : Config) (s : State) (i : Nat) : State :=
  { s with
    ddrs := upd s.ddrs (cfg.output_configs i).port_index
              (reg_or (s.ddrs (cfg.output_configs i).port_index)
                (1 <<< (cfg.output_configs i).pin_index)) }

/-- The body of the pull-up loop for input `i` (lines 252-253). -/
def autoc4_ddr_init_input (cfg : Config) (s : State) (i : Nat) : State :=
  if (cfg.input_configs i).pullup then
    { s with
      ports := upd s.ports (cfg.input_configs i).port_index
                (reg_or (s.ports (cfg.input_configs i).port_index)
                  (1 <<< (cfg.input_configs i).pin_index)) }
  else s

/-- The function `autoc4_ddr_init` (lines 244-254). -/
def autoc4_ddr_init (cfg : Config) (s : State) : State :=
  (List.range cfg.input_count).foldl (autoc4_ddr_init_input cfg)
    ((List.range cfg.output_count).foldl (autoc4_ddr_init_output cfg) s)

/-! ## Blink scheduler -/

/-- The product `blink_timeouts[(value & 0xc0) >> 6] * (((value & 0x30) >> 4) + 1)` of
line 278, as the `int` it is before the store into the 8-bit timer. -/
def autoc4_blink_product_high (value : Nat) : Nat :=
  blink_timeouts.getD ((value &&& 0xc0) >>> 6) 0 * (((value &&& 0x30) >>> 4) + 1)

/-- The product `blink_timeouts[(value & 0x0c) >> 2] * (((value & 0x03) >> 0) + 1)` of
line 292, as the `int` it is before the store into the 8-bit timer. -/
def autoc4_blink_product_low (value : Nat) : Nat :=
  blink_timeouts.getD ((value &&& 0x0c) >>> 2) 0 * (((value &&& 0x03) >>> 0) + 1)

/-- The store `output_states[i].timer = t` into the 8-bit timer. -/
def autoc4_blink_set_timer (s : State) (i t : Nat) : State :=
  { s with output_states := upd s.output_states i ⟨(s.output_states i).value, t % 256⟩ }

/-- The statement `output_states[i].timer--` on the 8-bit timer (line 303). -/
def autoc4_blink_decrement (s : State) (i : Nat) : State :=
  autoc4_blink_set_timer s i ((s.output_states i).timer + 255)

/-- The body of the loop of `autoc4_poll_blinking` for output `i` (lines 261-303): the
new state, and `true` when the body leaves the function through `return`. -/
def autoc4_poll_blinking_step (cfg : Config) (s : State) (i : Nat) : State × Bool :=
  if (cfg.output_configs i).enable_blinking = false then (s, false)
  else if (s.output_states i).value = 0 then (autoc4_set_output cfg i 0 s, false)
  else if (s.output_states i).timer = 0 then
    if autoc4_get_output cfg i s then
      let s1 := autoc4_blink_set_timer s i (autoc4_blink_product_high (s.output_states i).value)
      if (s1.output_states i).timer = 1 then (s1, true)
      else (autoc4_blink_decrement (autoc4_set_output cfg i 0 s1) i, false)
    else
      let s1 := autoc4_blink_set_timer s i (autoc4_blink_product_low (s.output_states i).value)
      if (s1.output_states i).timer = 1 then (s1, true)
      else (autoc4_blink_decrement (autoc4_set_output cfg i 1 s1) i, false)
  else (autoc4_blink_decrement s i, false)

/-- The value of `output_states[i].timer` at the moment the statement
`output_states[i].timer--` (line 303) is executed by the loop body for output `i`
started in state `s`; `none` when the body does not reach the statement. -/
def autoc4_poll_blinking_decrement_operand (cfg : Config) (s : State) (i : Nat) : Option Nat :=
  if (cfg.output_configs i).enable_blinking = false then none
  else if (s.output_states i).value = 0 then none
  else if (s.output_states i).timer = 0 then
    if autoc4_get_output cfg i s then
      if autoc4_blink_product_high (s.output_states i).value % 256 = 1 then none
      else some (autoc4_blink_product_high (s.output_states i).value % 256)
    else
      if autoc4_blink_product_low (s.output_states i).value % 256 = 1 then none
      else some (autoc4_blink_product_low (s.output_states i).value % 256)
  else some (s.output_states i).timer

/-- The loop of `autoc4_poll_blinking` (lines 259-304) over the indices still to
visit. -/
def autoc4_poll_blinking_loop (cfg : Config) : List Nat → State → State
  | [], s => s
  | i :: rest, s =>
    if (autoc4_poll_blinking_step cfg s i).2 then (autoc4_poll_blinking_step cfg s i).1
    else autoc4_poll_blinking_loop cfg rest (autoc4_poll_blinking_step cfg s i).1

/-- The indices whose loop body `autoc4_poll_blinking` executes, in program order. -/
def autoc4_poll_blinking_visited (cfg : Config) : List Nat → State → List Nat
  | [], _ => []
  | i :: rest, s =>
    if (autoc4_poll_blinking_step cfg s i).2 then [i]
    else i :: autoc4_poll_blinking_visited cfg rest (autoc4_poll_blinking_step cfg s i).1

/-- The function `autoc4_poll_blinking` (lines 257-305). -/
def autoc4_poll_blinking (cfg : Config) (s : State) : State :=
  autoc4_poll_blinking_loop cfg (List.range cfg.output_count) s

/-- The state after `n` consecutive calls of `autoc4_poll_blinking`. -/
def autoc4_poll_blinking_iterate (cfg : Config) : Nat → State → State
  | 0, s => s
  | n + 1, s => autoc4_poll_blinking cfg (autoc4_poll_blinking_iterate cfg n s)

/-! ## Status indicator -/

/-- The arguments of one call of `ws2812b_write_rgb_n` of the indicator driver
(`hardware/ws2812b`, not part of the sources): red, green, blue and the number of
units written. -/
structure RgbWrite where
  r : Nat
  g : Nat
  b : Nat
  n : Nat
deriving DecidableEq, Repr

/-- The function `autoc4_update_status_light` (lines 365-377): the state it leaves and
the indicator call it makes; `connected` is `mqtt_is_connected()`. -/
def autoc4_update_status_light (connected : Bool) (s : State) : State × List RgbWrite :=
  let v := s.status_led_value
  let blue := if s.locked_mode then v else 0x00
  if !connected then (s, [⟨v, 0x00, blue, 4⟩])
  else if !s.logicer_state then (s, [⟨v, v, blue, 4⟩])
  else (s, [⟨0x00, v, blue, 4⟩])

/-! ## Periodic scheduler -/

/-- The static counters of `autoc4_periodic` together with the controller state. -/
structure PeriodicState where
  counter_100ms : Nat
  counter_1s : Nat
  state : State

/-- The result of one call of `autoc4_periodic`: the state it leaves, which of the three
functions it called, and the indicator calls made. -/
structure PeriodicRun where
  next : PeriodicState
  ran_poll_blinking : Bool
  ran_update_status_light : Bool
  ran_read_inputs : Bool
  leds : List RgbWrite

/-- The values of the static counters at start-up (lines 383 and 391). -/
def autoc4_periodic_start (s : State) : PeriodicState := ⟨10, 100, s⟩

/-- The function `autoc4_periodic` (lines 380-400); `--counter` is an 8-bit decrement. -/
def autoc4_periodic (cfg : Config) (connected : Bool) (pins : Nat → Nat)
    (p : PeriodicState) : PeriodicRun :=
  let c1 := (p.counter_100ms + 255) % 256
  let s1 := if c1 = 0 then autoc4_poll_blinking cfg p.state else p.state
  let c2 := (p.counter_1s + 255) % 256
  let r2 := if c2 = 0 then autoc4_update_status_light connected s1 else (s1, [])
  { next := ⟨if c1 = 0 then 10 else c1, if c2 = 0 then 100 else c2,
      autoc4_read_inputs cfg connected pins r2.1⟩
    ran_poll_blinking := decide (c1 = 0)
    ran_update_status_light := decide (c2 = 0)
    ran_read_inputs := true
    leds := r2.2 }

/-- The scheduler state after `n` calls of `autoc4_periodic`; `env m` gives the
connection status and pin registers seen by call number `m + 1`. -/
def autoc4_periodic_iterate (cfg : Config) (env : Nat → Bool × (Nat → Nat)) :
    Nat → PeriodicState → PeriodicState
  | 0, p => p
  | n + 1, p =>
    (autoc4_periodic cfg (env n).1 (env n).2 (autoc4_periodic_iterate cfg env n p)).next

/-- What `autoc4_poll_blinking` reads and writes of output `i`: its entry of
`output_states` and the port bit and direction bit of its pin. -/
def autoc4_output_view (cfg : Config) (i : Nat) (s : State) : OutputState × Bool × Bool :=
  (s.output_states i,
    (s.ports (cfg.output_configs i).port_index).testBit (cfg.output_configs i).pin_index,
    (s.ddrs (cfg.output_configs i).port_index).testBit (cfg.output_configs i).pin_index)

/-- The ways one call of `autoc4_poll_blinking` can change an entry of `output_states`:
the pattern byte is kept, and the timer is kept, or was nonzero and is decremented
without wrapping, or was zero and is reloaded to a value between 1 and 119. -/
def blink_timer_change (o o' : OutputState) : Prop :=
  o'.value = o.value
    ∧ (o'.timer = o.timer
      ∨ (o.timer ≠ 0 ∧ o'.timer = (o.timer + 255) % 256)
      ∨ (o.timer = 0 ∧ 1 ≤ o'.timer ∧ o'.timer ≤ 119))

/-- The inputs for which the loop of `autoc4_read_inputs` calls
`autoc4_emergency_switch_toggled` (line 329), in program order, over the indices still
to visit. -/
def autoc4_read_inputs_triggers (cfg : Config) (connected : Bool) (pins : Nat → Nat) :
    List Nat → State → List Nat
  | [], _ => []
  | i :: rest, s =>
    if (autoc4_input_level cfg pins i && !(s.pin_input_states i).prev_state)
        || (!autoc4_input_level cfg pins i && (s.pin_input_states i).prev_state) then
      if !connected || !s.logicer_state then
        if (cfg.input_configs i).is_emergency_switch then
          i :: autoc4_read_inputs_triggers cfg connected pins rest
            (autoc4_read_inputs_step cfg connected pins s i)
        else
          autoc4_read_inputs_triggers cfg connected pins rest
            (autoc4_read_inputs_step cfg connected pins s i)
      else
        autoc4_read_inputs_triggers cfg connected pins rest
          (autoc4_read_inputs_step cfg connected pins s i)
    else
      autoc4_read_inputs_triggers cfg connected pins rest
        (autoc4_read_inputs_step cfg connected pins s i)

/-! ## Runs of the input monitor -/

/-- The body of the loop of `autoc4_init_input_states` for input `i` (lines 312-314). -/
def autoc4_init_input_state (cfg : Config) (pins : Nat → Nat) (s : State) (i : Nat) : State :=
  { s with
    pin_input_states := upd s.pin_input_states i ⟨autoc4_input_level cfg pins i, true⟩ }

/-- The function `autoc4_init_input_states` (lines 308-316). -/
def autoc4_init_input_states (cfg : Config) (pins : Nat → Nat) (s : State) : State :=
  (List.range cfg.input_count).foldl (autoc4_init_input_state cfg pins) s

/-- The successful publish calls of the loop of `autoc4_poll` over the indices still to
visit, as pairs of input index and payload, in program order. -/
def autoc4_poll_successes (cfg : Config) (pub : Nat → Bool) :
    List Nat → State → List (Nat × List Nat)
  | [], _ => []
  | i :: rest, s =>
    if (s.pin_input_states i).mqtt_dirty then
      if pub i then
        (i, (autoc4_poll_call cfg s i).payload)
          :: autoc4_poll_successes cfg pub rest (autoc4_poll_clear s i)
      else []
    else autoc4_poll_successes cfg pub rest s

/-- One call into the controller by the scheduler or the transport, with what the
environment supplies to it. -/
inductive Event where
  | read_inputs (connected : Bool) (pins : Nat → Nat)
  | poll (pub : Nat → Bool)
  | connack
  | publish (topic : List Nat) (topic_length : Nat) (payload : List Nat)

/-- The controller state together with the successful input publishes made so far,
most recent first. -/
structure Run where
  state : State
  published : List (Nat × List Nat)

/-- The effect of one event on the state and on the record of successful publishes. -/
def autoc4_event_step (cfg : Config) (r : Run) : Event → Run
  | .read_inputs connected pins => ⟨autoc4_read_inputs cfg connected pins r.state, r.published⟩
  | .poll pub =>
    ⟨(autoc4_poll cfg pub r.state).1,
      (autoc4_poll_successes cfg pub (List.range cfg.input_count) r.state).reverse
        ++ r.published⟩
  | .connack => ⟨(autoc4_connack_callback cfg r.state).1, r.published⟩
  | .publish topic topic_length payload =>
    ⟨autoc4_publish_callback cfg r.state topic topic_length payload, r.published⟩

/-- The effect of a sequence of events. -/
def autoc4_run (cfg : Config) (r : Run) (events : List Event) : Run :=
  events.foldl (autoc4_event_step cfg) r

/-- The run state right after `autoc4_init_input_states`: nothing published yet. -/
def autoc4_run_start (cfg : Config) (pins : Nat → Nat) (s : State) : Run :=
  ⟨autoc4_init_input_states cfg pins s, []⟩

/-- The payload of the most recent successful publish for input `i`. -/
def autoc4_last_published (published : List (Nat × List Nat)) (i : Nat) :
    Option (List Nat) :=
  (published.find? (fun e => e.1 == i)).map (fun e => e.2)

/-- A scan made in normal mode (transport connected and `logicer_state` true) or one in
which no clean input (`mqtt_dirty` false) has an edge. -/
def autoc4_scan_publishes_edges (cfg : Config) (connected : Bool) (pins : Nat → Nat)
    (s : State) : Prop :=
  (connected = true ∧ s.logicer_state = true)
    ∨ ∀ i < cfg.input_count, (s.pin_input_states i).mqtt_dirty = false →
        autoc4_input_level cfg pins i = (s.pin_input_states i).prev_state

/-- Every `read_inputs` event of the sequence is a scan in normal mode or without an
edge on a clean input, in the state it is made in, or is followed by a later `connack`
event. -/
def autoc4_scans_publish_edges (cfg : Config) : Run → List Event → Prop
  | _, [] => True
  | r, .read_inputs connected pins :: rest =>
    (autoc4_scan_publishes_edges cfg connected pins r.state ∨ Event.connack ∈ rest)
      ∧ autoc4_scans_publish_edges cfg
          (autoc4_event_step cfg r (.read_inputs connected pins)) rest
  | r, e :: rest => autoc4_scans_publish_edges cfg (autoc4_event_step cfg r e) rest

/-- The dirty-flag invariant: for every clean input the most recent successful publish
carries the payload `autoc4_poll` would compute from its current `prev_state`. -/
def autoc4_clean_inputs_published (cfg : Config) (r : Run) : Prop :=
  ∀ i < cfg.input_count, (r.state.pin_input_states i).mqtt_dirty = false →
    autoc4_last_published r.published i = some (autoc4_poll_call cfg r.state i).payload

/-! ## Example configuration and states -/

/-- A configuration with three inputs, three push-pull outputs in the emergency-toggle
group and one lighting device.  Topics: outputs "o0", "o1", "o2"; inputs "i0", "i1",
"i2"; bulk lighting "dmx"; device "rgb"; heartbeat "hb"; supervisor heartbeat "lg";
lock "lock"; brightness "led"; fan "fan". -/
def demo_config : Config where
  input_count := 3
  input_configs := fun i => ⟨0, i, true, false, i = 0, [105, 48 + i]⟩
  output_count := 3
  output_configs := fun i => ⟨1, i, false, true, true, false, [111, 48 + i]⟩
  dmx_count := 1
  dmx_configs := fun _ => ⟨[114, 103, 98], 1, 3⟩
  dmx_topic := [100, 109, 120]
  string_heartbeat_topic := [104, 98]
  string_logicer_heartbeat_topic := [108, 103]
  string_locked_mode_topic := [108, 111, 99, 107]
  string_status_led_topic := [108, 101, 100]
  string_fan_topic := [102, 97, 110]
  DMX_STORAGE_CHANNELS := 8

/-- A state as start-up leaves it with all pins low, except that the pull-up bits of
port 0 are clear: outputs driven (direction bits of port 1 set), every input dirty, fan
at full duty. -/
def demo_state : State where
  logicer_state := false
  locked_mode := false
  status_led_value := 16
  pin_input_states := fun _ => ⟨false, true⟩
  output_states := fun _ => ⟨0, 0⟩
  ddrs := fun p => if p = 1 then 7 else 0
  ports := fun _ => 0
  dmx := fun _ => 0
  OCR2A := 255

/-- The state `demo_state` in locked mode. -/
def demo_locked : State := { demo_state with locked_mode := true }

/-- The state `demo_state` with every input published (no dirty flag set). -/
def demo_clean : State := { demo_state with pin_input_states := fun _ => ⟨false, false⟩ }

/-- The state `demo_clean` with the supervisor heartbeat seen. -/
def demo_alive : State := { demo_clean with logicer_state := true }

/-- The configuration `demo_config` with two outputs whose command topics are "ab"
(output 0) and "a" (output 1). -/
def overlap_config : Config :=
  { demo_config with
    output_count := 2
    output_configs := fun i => ⟨1, i, false, false, false, false, if i = 0 then [97, 98] else [97]⟩ }

/-- The configuration `demo_config` with a single output: open-drain, in the
emergency-toggle group, on port 1 pin 0. -/
def opendrain_config : Config :=
  { demo_config with
    output_count := 1
    output_configs := fun _ => ⟨1, 0, true, false, true, false, [111]⟩ }

/-- The configuration `demo_config` with a single push-pull output on port 1 pin 0 that
has both the `emergency_toggled` and the `emergency_zeroed` flag set. -/
def both_groups_config : Config :=
  { demo_config with
    output_count := 1
    output_configs := fun _ => ⟨1, 0, false, false, true, true, [111]⟩ }

/-- The configuration `demo_config` with output 1 moved from the emergency-toggle group
to the emergency-zero group. -/
def zero_group_config : Config :=
  { demo_config with
    output_configs := fun i => ⟨1, i, false, true, decide (i ≠ 1), decide (i = 1), [111, 48 + i]⟩ }

/-- The state `demo_state` with output 0 driven high: the toggle-group outputs of
`demo_config` read on, off, off. -/
def demo_one_on : State := { demo_state with ports := fun p => if p = 1 then 1 else 0 }

/-- The configuration `demo_config` with a single output whose command topic is
"sudo/x". -/
def sudo_topic_config : Config :=
  { demo_config with
    output_count := 1
    output_configs := fun _ => ⟨1, 0, false, false, false, false, [115, 117, 100, 111, 47, 120]⟩ }

/-- The state `demo_state` with every direction bit clear. -/
def demo_undriven : State := { demo_state with ddrs := fun _ => 0 }

/-- The state `demo_state` with outputs 0 and 1 driven high, output 0 holding the
pattern 0x01 (high-phase fields zero) with timer 0 and outputs 1 and 2 the pattern 0. -/
def demo_sentinel_first : State :=
  { demo_state with
    output_states := fun i => if i = 0 then ⟨1, 0⟩ else ⟨0, 0⟩
    ports := fun p => if p = 1 then 3 else 0 }

/-- The configuration `demo_config` with two blink-enabled push-pull outputs that are
both configured on port 1 pin 0. -/
def shared_pin_config : Config :=
  { demo_config with
    output_count := 2
    output_configs := fun i => ⟨1, 0, false, true, false, false, [111, 48 + i]⟩ }

/-- The state `demo_state` with the pin of port 1 pin 0 driven high, output 0 holding
the pattern 0x01 with timer 5 and output 1 the pattern 0. -/
def demo_shared_high : State :=
  { demo_state with
    output_states := fun i => if i = 0 then ⟨1, 5⟩ else ⟨0, 0⟩
    ports := fun p => if p = 1 then 1 else 0 }

/-- The state `demo_state` with output 0 holding the pattern 0x44 and timer 0. -/
def demo_blink_start : State :=
  { demo_state with output_states := fun i => if i = 0 then ⟨0x44, 0⟩ else ⟨0, 0⟩ }

/-- The state `demo_state` with output 0 holding a nonzero pattern and timer 200. -/
def demo_long_timer : State :=
  { demo_state with output_states := fun i => if i = 0 then ⟨0x44, 200⟩ else ⟨0, 0⟩ }

/-! ## String comparison -/

theorem strncmp_P_zero_iff_isPrefix (t rest c : List Nat) (h : ∀ x ∈ t, x ≠ 0) :
    strncmp_P (t ++ rest) c t.length = 0 ↔ t <+: c := by
  induction t generalizing c with
  | nil => simp [strncmp_P]
  | cons x xs ih =>
    have hx : x ≠ 0 := h x (by simp)
    have hxs : ∀ z ∈ xs, z ≠ 0 := fun z hz => h z (by simp [hz])
    cases c with
    | nil =>
      simp only [List.cons_append, List.length_cons, strncmp_P, List.headD_cons, List.headD_nil]
      simp [hx]
    | cons y ys =>
      simp only [List.cons_append, List.length_cons, strncmp_P, List.headD_cons,
        List.tail_cons]
      by_cases hxy : x = y
      · subst hxy
        simp [hx, ih ys hxs, List.cons_prefix_cons]
      · have hne : (x : Int) - (y : Int) ≠ 0 := by omega
        simp [hxy, hne, List.cons_prefix_cons]

theorem strncmp_P_symm_zero (a b : List Nat) (n : Nat) :
    strncmp_P a b n = 0 ↔ strncmp_P b a n = 0 := by
  induction n generalizing a b with
  | zero => simp [strncmp_P]
  | succ n ih =>
    simp only [strncmp_P]
    have ih1 := ih a.tail b.tail
    generalize a.headD 0 = x at *
    generalize b.headD 0 = y at *
    by_cases hxy : x = y
    · subst hxy
      by_cases h0 : x = 0 <;> simp [h0, ih1]
    · have hyx : ¬ y = x := fun h => hxy h.symm
      have h1 : (x : Int) - (y : Int) ≠ 0 := by omega
      have h2 : (y : Int) - (x : Int) ≠ 0 := by omega
      simp [hxy, hyx, h1, h2]

theorem sudo_check_iff (topic : List Nat) :
    strncmp_P topic string_sudo_prefix ( string_sudo_prefix.length + 1 - 1) = 0
      ↔ string_sudo_prefix <+: topic := by
  rw [strncmp_P_symm_zero]
  have h := strncmp_P_zero_iff_isPrefix string_sudo_prefix [] topic
    (by decide)
  simpa using h

/-! ## Command router: lock gate -/

theorem sudo_branch_imp (topic : List Nat) (topic_length : Nat)
    (h : topic_length ≥ string_sudo_prefix.length + 1
      ∧ strncmp_P topic string_sudo_prefix ( string_sudo_prefix.length + 1 - 1) = 0) :
    string_sudo_prefix <+: topic.take topic_length := by
  obtain ⟨hlen, hcmp⟩ := h
  rw [sudo_check_iff] at hcmp
  obtain ⟨r, rfl⟩ := hcmp
  rw [List.take_append_eq_append_take, List.take_of_length_le (by omega)]
  exact List.prefix_append _ _

/-- C1 (lock gating): in locked mode a message whose topic (the first `topic_length`
bytes at the topic pointer) does not begin with "sudo/" leaves the whole controller
state unchanged, whatever the payload and whatever the topic, the lock-mode topic
included. -/
theorem lock_gating_drops_plain_message (cfg : Config) (s : State) (topic : List Nat)
    (topic_length : Nat) (payload : List Nat)
    (hlocked : s.locked_mode = true)
    (hplain : ¬ string_sudo_prefix <+: topic.take topic_length) :
    autoc4_publish_callback cfg s topic topic_length payload = s := by
  unfold autoc4_publish_callback
  rw [if_neg (fun h => hplain (sudo_branch_imp topic topic_length h)), if_pos hlocked]

/-- Witness for C1: an unlock request (payload 0) on the plain lock-mode topic "lock"
is dropped in locked mode. -/
theorem lock_gating_drops_plain_message_witness :
    demo_locked.locked_mode = true
      ∧ ¬ string_sudo_prefix <+: ([108, 111, 99, 107] : List Nat).take 4
      ∧ autoc4_publish_callback demo_config demo_locked [108, 111, 99, 107] 4 [0]
          = demo_locked :=
  ⟨rfl, by decide,
    lock_gating_drops_plain_message demo_config demo_locked [108, 111, 99, 107] 4 [0]
      rfl (by decide)⟩

/-- C2 (override path), evaluated at a failing input: in locked mode, with fan topic
"fan", the message with topic "sudo/fan" (topic length 8) whose one-byte payload 128
follows the topic in the receive buffer does not reach the PWM duty register, which
keeps its old value 255: the comparison against "fan" still runs over 8 bytes from the
advanced pointer and meets the payload byte where the configured string ends. -/
theorem sudo_fan_command_not_applied :
    demo_locked.locked_mode = true
      ∧ (autoc4_publish_callback demo_config demo_locked
          (( string_sudo_prefix ++ demo_config.string_fan_topic) ++ [128])
          ( string_sudo_prefix ++ demo_config.string_fan_topic).length [128]).OCR2A = 255
      ∧ demo_locked.OCR2A = 255 := by
  decide

/-! ## Command router: dispatch -/

theorem find_range_eq_some (p : Nat → Bool) (n i : Nat) :
    (List.range n).find? p = some i ↔ i < n ∧ p i = true ∧ ∀ j < i, p j = false := by
  induction n generalizing i with
  | zero => simp
  | succ n ih =>
    rw [List.range_succ, List.find?_append]
    cases hfind : (List.range n).find? p with
    | some k =>
      obtain ⟨hk, hpk, hmin⟩ := (ih k).mp hfind
      simp only [Option.or_some, Option.some.injEq]
      constructor
      · rintro rfl
        exact ⟨by omega, hpk, hmin⟩
      · rintro ⟨_, hpi, hmini⟩
        rcases Nat.lt_trichotomy k i with h | h | h
        · rw [hmini k h] at hpk; cases hpk
        · exact h
        · rw [hmin i h] at hpi; cases hpi
    | none =>
      rw [List.find?_eq_none] at hfind
      simp only [Option.none_or]
      by_cases hpn : p n = true
      · simp only [List.find?_cons, hpn, Option.some.injEq]
        constructor
        · rintro rfl
          refine ⟨by omega, hpn, fun j hj => ?_⟩
          simpa using hfind j (List.mem_range.mpr hj)
        · rintro ⟨hi, hpi, _⟩
          by_contra hne
          have hlt : i < n := by omega
          exact hfind i (List.mem_range.mpr hlt) hpi
      · simp only [List.find?_cons, hpn, List.find?_nil]
        constructor
        · intro h; cases h
        · rintro ⟨hi, hpi, _⟩
          by_cases hin : i = n
          · subst hin; exact absurd hpi hpn
          · exact absurd hpi (hfind i (List.mem_range.mpr (by omega)))

theorem find_range_eq_none (p : Nat → Bool) (n : Nat) :
    (List.range n).find? p = none ↔ ∀ i < n, p i = false := by
  rw [List.find?_eq_none]
  constructor
  · intro h i hi
    simpa using h i (List.mem_range.mpr hi)
  · intro h x hx
    simp [h x (List.mem_range.mp hx)]

@[simp] theorem set_output_logicer_state (cfg : Config) (i v : Nat) (s : State) :
    (autoc4_set_output cfg i v s).logicer_state = s.logicer_state := by
  unfold autoc4_set_output; dsimp only; split_ifs <;> rfl

@[simp] theorem set_output_locked_mode (cfg : Config) (i v : Nat) (s : State) :
    (autoc4_set_output cfg i v s).locked_mode = s.locked_mode := by
  unfold autoc4_set_output; dsimp only; split_ifs <;> rfl

@[simp] theorem set_output_status_led_value (cfg : Config) (i v : Nat) (s : State) :
    (autoc4_set_output cfg i v s).status_led_value = s.status_led_value := by
  unfold autoc4_set_output; dsimp only; split_ifs <;> rfl

@[simp] theorem set_output_pin_input_states (cfg : Config) (i v : Nat) (s : State) :
    (autoc4_set_output cfg i v s).pin_input_states = s.pin_input_states := by
  unfold autoc4_set_output; dsimp only; split_ifs <;> rfl

@[simp] theorem set_output_output_states (cfg : Config) (i v : Nat) (s : State) :
    (autoc4_set_output cfg i v s).output_states = s.output_states := by
  unfold autoc4_set_output; dsimp only; split_ifs <;> rfl

@[simp] theorem set_output_dmx (cfg : Config) (i v : Nat) (s : State) :
    (autoc4_set_output cfg i v s).dmx = s.dmx := by
  unfold autoc4_set_output; dsimp only; split_ifs <;> rfl

@[simp] theorem set_output_OCR2A (cfg : Config) (i v : Nat) (s : State) :
    (autoc4_set_output cfg i v s).OCR2A = s.OCR2A := by
  unfold autoc4_set_output; dsimp only; split_ifs <;> rfl

theorem plain_topic_dispatch (cfg : Config) (s : State) (T rest payload : List Nat)
    (hunlocked : s.locked_mode = false)
    (hplain : ¬ string_sudo_prefix <+: T) :
    autoc4_publish_callback cfg s (T ++ rest) T.length payload
      = autoc4_publish_dispatch cfg s (T ++ rest) T.length payload := by
  unfold autoc4_publish_callback
  rw [if_neg, if_neg (by simp [hunlocked])]
  intro h
  have := sudo_branch_imp (T ++ rest) T.length h
  simp at this
  exact hplain this

/-- C3 (dispatch), as amended: in unlocked state, for a message whose topic `T` has no
NUL byte and does not begin with "sudo/" (any bytes `rest` after the topic in the
buffer, any payload), a part of the state changes only if `T` is a prefix of the
configured topic of a handler that writes that part, and if `T` is a prefix of none of
the configured topics then the entire state is unchanged. -/
theorem dispatch_only_on_prefix_match (cfg : Config) (s : State) (T rest payload : List Nat)
    (hunlocked : s.locked_mode = false)
    (hnul : ∀ x ∈ T, x ≠ 0)
    (hplain : ¬ string_sudo_prefix <+: T) :
    ((autoc4_publish_callback cfg s (T ++ rest) T.length payload).output_states
          ≠ s.output_states
        ∨ (autoc4_publish_callback cfg s (T ++ rest) T.length payload).ddrs ≠ s.ddrs
        ∨ (autoc4_publish_callback cfg s (T ++ rest) T.length payload).ports ≠ s.ports →
        ∃ i < cfg.output_count, T <+: (cfg.output_configs i).topic)
      ∧ ((autoc4_publish_callback cfg s (T ++ rest) T.length payload).dmx ≠ s.dmx →
        T <+: cfg.dmx_topic ∨ ∃ i < cfg.dmx_count, T <+: (cfg.dmx_configs i).topic)
      ∧ ((autoc4_publish_callback cfg s (T ++ rest) T.length payload).logicer_state
          ≠ s.logicer_state → T <+: cfg.string_logicer_heartbeat_topic)
      ∧ ((autoc4_publish_callback cfg s (T ++ rest) T.length payload).locked_mode
          ≠ s.locked_mode → T <+: cfg.string_locked_mode_topic)
      ∧ ((autoc4_publish_callback cfg s (T ++ rest) T.length payload).status_led_value
          ≠ s.status_led_value → T <+: cfg.string_status_led_topic)
      ∧ ((autoc4_publish_callback cfg s (T ++ rest) T.length payload).OCR2A ≠ s.OCR2A →
        T <+: cfg.string_fan_topic)
      ∧ (autoc4_publish_callback cfg s (T ++ rest) T.length payload).pin_input_states
          = s.pin_input_states
      ∧ ((∀ i < cfg.output_count, ¬ T <+: (cfg.output_configs i).topic) →
          ¬ T <+: cfg.dmx_topic →
          (∀ i < cfg.dmx_count, ¬ T <+: (cfg.dmx_configs i).topic) →
          ¬ T <+: cfg.string_logicer_heartbeat_topic →
          ¬ T <+: cfg.string_locked_mode_topic →
          ¬ T <+: cfg.string_status_led_topic →
          ¬ T <+: cfg.string_fan_topic →
          autoc4_publish_callback cfg s (T ++ rest) T.length payload = s) := by
  rw [plain_topic_dispatch cfg s T rest payload hunlocked hplain]
  have hm : ∀ c : List Nat, strncmp_P (T ++ rest) c T.length = 0 ↔ T <+: c :=
    fun c => strncmp_P_zero_iff_isPrefix T rest c hnul
  unfold autoc4_publish_dispatch
  by_cases hp : payload.length > 0
  swap
  · simp [hp]
  rw [if_pos hp]
  cases hout : (List.range cfg.output_count).find?
      (fun i => strncmp_P (T ++ rest) (cfg.output_configs i).topic T.length == 0) with
  | some i =>
    rw [find_range_eq_some] at hout
    obtain ⟨hi, hpi, -⟩ := hout
    have hTi : T <+: (cfg.output_configs i).topic := (hm _).mp (by simpa using hpi)
    simp only [set_output_dmx, set_output_logicer_state, set_output_locked_mode,
      set_output_status_led_value, set_output_OCR2A, set_output_pin_input_states, ne_eq,
      not_true_eq_false, false_imp_iff, true_and]
    refine ⟨fun _ => ⟨i, hi, hTi⟩, fun h => absurd hTi (h i hi)⟩
  | none =>
    rw [find_range_eq_none] at hout
    have hno : ∀ i < cfg.output_count, ¬ T <+: (cfg.output_configs i).topic := by
      intro i hi hTi
      have := hout i hi
      simp [(hm _).mpr hTi] at this
    dsimp only
    by_cases hdmx : strncmp_P (T ++ rest) cfg.dmx_topic T.length = 0
    · have hT := (hm _).mp hdmx
      simp [hdmx, hT]
    rw [if_neg hdmx]
    cases hdev : (List.range cfg.dmx_count).find?
        (fun i => strncmp_P (T ++ rest) (cfg.dmx_configs i).topic T.length == 0) with
    | some i =>
      rw [find_range_eq_some] at hdev
      obtain ⟨hi, hpi, -⟩ := hdev
      have hTi : T <+: (cfg.dmx_configs i).topic := (hm _).mp (by simpa using hpi)
      simp only [ne_eq, not_true_eq_false, false_or, false_imp_iff, true_and]
      refine ⟨fun _ => Or.inr ⟨i, hi, hTi⟩, fun _ _ h => absurd hTi (h i hi)⟩
    | none =>
      dsimp only
      by_cases hhb : strncmp_P (T ++ rest) cfg.string_logicer_heartbeat_topic T.length = 0
      · have hT := (hm _).mp hhb
        simp [hhb, hT]
      rw [if_neg hhb]
      by_cases hlk : strncmp_P (T ++ rest) cfg.string_locked_mode_topic T.length = 0
      · have hT := (hm _).mp hlk
        simp [hlk, hT]
      rw [if_neg hlk]
      by_cases hled : strncmp_P (T ++ rest) cfg.string_status_led_topic T.length = 0
      · have hT := (hm _).mp hled
        simp [hled, hT]
      rw [if_neg hled]
      by_cases hfan : strncmp_P (T ++ rest) cfg.string_fan_topic T.length = 0
      · have hT := (hm _).mp hfan
        simp [hfan, hT]
      rw [if_neg hfan]
      simp

/-- Witness for C3 as amended: the topic "zz" is a prefix of no configured topic of
`demo_config`, and the message leaves `demo_state` unchanged. -/
theorem dispatch_only_on_prefix_match_witness :
    demo_state.locked_mode = false
      ∧ (∀ x ∈ ([122, 122] : List Nat), x ≠ 0)
      ∧ ¬ string_sudo_prefix <+: ([122, 122] : List Nat)
      ∧ autoc4_publish_callback demo_config demo_state ([122, 122] ++ [9]) 2 [9]
          = demo_state :=
  ⟨rfl, by decide, by decide,
    (dispatch_only_on_prefix_match demo_config demo_state [122, 122] [9] [9] rfl (by decide)
      (by decide)).2.2.2.2.2.2.2 (by decide) (by decide) (by decide) (by decide) (by decide)
      (by decide) (by decide)⟩

/-- Counterexample to C3 as stated: in unlocked state the topic "fa" equals none of the
configured topics of `demo_config`, yet the message with payload 7 is handled as a fan
command (fan topic "fan") and changes the PWM duty register from 255 to 7.  Likewise
the topic "sudo/fan", followed by a NUL byte in the buffer, equals none of the
configured topics and is handled as a fan command. -/
theorem exact_match_dispatch_counterexample :
    demo_state.locked_mode = false
      ∧ (∀ i < demo_config.output_count, (demo_config.output_configs i).topic ≠ [102, 97])
      ∧ demo_config.dmx_topic ≠ [102, 97]
      ∧ (∀ i < demo_config.dmx_count, (demo_config.dmx_configs i).topic ≠ [102, 97])
      ∧ demo_config.string_logicer_heartbeat_topic ≠ [102, 97]
      ∧ demo_config.string_locked_mode_topic ≠ [102, 97]
      ∧ demo_config.string_status_led_topic ≠ [102, 97]
      ∧ demo_config.string_fan_topic ≠ [102, 97]
      ∧ demo_state.OCR2A = 255
      ∧ (autoc4_publish_callback demo_config demo_state [102, 97] 2 [7]).OCR2A = 7
      ∧ (autoc4_publish_callback demo_config demo_state
          ([115, 117, 100, 111, 47, 102, 97, 110] ++ [0]) 8 [9]).OCR2A = 9 := by
  decide

/-- C4 (output command), as amended: in unlocked state, for a non-empty payload and a
message whose topic `T` has no NUL byte and does not begin with "sudo/", let `i` be the
lowest output index whose command topic has `T` as a prefix.  After the callback
`output_states[i]` holds `payload[0]` and timer 0, the registers are those that
`autoc4_set_output(i, payload[0])` produces, and nothing else changes, whatever later
handlers are configured with. -/
theorem output_command_first_prefix_match (cfg : Config) (s : State)
    (T rest payload : List Nat) (i : Nat)
    (hunlocked : s.locked_mode = false)
    (hpayload : payload ≠ [])
    (hnul : ∀ x ∈ T, x ≠ 0)
    (hplain : ¬ string_sudo_prefix <+: T)
    (hi : i < cfg.output_count)
    (hmatch : T <+: (cfg.output_configs i).topic)
    (hfirst : ∀ j < i, ¬ T <+: (cfg.output_configs j).topic) :
    (autoc4_publish_callback cfg s (T ++ rest) T.length payload).output_states i
        = ⟨payload.headD 0, 0⟩
      ∧ (∀ j, j ≠ i →
        (autoc4_publish_callback cfg s (T ++ rest) T.length payload).output_states j
          = s.output_states j)
      ∧ (autoc4_publish_callback cfg s (T ++ rest) T.length payload).ddrs
          = (autoc4_set_output cfg i (payload.headD 0) s).ddrs
      ∧ (autoc4_publish_callback cfg s (T ++ rest) T.length payload).ports
          = (autoc4_set_output cfg i (payload.headD 0) s).ports
      ∧ (autoc4_publish_callback cfg s (T ++ rest) T.length payload).dmx = s.dmx
      ∧ (autoc4_publish_callback cfg s (T ++ rest) T.length payload).pin_input_states
          = s.pin_input_states
      ∧ (autoc4_publish_callback cfg s (T ++ rest) T.length payload).logicer_state
          = s.logicer_state
      ∧ (autoc4_publish_callback cfg s (T ++ rest) T.length payload).locked_mode
          = s.locked_mode
      ∧ (autoc4_publish_callback cfg s (T ++ rest) T.length payload).status_led_value
          = s.status_led_value
      ∧ (autoc4_publish_callback cfg s (T ++ rest) T.length payload).OCR2A = s.OCR2A := by
  rw [plain_topic_dispatch cfg s T rest payload hunlocked hplain]
  have hm : ∀ c : List Nat, strncmp_P (T ++ rest) c T.length = 0 ↔ T <+: c :=
    fun c => strncmp_P_zero_iff_isPrefix T rest c hnul
  have hp : payload.length > 0 := List.length_pos.mpr hpayload
  have hfind : (List.range cfg.output_count).find?
      (fun i => strncmp_P (T ++ rest) (cfg.output_configs i).topic T.length == 0)
        = some i := by
    rw [find_range_eq_some]
    refine ⟨hi, by simpa using (hm _).mpr hmatch, fun j hj => ?_⟩
    have := hfirst j hj
    rw [← hm] at this
    simpa using this
  unfold autoc4_publish_dispatch
  rw [if_pos hp, hfind]
  simp only [set_output_dmx, set_output_logicer_state, set_output_locked_mode,
    set_output_status_led_value, set_output_OCR2A, set_output_pin_input_states,
    set_output_output_states, and_true]
  refine ⟨by simp [upd], fun j hj => by simp [upd, hj], ?_, ?_⟩
  · unfold autoc4_set_output; dsimp only; split_ifs <;> rfl
  · unfold autoc4_set_output; dsimp only; split_ifs <;> rfl

/-- Witness for C4 as amended: the command "o1" with payload 1 on `demo_state`. -/
theorem output_command_first_prefix_match_witness :
    demo_state.locked_mode = false
      ∧ ([1] : List Nat) ≠ []
      ∧ (∀ x ∈ ([111, 49] : List Nat), x ≠ 0)
      ∧ ¬ string_sudo_prefix <+: ([111, 49] : List Nat)
      ∧ 1 < demo_config.output_count
      ∧ ([111, 49] : List Nat) <+: (demo_config.output_configs 1).topic
      ∧ (∀ j < 1, ¬ ([111, 49] : List Nat) <+: (demo_config.output_configs j).topic)
      ∧ (autoc4_publish_callback demo_config demo_state ([111, 49] ++ [1]) 2 [1]).output_states 1
          = ⟨1, 0⟩ :=
  ⟨rfl, by decide, by decide, by decide, by decide, by decide, by decide,
    (output_command_first_prefix_match demo_config demo_state [111, 49] [1] [1] 1 rfl
      (by decide) (by decide) (by decide) (by decide) (by decide) (by decide)).1⟩

/-- Counterexample to C4 as stated: with command topics "ab" (output 0) and "a"
(output 1), the lowest output whose command topic equals the message topic "a" is
output 1, yet the callback stores the payload in `output_states[0]` and leaves
`output_states[1]` as it was.  And with the command topic "sudo/x" the message with
that very topic, payload 1 following it in the buffer, leaves `output_states[0]` as it
was. -/
theorem output_command_counterexample :
    demo_state.locked_mode = false
      ∧ (overlap_config.output_configs 1).topic = [97]
      ∧ (overlap_config.output_configs 0).topic ≠ [97]
      ∧ demo_state.output_states 1 = ⟨0, 0⟩
      ∧ (autoc4_publish_callback overlap_config demo_state [97] 1 [1]).output_states 1
          = ⟨0, 0⟩
      ∧ (autoc4_publish_callback overlap_config demo_state [97] 1 [1]).output_states 0
          = ⟨1, 0⟩
      ∧ (sudo_topic_config.output_configs 0).topic = [115, 117, 100, 111, 47, 120]
      ∧ (autoc4_publish_callback sudo_topic_config demo_state
          ([115, 117, 100, 111, 47, 120] ++ [1]) 6 [1]).output_states 0 = ⟨0, 0⟩ := by
  decide

/-! ## Publish drain -/

theorem poll_clear_pin_input_states (s : State) (a j : Nat) :
    (autoc4_poll_clear s a).pin_input_states j
      = if j = a then ⟨(s.pin_input_states a).prev_state, false⟩ else s.pin_input_states j := by
  unfold autoc4_poll_clear upd
  by_cases h : j = a <;> simp [h]

theorem poll_call_poll_clear (cfg : Config) (s : State) (a j : Nat) :
    autoc4_poll_call cfg (autoc4_poll_clear s a) j = autoc4_poll_call cfg s j := by
  unfold autoc4_poll_call
  rw [poll_clear_pin_input_states]
  by_cases h : j = a
  · subst h; simp
  · simp [h]

theorem poll_loop_spec (cfg : Config) (pub : Nat → Bool) (m : Nat) :
    ∀ (n a : Nat) (s : State), a ≤ m → m ≤ a + n →
      (∀ j, a ≤ j → j < m → (s.pin_input_states j).mqtt_dirty = true → pub j = true) →
      (m < a + n → (s.pin_input_states m).mqtt_dirty = true ∧ pub m = false) →
      (∀ j, a ≤ j → j < m →
          (autoc4_poll_loop cfg pub (List.range' a n) s).1.pin_input_states j
            = ⟨(s.pin_input_states j).prev_state, false⟩)
        ∧ (∀ j, j < a ∨ m ≤ j →
          (autoc4_poll_loop cfg pub (List.range' a n) s).1.pin_input_states j
            = s.pin_input_states j)
        ∧ (autoc4_poll_loop cfg pub (List.range' a n) s).2
            = ((List.range' a (m - a)).filter
                (fun j => (s.pin_input_states j).mqtt_dirty)).map (autoc4_poll_call cfg s)
              ++ (if m < a + n then [autoc4_poll_call cfg s m] else []) := by
  intro n
  induction n with
  | zero =>
    intro a s ham hmn _ _
    have hma : m = a := by omega
    subst hma
    simp [autoc4_poll_loop]
    intro j h1 h2; omega
  | succ n ih =>
    intro a s ham hmn hok hfail
    rw [List.range'_succ]
    by_cases hma : m = a
    · subst hma
      obtain ⟨hd, hp⟩ := hfail (by omega)
      have hloop : autoc4_poll_loop cfg pub (m :: List.range' (m + 1) n) s
          = (s, [autoc4_poll_call cfg s m]) := by
        simp [autoc4_poll_loop, hd, hp]
      rw [hloop]
      refine ⟨fun j h1 h2 => by omega, fun j _ => rfl, ?_⟩
      simp
    · have ham1 : a + 1 ≤ m := by omega
      have hmn1 : m ≤ a + 1 + n := by omega
      have hsplit : m - a = (m - (a + 1)) + 1 := by omega
      by_cases hd : (s.pin_input_states a).mqtt_dirty = true
      · have hp : pub a = true := hok a (le_refl a) (by omega) hd
        have hok1 : ∀ j, a + 1 ≤ j → j < m →
            ((autoc4_poll_clear s a).pin_input_states j).mqtt_dirty = true → pub j = true := by
          intro j h1 h2 h3
          rw [poll_clear_pin_input_states, if_neg (by omega)] at h3
          exact hok j (by omega) h2 h3
        have hfail1 : m < a + 1 + n →
            ((autoc4_poll_clear s a).pin_input_states m).mqtt_dirty = true ∧ pub m = false := by
          intro h
          rw [poll_clear_pin_input_states, if_neg (by omega)]
          exact hfail (by omega)
        obtain ⟨h1, h2, h3⟩ := ih (a + 1) (autoc4_poll_clear s a) ham1 hmn1 hok1 hfail1
        simp only [autoc4_poll_loop, hd, hp, if_true]
        refine ⟨fun j hj1 hj2 => ?_, fun j hj => ?_, ?_⟩
        · by_cases hja : j = a
          · subst hja
            rw [h2 j (Or.inl (by omega)), poll_clear_pin_input_states, if_pos rfl]
          · rw [h1 j (by omega) hj2, poll_clear_pin_input_states, if_neg hja]
        · rw [h2 j (by omega), poll_clear_pin_input_states, if_neg (by omega)]
        · rw [h3, hsplit, List.range'_succ, List.filter_cons_of_pos (by simpa using hd),
            List.map_cons, List.cons_append]
          congr 1
          have hif : (m < a + 1 + n) = (m < a + (n + 1)) := by
            rw [Nat.add_assoc, Nat.add_comm 1 n]
          simp only [hif, poll_call_poll_clear]
          congr 1
          have hfc : (List.range' (a + 1) (m - (a + 1))).filter
                (fun j => ((autoc4_poll_clear s a).pin_input_states j).mqtt_dirty)
              = (List.range' (a + 1) (m - (a + 1))).filter
                (fun j => (s.pin_input_states j).mqtt_dirty) := by
            apply List.filter_congr
            intro j hj
            rw [List.mem_range'_1] at hj
            rw [poll_clear_pin_input_states, if_neg (by omega)]
          rw [hfc]
          apply List.map_congr_left
          intro j _
          exact poll_call_poll_clear cfg s a j
      · obtain ⟨h1, h2, h3⟩ := ih (a + 1) s ham1 hmn1
          (fun j hj1 hj2 => hok j (by omega) hj2) (fun h => hfail (by omega))
        simp only [autoc4_poll_loop, hd, Bool.false_eq_true, if_false]
        refine ⟨fun j hj1 hj2 => ?_, fun j hj => ?_, ?_⟩
        · by_cases hja : j = a
          · subst hja
            rw [h2 j (Or.inl (by omega))]
            cases hst : s.pin_input_states j with
            | mk pv dt =>
              rw [hst] at hd
              simp at hd
              simp [hd]
          · exact h1 j (by omega) hj2
        · exact h2 j (by omega)
        · rw [h3, hsplit, List.range'_succ, List.filter_cons_of_neg (by simpa using hd)]
          have hif : (m < a + 1 + n) = (m < a + (n + 1)) := by
            rw [Nat.add_assoc, Nat.add_comm 1 n]
          simp only [hif]

theorem poll_loop_frame (cfg : Config) (pub : Nat → Bool) (l : List Nat) (s : State) :
    (∀ j, ((autoc4_poll_loop cfg pub l s).1.pin_input_states j).prev_state
        = (s.pin_input_states j).prev_state)
      ∧ (autoc4_poll_loop cfg pub l s).1.logicer_state = s.logicer_state
      ∧ (autoc4_poll_loop cfg pub l s).1.locked_mode = s.locked_mode
      ∧ (autoc4_poll_loop cfg pub l s).1.status_led_value = s.status_led_value
      ∧ (autoc4_poll_loop cfg pub l s).1.output_states = s.output_states
      ∧ (autoc4_poll_loop cfg pub l s).1.ddrs = s.ddrs
      ∧ (autoc4_poll_loop cfg pub l s).1.ports = s.ports
      ∧ (autoc4_poll_loop cfg pub l s).1.dmx = s.dmx
      ∧ (autoc4_poll_loop cfg pub l s).1.OCR2A = s.OCR2A := by
  induction l generalizing s with
  | nil => simp [autoc4_poll_loop]
  | cons i rest ih =>
    unfold autoc4_poll_loop
    by_cases hd : (s.pin_input_states i).mqtt_dirty = true
    · by_cases hp : pub i = true
      · simp only [hd, hp, if_true]
        obtain ⟨h1, h2⟩ := ih (autoc4_poll_clear s i)
        refine ⟨fun j => ?_, h2⟩
        rw [h1 j, poll_clear_pin_input_states]
        by_cases hj : j = i
        · subst hj; simp
        · simp [hj]
      · simp [hd, hp]
    · simp only [hd, Bool.false_eq_true, if_false]
      exact ih s

/-- C5 (publish drain): `autoc4_poll` never modifies `prev_state` (nor anything but the
dirty flags).  If index `k` is the first dirty input whose publish fails, then every
input below `k` ends clean, every input from `k` on keeps its flag, and the publish
calls made are exactly those for the dirty inputs among `0..k`, in ascending order, so
none is made for an index above `k`.  If no publish fails, every input ends clean and
the calls made are those for all dirty inputs, in ascending order. -/
theorem publish_drain_stops_at_first_failure (cfg : Config) (pub : Nat → Bool) (s : State) :
    (∀ j, ((autoc4_poll cfg pub s).1.pin_input_states j).prev_state
        = (s.pin_input_states j).prev_state)
      ∧ (∀ k, k < cfg.input_count → (s.pin_input_states k).mqtt_dirty = true →
          pub k = false →
          (∀ j < k, (s.pin_input_states j).mqtt_dirty = true → pub j = true) →
          (∀ j < k, ((autoc4_poll cfg pub s).1.pin_input_states j).mqtt_dirty = false)
            ∧ (∀ j, k ≤ j → ((autoc4_poll cfg pub s).1.pin_input_states j).mqtt_dirty
                = (s.pin_input_states j).mqtt_dirty)
            ∧ (autoc4_poll cfg pub s).2
                = ((List.range (k + 1)).filter
                    (fun j => (s.pin_input_states j).mqtt_dirty)).map (autoc4_poll_call cfg s))
      ∧ ((∀ j < cfg.input_count, (s.pin_input_states j).mqtt_dirty = true → pub j = true) →
          (∀ j < cfg.input_count,
              ((autoc4_poll cfg pub s).1.pin_input_states j).mqtt_dirty = false)
            ∧ (autoc4_poll cfg pub s).2
                = ((List.range cfg.input_count).filter
                    (fun j => (s.pin_input_states j).mqtt_dirty)).map (autoc4_poll_call cfg s))
      ∧ (autoc4_poll cfg pub s).1.logicer_state = s.logicer_state
      ∧ (autoc4_poll cfg pub s).1.locked_mode = s.locked_mode
      ∧ (autoc4_poll cfg pub s).1.status_led_value = s.status_led_value
      ∧ (autoc4_poll cfg pub s).1.output_states = s.output_states
      ∧ (autoc4_poll cfg pub s).1.ddrs = s.ddrs
      ∧ (autoc4_poll cfg pub s).1.ports = s.ports
      ∧ (autoc4_poll cfg pub s).1.dmx = s.dmx
      ∧ (autoc4_poll cfg pub s).1.OCR2A = s.OCR2A := by
  unfold autoc4_poll
  obtain ⟨hprev, hframe⟩ := poll_loop_frame cfg pub (List.range cfg.input_count) s
  refine ⟨hprev, ?_, ?_, hframe⟩
  · intro k hk hd hp hok
    rw [List.range_eq_range']
    obtain ⟨h1, h2, h3⟩ := poll_loop_spec cfg pub k cfg.input_count 0 s (Nat.zero_le k)
      (by omega) (fun j _ hj => hok j hj) (fun _ => ⟨hd, hp⟩)
    refine ⟨fun j hj => ?_, fun j hj => ?_, ?_⟩
    · rw [h1 j (Nat.zero_le j) hj]
    · rw [h2 j (Or.inr hj)]
    · rw [h3, if_pos (by omega), Nat.sub_zero, List.range_succ, ← List.range_eq_range',
        List.filter_append, List.map_append]
      simp [hd]
  · intro hok
    rw [List.range_eq_range']
    obtain ⟨h1, _, h3⟩ := poll_loop_spec cfg pub cfg.input_count cfg.input_count 0 s
      (Nat.zero_le _) (by omega) (fun j _ hj => hok j hj) (fun h => absurd h (by omega))
    refine ⟨fun j hj => ?_, ?_⟩
    · rw [h1 j (Nat.zero_le j) hj]
    · rw [h3, if_neg (by omega), Nat.sub_zero, List.append_nil]

/-- Witness for C5: all three inputs of `demo_state` are dirty and the publish for
input 2 fails; inputs 0 and 1 end clean, input 2 stays dirty, three calls are made. -/
theorem publish_drain_stops_at_first_failure_witness :
    ((autoc4_poll demo_config (fun i => decide (i < 2)) demo_state).1.pin_input_states 0).mqtt_dirty
        = false
      ∧ ((autoc4_poll demo_config (fun i => decide (i < 2)) demo_state).1.pin_input_states 1).mqtt_dirty
        = false
      ∧ ((autoc4_poll demo_config (fun i => decide (i < 2)) demo_state).1.pin_input_states 2).mqtt_dirty
        = true
      ∧ (autoc4_poll demo_config (fun i => decide (i < 2)) demo_state).2
        = [⟨[105, 48], [1], true⟩, ⟨[105, 49], [1], true⟩, ⟨[105, 50], [1], true⟩] := by
  obtain ⟨h1, h2, h3⟩ :=
    (publish_drain_stops_at_first_failure demo_config (fun i => decide (i < 2))
      demo_state).2.1 2 (by decide) (by decide) (by decide) (by decide)
  refine ⟨h1 0 (by decide), h1 1 (by decide), ?_, ?_⟩
  · rw [h2 2 (le_refl 2)]; decide
  · rw [h3]; decide

theorem poll_call_eq (cfg : Config) (s : State) (i : Nat) :
    autoc4_poll_call cfg s i
      = ⟨(cfg.input_configs i).topic,
          [if (s.pin_input_states i).prev_state = (cfg.input_configs i).inverted
            then 1 else 0],
          true⟩ := by
  unfold autoc4_poll_call zero_one
  cases (s.pin_input_states i).prev_state <;> cases (cfg.input_configs i).inverted <;> rfl

theorem poll_loop_calls (cfg : Config) (pub : Nat → Bool) (l : List Nat) (s : State) :
    ∀ c ∈ (autoc4_poll_loop cfg pub l s).2,
      ∃ i ∈ l, (s.pin_input_states i).mqtt_dirty = true ∧ c = autoc4_poll_call cfg s i := by
  induction l generalizing s with
  | nil => simp [autoc4_poll_loop]
  | cons a rest ih =>
    intro c hc
    unfold autoc4_poll_loop at hc
    by_cases hd : (s.pin_input_states a).mqtt_dirty = true
    · by_cases hp : pub a = true
      · simp only [hd, hp, if_true, List.mem_cons] at hc
        rcases hc with rfl | hc
        · exact ⟨a, by simp, hd, rfl⟩
        · obtain ⟨i, hi, hdi, rfl⟩ := ih (autoc4_poll_clear s a) c hc
          rw [poll_clear_pin_input_states] at hdi
          by_cases hia : i = a
          · simp [hia] at hdi
          · rw [if_neg hia] at hdi
            exact ⟨i, by simp [hi], hdi, poll_call_poll_clear cfg s a i⟩
      · simp only [hd, hp, if_true, Bool.false_eq_true, if_false, List.mem_singleton] at hc
        exact ⟨a, by simp, hd, hc⟩
    · simp only [hd, Bool.false_eq_true, if_false] at hc
      obtain ⟨i, hi, hdi, hci⟩ := ih s c hc
      exact ⟨i, by simp [hi], hdi, hci⟩

theorem poll_loop_reaches (cfg : Config) (pub : Nat → Bool) (i : Nat) :
    ∀ (n a : Nat) (s : State), a ≤ i → i < a + n →
      (s.pin_input_states i).mqtt_dirty = true →
      (∀ j, a ≤ j → j < i → (s.pin_input_states j).mqtt_dirty = true → pub j = true) →
      autoc4_poll_call cfg s i ∈ (autoc4_poll_loop cfg pub (List.range' a n) s).2 := by
  intro n
  induction n with
  | zero => intro a s h1 h2; omega
  | succ n ih =>
    intro a s hai hin hd hok
    rw [List.range'_succ]
    unfold autoc4_poll_loop
    by_cases hia : i = a
    · subst hia
      by_cases hp : pub i = true <;> simp [hd, hp]
    · by_cases hda : (s.pin_input_states a).mqtt_dirty = true
      · have hp : pub a = true := hok a (le_refl a) (by omega) hda
        simp only [hda, hp, if_true, List.mem_cons]
        right
        rw [← poll_call_poll_clear cfg s a i]
        apply ih (a + 1) (autoc4_poll_clear s a) (by omega) (by omega)
        · rw [poll_clear_pin_input_states, if_neg hia]; exact hd
        · intro j hj1 hj2 hdj
          rw [poll_clear_pin_input_states, if_neg (by omega)] at hdj
          exact hok j (by omega) hj2 hdj
      · simp only [hda, Bool.false_eq_true, if_false]
        exact ih (a + 1) s (by omega) (by omega) hd
          (fun j hj1 hj2 hdj => hok j (by omega) hj2 hdj)

/-- C6 (published payload byte), as amended: every publish call `autoc4_poll` makes is
the call for some dirty input `i`, on that input's topic, retained, with a one-byte
payload that is 1 exactly when `prev_state[i]` and `inverted[i]` are equal (0 when they
differ); and the call for a dirty input is made whenever every dirty input before it
was published successfully. -/
theorem published_payload_byte (cfg : Config) (pub : Nat → Bool) (s : State) :
    (∀ c ∈ (autoc4_poll cfg pub s).2,
        ∃ i < cfg.input_count, (s.pin_input_states i).mqtt_dirty = true
          ∧ c = ⟨(cfg.input_configs i).topic,
              [if (s.pin_input_states i).prev_state = (cfg.input_configs i).inverted
                then 1 else 0],
              true⟩)
      ∧ (∀ i < cfg.input_count, (s.pin_input_states i).mqtt_dirty = true →
          (∀ j < i, (s.pin_input_states j).mqtt_dirty = true → pub j = true) →
          (⟨(cfg.input_configs i).topic,
              [if (s.pin_input_states i).prev_state = (cfg.input_configs i).inverted
                then 1 else 0],
              true⟩ : PublishCall) ∈ (autoc4_poll cfg pub s).2) := by
  unfold autoc4_poll
  constructor
  · intro c hc
    obtain ⟨i, hi, hd, rfl⟩ := poll_loop_calls cfg pub _ s c hc
    exact ⟨i, List.mem_range.mp hi, hd, poll_call_eq cfg s i⟩
  · intro i hi hd hok
    rw [← poll_call_eq, List.range_eq_range']
    exact poll_loop_reaches cfg pub i cfg.input_count 0 s (Nat.zero_le i) (by omega) hd
      (fun j _ hj => hok j hj)

/-- Witness for C6 as amended: input 0 of `demo_state` is dirty, low and not inverted;
the byte published for it is 1. -/
theorem published_payload_byte_witness :
    (⟨[105, 48], [1], true⟩ : PublishCall)
      ∈ (autoc4_poll demo_config (fun _ => true) demo_state).2 :=
  (published_payload_byte demo_config (fun _ => true) demo_state).2 0 (by decide)
    (by decide) (by decide)

/-- Counterexample to C6 as stated: input 0 of `demo_state` is dirty with
`prev_state = false` and `inverted = false`, so `prev_state XOR inverted` is 0, yet the
byte passed to the publish call for input 0 is 1. -/
theorem published_payload_byte_counterexample :
    (demo_state.pin_input_states 0).mqtt_dirty = true
      ∧ xor (demo_state.pin_input_states 0).prev_state (demo_config.input_configs 0).inverted
          = false
      ∧ (autoc4_poll demo_config (fun _ => true) demo_state).2.head?
          = some ⟨(demo_config.input_configs 0).topic, [1], true⟩ := by
  decide

/-! ## Reconnect -/

theorem connack_mark_fold (s : State) (n : Nat) :
    (List.range n).foldl autoc4_connack_mark s
      = { s with
          pin_input_states := fun j =>
            if j < n then ⟨(s.pin_input_states j).prev_state, true⟩
            else s.pin_input_states j } := by
  induction n with
  | zero => simp
  | succ n ih =>
    rw [List.range_succ, List.foldl_append, ih]
    simp only [List.foldl_cons, List.foldl_nil, autoc4_connack_mark, upd]
    congr 1
    funext j
    by_cases hjn : j = n
    · subst hjn; simp [upd]
    · by_cases hlt : j < n
      · have : j < n + 1 := by omega
        simp [upd, hjn, hlt, this]
      · have : ¬ j < n + 1 := by omega
        simp [upd, hjn, hlt, this]

theorem connack_state_eq (cfg : Config) (s : State) :
    (autoc4_connack_callback cfg s).1
      = { s with
          logicer_state := false
          pin_input_states := fun j =>
            if j < cfg.input_count then ⟨(s.pin_input_states j).prev_state, true⟩
            else s.pin_input_states j } := by
  unfold autoc4_connack_callback
  rw [connack_mark_fold]

/-- C7 (reconnect resync): after `autoc4_connack_callback` every input is dirty and
`logicer_state` is false; `prev_state` of every input, `locked_mode`,
`status_led_value`, the output states, the registers, the lighting channels and the PWM
register are unchanged; exactly one publish call is made, retained, on the heartbeat
topic with the one-byte payload 1; and applying the callback a second time yields the
same state as applying it once. -/
theorem reconnect_resync (cfg : Config) (s : State) :
    (∀ i < cfg.input_count,
        ((autoc4_connack_callback cfg s).1.pin_input_states i).mqtt_dirty = true)
      ∧ (autoc4_connack_callback cfg s).1.logicer_state = false
      ∧ (∀ i, ((autoc4_connack_callback cfg s).1.pin_input_states i).prev_state
          = (s.pin_input_states i).prev_state)
      ∧ (autoc4_connack_callback cfg s).1.locked_mode = s.locked_mode
      ∧ (autoc4_connack_callback cfg s).1.status_led_value = s.status_led_value
      ∧ (autoc4_connack_callback cfg s).1.output_states = s.output_states
      ∧ (autoc4_connack_callback cfg s).1.ddrs = s.ddrs
      ∧ (autoc4_connack_callback cfg s).1.ports = s.ports
      ∧ (autoc4_connack_callback cfg s).1.dmx = s.dmx
      ∧ (autoc4_connack_callback cfg s).1.OCR2A = s.OCR2A
      ∧ (autoc4_connack_callback cfg s).2 = [⟨cfg.string_heartbeat_topic, [1], true⟩]
      ∧ (autoc4_connack_callback cfg (autoc4_connack_callback cfg s).1).1
          = (autoc4_connack_callback cfg s).1 := by
  refine ⟨?_, ?_, ?_, ?_, ?_, ?_, ?_, ?_, ?_, ?_, ?_, ?_⟩
  · intro i hi
    rw [connack_state_eq]; simp [hi]
  · rw [connack_state_eq]
  · intro i
    rw [connack_state_eq]
    by_cases hi : i < cfg.input_count <;> simp [hi]
  · rw [connack_state_eq]
  · rw [connack_state_eq]
  · rw [connack_state_eq]
  · rw [connack_state_eq]
  · rw [connack_state_eq]
  · rw [connack_state_eq]
  · rw [connack_state_eq]
  · rfl
  · rw [connack_state_eq, connack_state_eq]
    congr 1
    funext j
    by_cases hj : j < cfg.input_count <;> simp [hj]

/-! ## Input scan -/

theorem emergency_loop_frame (cfg : Config) (any_output_on : Nat) (l : List Nat) (s : State) :
    (autoc4_emergency_loop cfg any_output_on l s).logicer_state = s.logicer_state
      ∧ (autoc4_emergency_loop cfg any_output_on l s).locked_mode = s.locked_mode
      ∧ (autoc4_emergency_loop cfg any_output_on l s).status_led_value = s.status_led_value
      ∧ (autoc4_emergency_loop cfg any_output_on l s).pin_input_states = s.pin_input_states
      ∧ (autoc4_emergency_loop cfg any_output_on l s).output_states = s.output_states
      ∧ (autoc4_emergency_loop cfg any_output_on l s).dmx = s.dmx
      ∧ (autoc4_emergency_loop cfg any_output_on l s).OCR2A = s.OCR2A := by
  induction l generalizing s with
  | nil => simp [autoc4_emergency_loop]
  | cons i rest ih =>
    unfold autoc4_emergency_loop
    by_cases ht : (cfg.output_configs i).emergency_toggled = true
    · rw [if_pos ht]
      simpa using ih (autoc4_set_output cfg i (if any_output_on = 0 then 1 else 0) s)
    · rw [if_neg ht]
      by_cases hz : (cfg.output_configs i).emergency_zeroed = true
      · rw [if_pos hz]
        simpa using ih (autoc4_set_output cfg i 0 s)
      · rw [if_neg hz]
        exact ih s

theorem emergency_switch_toggled_frame (cfg : Config) (s : State) :
    (autoc4_emergency_switch_toggled cfg s).logicer_state = s.logicer_state
      ∧ (autoc4_emergency_switch_toggled cfg s).locked_mode = s.locked_mode
      ∧ (autoc4_emergency_switch_toggled cfg s).status_led_value = s.status_led_value
      ∧ (autoc4_emergency_switch_toggled cfg s).pin_input_states = s.pin_input_states
      ∧ (autoc4_emergency_switch_toggled cfg s).output_states = s.output_states
      ∧ (autoc4_emergency_switch_toggled cfg s).OCR2A = s.OCR2A := by
  unfold autoc4_emergency_switch_toggled
  obtain ⟨h1, h2, h3, h4, h5, _, h7⟩ := emergency_loop_frame cfg
    (autoc4_any_output_on cfg (autoc4_emergency_zero_dmx cfg s)) (List.range cfg.output_count)
    (autoc4_emergency_zero_dmx cfg s)
  exact ⟨h1, h2, h3, h4, h5, h7⟩

theorem read_inputs_step_spec (cfg : Config) (connected : Bool) (pins : Nat → Nat)
    (s : State) (i : Nat) :
    (autoc4_read_inputs_step cfg connected pins s i).logicer_state = s.logicer_state
      ∧ (autoc4_read_inputs_step cfg connected pins s i).pin_input_states i
          = ⟨autoc4_input_level cfg pins i,
              (s.pin_input_states i).mqtt_dirty
                || ((autoc4_input_level cfg pins i != (s.pin_input_states i).prev_state)
                  && connected && s.logicer_state)⟩
      ∧ (∀ j, j ≠ i →
          (autoc4_read_inputs_step cfg connected pins s i).pin_input_states j
            = s.pin_input_states j) := by
  obtain ⟨e1, _, _, e4, _, _⟩ := emergency_switch_toggled_frame cfg s
  unfold autoc4_read_inputs_step
  dsimp only
  cases hin : autoc4_input_level cfg pins i <;> cases hprev : (s.pin_input_states i).prev_state
    <;> cases hc : connected <;> cases hl : s.logicer_state
    <;> cases he : (cfg.input_configs i).is_emergency_switch
    <;> simp [autoc4_read_inputs_store, autoc4_read_inputs_mark, upd, e1, e4, hl, hprev]
    <;> intro j hj <;> simp [hj]

theorem read_inputs_loop_spec (cfg : Config) (connected : Bool) (pins : Nat → Nat) :
    ∀ (n a : Nat) (s : State),
      (autoc4_read_inputs_loop cfg connected pins (List.range' a n) s).logicer_state
          = s.logicer_state
        ∧ (∀ i, a ≤ i → i < a + n →
          (autoc4_read_inputs_loop cfg connected pins (List.range' a n) s).pin_input_states i
            = ⟨autoc4_input_level cfg pins i,
                (s.pin_input_states i).mqtt_dirty
                  || ((autoc4_input_level cfg pins i != (s.pin_input_states i).prev_state)
                    && connected && s.logicer_state)⟩)
        ∧ (∀ i, i < a ∨ a + n ≤ i →
          (autoc4_read_inputs_loop cfg connected pins (List.range' a n) s).pin_input_states i
            = s.pin_input_states i) := by
  intro n
  induction n with
  | zero =>
    intro a s
    exact ⟨rfl, fun i h1 h2 => by omega, fun _ _ => rfl⟩
  | succ n ih =>
    intro a s
    rw [List.range'_succ]
    unfold autoc4_read_inputs_loop
    obtain ⟨s1, s2, s3⟩ := read_inputs_step_spec cfg connected pins s a
    obtain ⟨h1, h2, h3⟩ := ih (a + 1) (autoc4_read_inputs_step cfg connected pins s a)
    refine ⟨h1.trans s1, fun i hi1 hi2 => ?_, fun i hi => ?_⟩
    · by_cases hia : i = a
      · subst hia
        rw [h3 i (Or.inl (by omega)), s2]
      · rw [h2 i (by omega) (by omega), s3 i hia, s1]
    · rw [h3 i (by omega), s3 i (by omega)]

/-- C8 (input scan), as amended: after `autoc4_read_inputs`, whatever the connection
status and `logicer_state`, every input has `prev_state` equal to the level read in
this scan.  When the transport is connected and `logicer_state` is true, every input
with an edge (level read differs from the old `prev_state`) is dirty after the scan;
when the transport is disconnected or `logicer_state` is false, the scan changes no
dirty flag.  An input without an edge keeps its flag in every case. -/
theorem input_scan_updates_levels (cfg : Config) (connected : Bool) (pins : Nat → Nat)
    (s : State) :
    (∀ i < cfg.input_count,
        ((autoc4_read_inputs cfg connected pins s).pin_input_states i).prev_state
          = autoc4_input_level cfg pins i)
      ∧ (connected = true → s.logicer_state = true → ∀ i < cfg.input_count,
          autoc4_input_level cfg pins i ≠ (s.pin_input_states i).prev_state →
          ((autoc4_read_inputs cfg connected pins s).pin_input_states i).mqtt_dirty = true)
      ∧ (connected = false ∨ s.logicer_state = false → ∀ i,
          ((autoc4_read_inputs cfg connected pins s).pin_input_states i).mqtt_dirty
            = (s.pin_input_states i).mqtt_dirty)
      ∧ (∀ i < cfg.input_count,
          autoc4_input_level cfg pins i = (s.pin_input_states i).prev_state →
          ((autoc4_read_inputs cfg connected pins s).pin_input_states i).mqtt_dirty
            = (s.pin_input_states i).mqtt_dirty) := by
  unfold autoc4_read_inputs
  rw [List.range_eq_range']
  obtain ⟨_, h2, h3⟩ := read_inputs_loop_spec cfg connected pins cfg.input_count 0 s
  refine ⟨fun i hi => ?_, fun hc hl i hi hedge => ?_, fun hoff i => ?_, fun i hi hsame => ?_⟩
  · rw [h2 i (Nat.zero_le i) (by omega)]
  · rw [h2 i (Nat.zero_le i) (by omega)]
    simp [hc, hl, hedge]
  · by_cases hi : i < cfg.input_count
    · rw [h2 i (Nat.zero_le i) (by omega)]
      rcases hoff with hc | hl
      · simp [hc]
      · simp [hl]
    · rw [h3 i (Or.inr (by omega))]
  · rw [h2 i (Nat.zero_le i) (by omega)]
    simp [hsame]

/-- Witness for C8 as amended: connected and alive, input 1 of `demo_alive` goes high
and is dirty after the scan. -/
theorem input_scan_updates_levels_witness :
    ((autoc4_read_inputs demo_config true (fun _ => 2) demo_alive).pin_input_states 1).mqtt_dirty
      = true :=
  (input_scan_updates_levels demo_config true (fun _ => 2) demo_alive).2.1 rfl rfl 1
    (by decide) (by decide)

/-- Counterexample to C8 as stated: with the transport disconnected, input 1 of
`demo_clean` (clean, `prev_state = false`) is read high, an edge, and is still not
dirty after the scan. -/
theorem input_scan_counterexample :
    autoc4_input_level demo_config (fun _ => 2) 1 = true
      ∧ (demo_clean.pin_input_states 1).prev_state = false
      ∧ (demo_clean.pin_input_states 1).mqtt_dirty = false
      ∧ ((autoc4_read_inputs demo_config false (fun _ => 2) demo_clean).pin_input_states 1).mqtt_dirty
          = false := by
  decide

/-! ## Register bits -/

theorem and_one_shiftLeft_ne_zero (x q : Nat) : (x &&& 1 <<< q != 0) = x.testBit q := by
  rw [Nat.one_shiftLeft]
  by_cases h : x.testBit q = true
  · have hx : x &&& 2 ^ q = 2 ^ q := by
      apply Nat.eq_of_testBit_eq
      intro i
      rw [Nat.testBit_and, Nat.testBit_two_pow]
      by_cases hqi : q = i
      · subst hqi; simp [h]
      · simp [hqi]
    have hpos : 2 ^ q ≠ 0 := by positivity
    simp [hx, h, hpos]
  · have hx : x &&& 2 ^ q = 0 := by
      apply Nat.eq_of_testBit_eq
      intro i
      rw [Nat.testBit_and, Nat.testBit_two_pow]
      by_cases hqi : q = i
      · subst hqi; simp [h]
      · simp [hqi]
    simp [hx, h]

theorem and_one_shiftLeft_eq_zero (x q : Nat) : (x &&& 1 <<< q == 0) = !x.testBit q := by
  rw [← and_one_shiftLeft_ne_zero]
  unfold bne
  cases (x &&& 1 <<< q == 0) <;> rfl

theorem testBit_reg_or (x p q : Nat) :
    (reg_or x (1 <<< p)).testBit q = (decide (q < 8) && (x.testBit q || decide (p = q))) := by
  unfold reg_or
  rw [show (256 : Nat) = 2 ^ 8 from rfl, Nat.testBit_mod_two_pow, Nat.testBit_or,
    Nat.one_shiftLeft, Nat.testBit_two_pow]

theorem testBit_reg_and_not (x p q : Nat) :
    (reg_and_not x (1 <<< p)).testBit q
      = (decide (q < 8) && (x.testBit q && !decide (p = q))) := by
  unfold reg_and_not
  rw [show (256 : Nat) = 2 ^ 8 from rfl, Nat.testBit_mod_two_pow, Nat.testBit_and,
    Nat.testBit_xor, show (65535 : Nat) = 2 ^ 16 - 1 from rfl, Nat.testBit_two_pow_sub_one,
    Nat.one_shiftLeft, Nat.testBit_two_pow]
  by_cases h8 : q < 8
  · have h16 : q < 16 := by omega
    by_cases hpq : p = q <;> simp [h8, h16, hpq]
  · simp [h8]

theorem get_output_eq_testBit (cfg : Config) (i : Nat) (s : State) :
    autoc4_get_output cfg i s
      = ((s.ports (cfg.output_configs i).port_index).testBit (cfg.output_configs i).pin_index
        || !(s.ddrs (cfg.output_configs i).port_index).testBit (cfg.output_configs i).pin_index) := by
  unfold autoc4_get_output
  rw [and_one_shiftLeft_ne_zero, and_one_shiftLeft_eq_zero]

theorem set_output_ports_testBit (cfg : Config) (i v : Nat) (s : State) (P Q : Nat)
    (hQ : Q < 8) :
    ((autoc4_set_output cfg i v s).ports P).testBit Q
      = if (cfg.output_configs i).opendrain = false ∧ (cfg.output_configs i).port_index = P
          ∧ (cfg.output_configs i).pin_index = Q
        then decide (v ≠ 0) else (s.ports P).testBit Q := by
  unfold autoc4_set_output
  dsimp only
  by_cases hod : (cfg.output_configs i).opendrain = true
  · simp [hod]
    split_ifs <;> rfl
  · have hod' : (cfg.output_configs i).opendrain = false := by simpa using hod
    by_cases hP : (cfg.output_configs i).port_index = P
    · subst hP
      by_cases hv : v = 0
      · by_cases hq : (cfg.output_configs i).pin_index = Q
        · simp [hod', hv, upd, testBit_reg_and_not, hq]
        · simp [hod', hv, upd, testBit_reg_and_not, hq, hQ]
      · by_cases hq : (cfg.output_configs i).pin_index = Q
        · simp [hod', hv, upd, testBit_reg_or, hq, hQ]
        · simp [hod', hv, upd, testBit_reg_or, hq, hQ]
    · have hP' : ¬ P = (cfg.output_configs i).port_index := fun h => hP h.symm
      by_cases hv : v = 0 <;> simp [hod', hv, upd, hP, hP']

theorem set_output_ddrs_testBit (cfg : Config) (i v : Nat) (s : State) (P Q : Nat)
    (hQ : Q < 8) :
    ((autoc4_set_output cfg i v s).ddrs P).testBit Q
      = if (cfg.output_configs i).opendrain = true ∧ (cfg.output_configs i).port_index = P
          ∧ (cfg.output_configs i).pin_index = Q
        then decide (v ≠ 0) else (s.ddrs P).testBit Q := by
  unfold autoc4_set_output
  dsimp only
  by_cases hod : (cfg.output_configs i).opendrain = true
  · by_cases hP : (cfg.output_configs i).port_index = P
    · subst hP
      by_cases hv : v = 0
      · by_cases hq : (cfg.output_configs i).pin_index = Q
        · simp [hod, hv, upd, testBit_reg_and_not, hq]
        · simp [hod, hv, upd, testBit_reg_and_not, hq, hQ]
      · by_cases hq : (cfg.output_configs i).pin_index = Q
        · simp [hod, hv, upd, testBit_reg_or, hq, hQ]
        · simp [hod, hv, upd, testBit_reg_or, hq, hQ]
    · have hP' : ¬ P = (cfg.output_configs i).port_index := fun h => hP h.symm
      by_cases hv : v = 0 <;> simp [hod, hv, upd, hP, hP']
  · have hod' : (cfg.output_configs i).opendrain = false := by simpa using hod
    simp [hod']
    split_ifs <;> rfl

/-! ## Emergency interlock -/

theorem emergency_loop_keeps_ports_bit (cfg : Config) (any_output_on : Nat) (l : List Nat)
    (s : State) (P Q : Nat) (hQ : Q < 8)
    (hother : ∀ j ∈ l, (cfg.output_configs j).opendrain = false →
      ¬ ((cfg.output_configs j).port_index = P ∧ (cfg.output_configs j).pin_index = Q)) :
    ((autoc4_emergency_loop cfg any_output_on l s).ports P).testBit Q
      = (s.ports P).testBit Q := by
  induction l generalizing s with
  | nil => rfl
  | cons a rest ih =>
    have hrest : ∀ j ∈ rest, (cfg.output_configs j).opendrain = false →
        ¬ ((cfg.output_configs j).port_index = P ∧ (cfg.output_configs j).pin_index = Q) :=
      fun j hj => hother j (List.mem_cons_of_mem a hj)
    have hstep : ∀ v, ((autoc4_set_output cfg a v s).ports P).testBit Q
        = (s.ports P).testBit Q := by
      intro v
      rw [set_output_ports_testBit cfg a v s P Q hQ, if_neg]
      rintro ⟨hod, hpq⟩
      exact hother a (List.mem_cons_self a rest) hod hpq
    unfold autoc4_emergency_loop
    by_cases ht : (cfg.output_configs a).emergency_toggled = true
    · rw [if_pos ht, ih _ hrest, hstep]
    · rw [if_neg ht]
      by_cases hz : (cfg.output_configs a).emergency_zeroed = true
      · rw [if_pos hz, ih _ hrest, hstep]
      · rw [if_neg hz, ih _ hrest]

theorem emergency_loop_keeps_ddrs_bit (cfg : Config) (any_output_on : Nat) (l : List Nat)
    (s : State) (P Q : Nat) (hQ : Q < 8)
    (hother : ∀ j ∈ l, (cfg.output_configs j).opendrain = true →
      ¬ ((cfg.output_configs j).port_index = P ∧ (cfg.output_configs j).pin_index = Q)) :
    ((autoc4_emergency_loop cfg any_output_on l s).ddrs P).testBit Q
      = (s.ddrs P).testBit Q := by
  induction l generalizing s with
  | nil => rfl
  | cons a rest ih =>
    have hrest : ∀ j ∈ rest, (cfg.output_configs j).opendrain = true →
        ¬ ((cfg.output_configs j).port_index = P ∧ (cfg.output_configs j).pin_index = Q) :=
      fun j hj => hother j (List.mem_cons_of_mem a hj)
    have hstep : ∀ v, ((autoc4_set_output cfg a v s).ddrs P).testBit Q
        = (s.ddrs P).testBit Q := by
      intro v
      rw [set_output_ddrs_testBit cfg a v s P Q hQ, if_neg]
      rintro ⟨hod, hpq⟩
      exact hother a (List.mem_cons_self a rest) hod hpq
    unfold autoc4_emergency_loop
    by_cases ht : (cfg.output_configs a).emergency_toggled = true
    · rw [if_pos ht, ih _ hrest, hstep]
    · rw [if_neg ht]
      by_cases hz : (cfg.output_configs a).emergency_zeroed = true
      · rw [if_pos hz, ih _ hrest, hstep]
      · rw [if_neg hz, ih _ hrest]

theorem emergency_loop_written_bit (cfg : Config) (any_output_on : Nat) (l : List Nat)
    (s : State) (i v : Nat) (hnd : l.Nodup) (hi : i ∈ l)
    (hQ : (cfg.output_configs i).pin_index < 8)
    (hw : ((cfg.output_configs i).emergency_toggled = true
          ∧ v = if any_output_on = 0 then 1 else 0)
        ∨ ((cfg.output_configs i).emergency_toggled = false
          ∧ (cfg.output_configs i).emergency_zeroed = true ∧ v = 0))
    (hdist : ∀ j ∈ l, j ≠ i →
      ¬ ((cfg.output_configs j).port_index = (cfg.output_configs i).port_index
        ∧ (cfg.output_configs j).pin_index = (cfg.output_configs i).pin_index)) :
    (if (cfg.output_configs i).opendrain = true then
        ((autoc4_emergency_loop cfg any_output_on l s).ddrs
          (cfg.output_configs i).port_index).testBit (cfg.output_configs i).pin_index
      else
        ((autoc4_emergency_loop cfg any_output_on l s).ports
          (cfg.output_configs i).port_index).testBit (cfg.output_configs i).pin_index)
      = decide (v ≠ 0) := by
  induction l generalizing s with
  | nil => cases hi
  | cons a rest ih =>
    obtain ⟨ha, hnd'⟩ := List.nodup_cons.mp hnd
    have hdist' : ∀ j ∈ rest, j ≠ i →
        ¬ ((cfg.output_configs j).port_index = (cfg.output_configs i).port_index
          ∧ (cfg.output_configs j).pin_index = (cfg.output_configs i).pin_index) :=
      fun j hj => hdist j (List.mem_cons_of_mem a hj)
    by_cases hai : a = i
    · subst hai
      have hne : ∀ j ∈ rest, j ≠ a := fun j hj h => ha (h ▸ hj)
      have hloop : autoc4_emergency_loop cfg any_output_on (a :: rest) s
          = autoc4_emergency_loop cfg any_output_on rest (autoc4_set_output cfg a v s) := by
        rcases hw with ⟨ht, hv⟩ | ⟨ht, hz, hv⟩
        · rw [hv]
          simp only [autoc4_emergency_loop, ht, if_true]
        · rw [hv]
          simp only [autoc4_emergency_loop, ht, hz, if_true, Bool.false_eq_true, if_false]
      rw [hloop]
      by_cases hod : (cfg.output_configs a).opendrain = true
      · rw [if_pos hod, emergency_loop_keeps_ddrs_bit cfg any_output_on rest _ _ _ hQ
          (fun j hj _ => hdist' j hj (hne j hj)),
          set_output_ddrs_testBit cfg a v s _ _ hQ, if_pos ⟨hod, rfl, rfl⟩]
      · rw [if_neg hod, emergency_loop_keeps_ports_bit cfg any_output_on rest _ _ _ hQ
          (fun j hj _ => hdist' j hj (hne j hj)),
          set_output_ports_testBit cfg a v s _ _ hQ, if_pos ⟨by simpa using hod, rfl, rfl⟩]
    · have hi' : i ∈ rest := by
        rcases List.mem_cons.mp hi with h | h
        · exact absurd h.symm hai
        · exact h
      unfold autoc4_emergency_loop
      by_cases ht : (cfg.output_configs a).emergency_toggled = true
      · rw [if_pos ht]
        exact ih _ hnd' hi' hdist'
      · rw [if_neg ht]
        by_cases hz : (cfg.output_configs a).emergency_zeroed = true
        · rw [if_pos hz]
          exact ih _ hnd' hi' hdist'
        · rw [if_neg hz]
          exact ih _ hnd' hi' hdist'

theorem any_output_on_eq_zero_iff (cfg : Config) (s : State) :
    autoc4_any_output_on cfg (autoc4_emergency_zero_dmx cfg s) = 0
      ↔ ¬ ∃ j < cfg.output_count, (cfg.output_configs j).emergency_toggled = true
          ∧ autoc4_get_output cfg j s = true := by
  unfold autoc4_any_output_on
  have hget : ∀ j, autoc4_get_output cfg j (autoc4_emergency_zero_dmx cfg s)
      = autoc4_get_output cfg j s := fun _ => rfl
  by_cases h : (List.range cfg.output_count).any
      (fun i => (cfg.output_configs i).emergency_toggled
        && autoc4_get_output cfg i (autoc4_emergency_zero_dmx cfg s)) = true
  · rw [if_pos h]
    simp only [List.any_eq_true, List.mem_range, Bool.and_eq_true, hget] at h
    simp only [one_ne_zero, false_iff, not_not]
    obtain ⟨j, hj, hc⟩ := h
    exact ⟨j, hj, hc⟩
  · rw [if_neg h]
    simp only [List.any_eq_true, List.mem_range, Bool.and_eq_true, hget] at h
    simp only [true_iff]
    rintro ⟨j, hj, hc⟩
    exact h ⟨j, hj, hc⟩

/-- C9 (emergency unified toggle), as amended: for every output configuration with
pairwise distinct pins and every register state in which each toggle-group output is
push-pull with a pin index below 8 and its direction bit set, let `any_on` be true iff
some toggle-group output reads on via `autoc4_get_output` before the call; after
`autoc4_emergency_switch_toggled` every toggle-group output reads on iff `any_on` was
false. -/
theorem emergency_toggle_unified (cfg : Config) (s : State)
    (hdistinct : ∀ i < cfg.output_count, ∀ j < cfg.output_count, i ≠ j →
      ¬ ((cfg.output_configs i).port_index = (cfg.output_configs j).port_index
        ∧ (cfg.output_configs i).pin_index = (cfg.output_configs j).pin_index))
    (hpushpull : ∀ i < cfg.output_count, (cfg.output_configs i).emergency_toggled = true →
      (cfg.output_configs i).opendrain = false ∧ (cfg.output_configs i).pin_index < 8
        ∧ s.ddrs (cfg.output_configs i).port_index
            &&& (1 <<< (cfg.output_configs i).pin_index) ≠ 0) :
    ∀ i < cfg.output_count, (cfg.output_configs i).emergency_toggled = true →
      (autoc4_get_output cfg i (autoc4_emergency_switch_toggled cfg s) = true
        ↔ ¬ ∃ j < cfg.output_count, (cfg.output_configs j).emergency_toggled = true
            ∧ autoc4_get_output cfg j s = true) := by
  intro i hi ht
  obtain ⟨hod, hQ, hddr⟩ := hpushpull i hi ht
  have hports := emergency_loop_written_bit cfg
    (autoc4_any_output_on cfg (autoc4_emergency_zero_dmx cfg s)) (List.range cfg.output_count)
    (autoc4_emergency_zero_dmx cfg s) i
    (if autoc4_any_output_on cfg (autoc4_emergency_zero_dmx cfg s) = 0 then 1 else 0)
    (List.nodup_range _) (List.mem_range.mpr hi) hQ (Or.inl ⟨ht, rfl⟩)
    (fun j hj hji => hdistinct j (List.mem_range.mp hj) i hi hji)
  rw [if_neg (by simp [hod])] at hports
  have hddrs := emergency_loop_keeps_ddrs_bit cfg
    (autoc4_any_output_on cfg (autoc4_emergency_zero_dmx cfg s)) (List.range cfg.output_count)
    (autoc4_emergency_zero_dmx cfg s) (cfg.output_configs i).port_index
    (cfg.output_configs i).pin_index hQ
    (fun j hj hodj => hdistinct j (List.mem_range.mp hj) i hi
      (by rintro rfl; rw [hod] at hodj; cases hodj))
  have hbit : (s.ddrs (cfg.output_configs i).port_index).testBit
      (cfg.output_configs i).pin_index = true := by
    rw [← and_one_shiftLeft_ne_zero]
    simpa using hddr
  have hs1 : (autoc4_emergency_zero_dmx cfg s).ddrs = s.ddrs := rfl
  rw [get_output_eq_testBit]
  unfold autoc4_emergency_switch_toggled
  rw [hports, hddrs, hs1, hbit, ← any_output_on_eq_zero_iff]
  by_cases h0 : autoc4_any_output_on cfg (autoc4_emergency_zero_dmx cfg s) = 0 <;> simp [h0]

/-- Witness for C9 as amended: the three push-pull toggle-group outputs of
`demo_config` read on, off, off in `demo_one_on`, and after the interlock none reads
on; they all read off in `demo_state`, and after the interlock output 0 reads on. -/
theorem emergency_toggle_unified_witness :
    (∃ j < demo_config.output_count, (demo_config.output_configs j).emergency_toggled = true
        ∧ autoc4_get_output demo_config j demo_one_on = true)
      ∧ ¬ autoc4_get_output demo_config 0
          (autoc4_emergency_switch_toggled demo_config demo_one_on) = true
      ∧ ¬ autoc4_get_output demo_config 1
          (autoc4_emergency_switch_toggled demo_config demo_one_on) = true
      ∧ ¬ autoc4_get_output demo_config 2
          (autoc4_emergency_switch_toggled demo_config demo_one_on) = true
      ∧ (¬ ∃ j < demo_config.output_count,
          (demo_config.output_configs j).emergency_toggled = true
            ∧ autoc4_get_output demo_config j demo_state = true)
      ∧ autoc4_get_output demo_config 0
          (autoc4_emergency_switch_toggled demo_config demo_state) = true := by
  have hany : ∃ j < demo_config.output_count,
      (demo_config.output_configs j).emergency_toggled = true
        ∧ autoc4_get_output demo_config j demo_one_on = true :=
    ⟨0, by decide, by decide, by decide⟩
  have hnone : ¬ ∃ j < demo_config.output_count,
      (demo_config.output_configs j).emergency_toggled = true
        ∧ autoc4_get_output demo_config j demo_state = true := by
    decide
  have h := emergency_toggle_unified demo_config demo_one_on (by decide) (by decide)
  have h' := emergency_toggle_unified demo_config demo_state (by decide) (by decide)
  exact ⟨hany, fun h0 => (h 0 (by decide) rfl).mp h0 hany,
    fun h1 => (h 1 (by decide) rfl).mp h1 hany, fun h2 => (h 2 (by decide) rfl).mp h2 hany,
    hnone, (h' 0 (by decide) rfl).mpr hnone⟩

/-- Counterexample to C9 as stated.  First, the single toggle-group output of
`opendrain_config` is open-drain; in `demo_state` it reads off, so `any_on` is false,
and after the interlock it still reads off instead of on.  Second, in `demo_undriven`
the direction bits are clear, so push-pull output 0 of `demo_config` reads on, `any_on`
is true, and after the interlock it still reads on instead of off. -/
theorem emergency_toggle_counterexample :
    ((opendrain_config.output_configs 0).emergency_toggled = true
        ∧ (opendrain_config.output_configs 0).opendrain = true
        ∧ opendrain_config.output_count = 1
        ∧ autoc4_get_output opendrain_config 0 demo_state = false
        ∧ autoc4_get_output opendrain_config 0
            (autoc4_emergency_switch_toggled opendrain_config demo_state) = false)
      ∧ ((demo_config.output_configs 0).emergency_toggled = true
        ∧ (demo_config.output_configs 0).opendrain = false
        ∧ autoc4_get_output demo_config 0 demo_undriven = true
        ∧ autoc4_get_output demo_config 0
            (autoc4_emergency_switch_toggled demo_config demo_undriven) = true) := by
  decide

theorem emergency_loop_eq_foldl_writes (cfg : Config) (any_output_on : Nat) (l : List Nat)
    (s : State) :
    autoc4_emergency_loop cfg any_output_on l s
      = (autoc4_emergency_writes cfg any_output_on l).foldl
          (fun st w => autoc4_set_output cfg w.1 w.2 st) s := by
  induction l generalizing s with
  | nil => rfl
  | cons a rest ih =>
    by_cases ht : (cfg.output_configs a).emergency_toggled = true
    · simp only [autoc4_emergency_loop, autoc4_emergency_writes, ht, if_true, List.foldl_cons]
      exact ih _
    · by_cases hz : (cfg.output_configs a).emergency_zeroed = true
      · simp only [autoc4_emergency_loop, autoc4_emergency_writes, ht, hz, if_true,
          Bool.false_eq_true, if_false, List.foldl_cons]
        exact ih _
      · simp only [autoc4_emergency_loop, autoc4_emergency_writes, ht, hz,
          Bool.false_eq_true, if_false]
        exact ih _

theorem emergency_writes_index_mem (cfg : Config) (any_output_on : Nat) (l : List Nat) :
    ∀ w ∈ autoc4_emergency_writes cfg any_output_on l, w.1 ∈ l := by
  induction l with
  | nil => intro w hw; cases hw
  | cons a rest ih =>
    intro w hw
    unfold autoc4_emergency_writes at hw
    by_cases ht : (cfg.output_configs a).emergency_toggled = true
    · rw [if_pos ht] at hw
      rcases List.mem_cons.mp hw with rfl | h
      · exact List.mem_cons_self _ _
      · exact List.mem_cons_of_mem _ (ih w h)
    · rw [if_neg ht] at hw
      by_cases hz : (cfg.output_configs a).emergency_zeroed = true
      · rw [if_pos hz] at hw
        rcases List.mem_cons.mp hw with rfl | h
        · exact List.mem_cons_self _ _
        · exact List.mem_cons_of_mem _ (ih w h)
      · rw [if_neg hz] at hw
        exact List.mem_cons_of_mem _ (ih w hw)

theorem emergency_writes_filter_zero (cfg : Config) (any_output_on : Nat) (l : List Nat)
    (i : Nat) (hnd : l.Nodup) (hi : i ∈ l)
    (hz : (cfg.output_configs i).emergency_zeroed = true)
    (ht : (cfg.output_configs i).emergency_toggled = false) :
    (autoc4_emergency_writes cfg any_output_on l).filter (fun w => decide (w.1 = i))
      = [(i, 0)] := by
  induction l with
  | nil => cases hi
  | cons a rest ih =>
    obtain ⟨ha, hnd'⟩ := List.nodup_cons.mp hnd
    by_cases hai : a = i
    · subst hai
      have hnone : (autoc4_emergency_writes cfg any_output_on rest).filter
          (fun w => decide (w.1 = a)) = [] := by
        rw [List.filter_eq_nil_iff]
        intro w hw
        have := emergency_writes_index_mem cfg any_output_on rest w hw
        simp only [decide_eq_true_eq]
        intro h
        exact ha (h ▸ this)
      simp only [autoc4_emergency_writes, ht, hz, Bool.false_eq_true, if_false, if_true]
      rw [List.filter_cons_of_pos (by simp), hnone]
    · have hi' : i ∈ rest := by
        rcases List.mem_cons.mp hi with h | h
        · exact absurd h.symm hai
        · exact h
      unfold autoc4_emergency_writes
      by_cases hta : (cfg.output_configs a).emergency_toggled = true
      · rw [if_pos hta, List.filter_cons_of_neg (by simpa using hai)]
        exact ih hnd' hi'
      · rw [if_neg hta]
        by_cases hza : (cfg.output_configs a).emergency_zeroed = true
        · rw [if_pos hza, List.filter_cons_of_neg (by simpa using hai)]
          exact ih hnd' hi'
        · rw [if_neg hza]
          exact ih hnd' hi'

/-- C10 (emergency zero group), as amended: the register effect of
`autoc4_emergency_switch_toggled` is that of its `autoc4_set_output` calls in program
order, and for every output whose `emergency_zeroed` flag is set and whose
`emergency_toggled` flag is clear, the only call made for it is
`autoc4_set_output(i, 0)`, whatever `any_on` was.  With pairwise distinct pins and a
pin index below 8 the output is off afterwards: its direction bit is clear if it is
open-drain, its port bit is clear otherwise. -/
theorem emergency_zero_group_forced_off (cfg : Config) (s : State) :
    autoc4_emergency_switch_toggled cfg s
        = (autoc4_emergency_writes cfg
            (autoc4_any_output_on cfg (autoc4_emergency_zero_dmx cfg s))
            (List.range cfg.output_count)).foldl
              (fun st w => autoc4_set_output cfg w.1 w.2 st) (autoc4_emergency_zero_dmx cfg s)
      ∧ (∀ i < cfg.output_count, (cfg.output_configs i).emergency_zeroed = true →
          (cfg.output_configs i).emergency_toggled = false →
          (autoc4_emergency_writes cfg
            (autoc4_any_output_on cfg (autoc4_emergency_zero_dmx cfg s))
            (List.range cfg.output_count)).filter (fun w => decide (w.1 = i)) = [(i, 0)])
      ∧ ((∀ i < cfg.output_count, ∀ j < cfg.output_count, i ≠ j →
            ¬ ((cfg.output_configs i).port_index = (cfg.output_configs j).port_index
              ∧ (cfg.output_configs i).pin_index = (cfg.output_configs j).pin_index)) →
          ∀ i < cfg.output_count, (cfg.output_configs i).emergency_zeroed = true →
            (cfg.output_configs i).emergency_toggled = false →
            (cfg.output_configs i).pin_index < 8 →
            (if (cfg.output_configs i).opendrain = true then
                (autoc4_emergency_switch_toggled cfg s).ddrs (cfg.output_configs i).port_index
                  &&& (1 <<< (cfg.output_configs i).pin_index)
              else
                (autoc4_emergency_switch_toggled cfg s).ports (cfg.output_configs i).port_index
                  &&& (1 <<< (cfg.output_configs i).pin_index)) = 0) := by
  refine ⟨emergency_loop_eq_foldl_writes cfg _ _ _, fun i hi hz ht => ?_,
    fun hdistinct i hi hz ht hQ => ?_⟩
  · exact emergency_writes_filter_zero cfg _ _ i (List.nodup_range _) (List.mem_range.mpr hi)
      hz ht
  · have hbit := emergency_loop_written_bit cfg
      (autoc4_any_output_on cfg (autoc4_emergency_zero_dmx cfg s))
      (List.range cfg.output_count) (autoc4_emergency_zero_dmx cfg s) i 0
      (List.nodup_range _) (List.mem_range.mpr hi) hQ (Or.inr ⟨ht, hz, rfl⟩)
      (fun j hj hji => hdistinct j (List.mem_range.mp hj) i hi hji)
    unfold autoc4_emergency_switch_toggled
    have hzero : ∀ x q : Nat, x.testBit q = false → x &&& (1 <<< q) = 0 := by
      intro x q h
      rw [← and_one_shiftLeft_ne_zero] at h
      simpa using h
    by_cases hod : (cfg.output_configs i).opendrain = true
    · rw [if_pos hod] at hbit ⊢
      exact hzero _ _ (by simpa using hbit)
    · rw [if_neg hod] at hbit ⊢
      exact hzero _ _ (by simpa using hbit)

/-- Witness for C10 as amended: output 1 of `zero_group_config` is in the zero group
only; starting from all three outputs driven high, it is off after the interlock. -/
theorem emergency_zero_group_forced_off_witness :
    (zero_group_config.output_configs 1).emergency_zeroed = true
      ∧ (zero_group_config.output_configs 1).emergency_toggled = false
      ∧ (autoc4_emergency_switch_toggled zero_group_config
            { demo_state with ports := fun _ => 7 }).ports 1 &&& (1 <<< 1) = 0 :=
  ⟨rfl, rfl,
    (emergency_zero_group_forced_off zero_group_config
      { demo_state with ports := fun _ => 7 }).2.2 (by decide) 1 (by decide) rfl rfl
      (by decide)⟩

/-- Counterexample to C10 as stated: the output of `both_groups_config` has both flags
set; in `demo_state` it reads off, so `any_on` is false, the only call made for it is
`autoc4_set_output(0, 1)`, and it reads on after the interlock. -/
theorem emergency_zero_group_counterexample :
    (both_groups_config.output_configs 0).emergency_zeroed = true
      ∧ (both_groups_config.output_configs 0).emergency_toggled = true
      ∧ autoc4_get_output both_groups_config 0 demo_state = false
      ∧ autoc4_emergency_writes both_groups_config
          (autoc4_any_output_on both_groups_config
            (autoc4_emergency_zero_dmx both_groups_config demo_state))
          (List.range both_groups_config.output_count) = [(0, 1)]
      ∧ (autoc4_emergency_switch_toggled both_groups_config demo_state).ports 1 = 1
      ∧ autoc4_get_output both_groups_config 0
          (autoc4_emergency_switch_toggled both_groups_config demo_state) = true := by
  decide

/-! ## Status indicator -/

/-- C11 (status indicator): `autoc4_update_status_light` makes exactly one indicator
call, for 4 units, with blue equal to the brightness `status_led_value` when
`locked_mode` is set and 0 otherwise, and with (red, green) equal to (v, 0) when the
transport is disconnected whatever `logicer_state` is, (v, v) when connected with
`logicer_state` false, and (0, v) when connected with `logicer_state` true; it leaves
the controller state unchanged. -/
theorem status_indicator_triple (connected : Bool) (s : State) :
    (autoc4_update_status_light connected s).1 = s
      ∧ (connected = false →
          (autoc4_update_status_light connected s).2
            = [⟨s.status_led_value, 0,
                if s.locked_mode = true then s.status_led_value else 0, 4⟩])
      ∧ (connected = true → s.logicer_state = false →
          (autoc4_update_status_light connected s).2
            = [⟨s.status_led_value, s.status_led_value,
                if s.locked_mode = true then s.status_led_value else 0, 4⟩])
      ∧ (connected = true → s.logicer_state = true →
          (autoc4_update_status_light connected s).2
            = [⟨0, s.status_led_value,
                if s.locked_mode = true then s.status_led_value else 0, 4⟩]) := by
  unfold autoc4_update_status_light
  cases connected <;> cases hl : s.logicer_state <;> simp

/-- Witness for C11: locked, connected, supervisor heartbeat missing, brightness 16:
all four units get (16, 16, 16). -/
theorem status_indicator_triple_witness :
    (autoc4_update_status_light true demo_locked).2 = [⟨16, 16, 16, 4⟩] :=
  (status_indicator_triple true demo_locked).2.2.1 rfl rfl

/-! ## Blink durations -/

theorem blink_product_bounds (a b : Nat) (ha : a ≤ 3) (hb : b ≤ 3) :
    1 ≤ blink_timeouts.getD a 0 * (b + 1) ∧ blink_timeouts.getD a 0 * (b + 1) ≤ 120 := by
  interval_cases a <;> interval_cases b <;> decide

theorem blink_fields_le (value : Nat) :
    (value &&& 0xc0) >>> 6 ≤ 3 ∧ (value &&& 0x30) >>> 4 ≤ 3 ∧ (value &&& 0x0c) >>> 2 ≤ 3
      ∧ (value &&& 0x03) >>> 0 ≤ 3 := by
  have h1 : value &&& 0xc0 ≤ 0xc0 := Nat.and_le_right
  have h2 : value &&& 0x30 ≤ 0x30 := Nat.and_le_right
  have h3 : value &&& 0x0c ≤ 0x0c := Nat.and_le_right
  have h4 : value &&& 0x03 ≤ 0x03 := Nat.and_le_right
  simp only [Nat.shiftRight_eq_div_pow]
  refine ⟨?_, ?_, ?_, ?_⟩ <;> omega

theorem blink_products_range (value : Nat) :
    1 ≤ autoc4_blink_product_high value ∧ autoc4_blink_product_high value ≤ 120
      ∧ 1 ≤ autoc4_blink_product_low value ∧ autoc4_blink_product_low value ≤ 120 := by
  obtain ⟨h1, h2, h3, h4⟩ := blink_fields_le value
  obtain ⟨a1, a2⟩ := blink_product_bounds _ _ h1 h2
  obtain ⟨b1, b2⟩ := blink_product_bounds _ _ h3 h4
  exact ⟨a1, a2, b1, b2⟩

/-- C16 (blink duration range), as amended: for every pattern byte, the phase duration
`blink_timeouts[idx] * (mult + 1)` computed for the high fields and for the low fields
lies between 1 and 120 units of 100 ms (100 ms to 12000 ms). -/
theorem blink_duration_range (value : Nat) :
    1 ≤ autoc4_blink_product_high value ∧ autoc4_blink_product_high value ≤ 120
      ∧ 1 ≤ autoc4_blink_product_low value ∧ autoc4_blink_product_low value ≤ 120 := by
  obtain ⟨h1, h2, h3, h4⟩ := blink_fields_le value
  obtain ⟨a1, a2⟩ := blink_product_bounds _ _ h1 h2
  obtain ⟨b1, b2⟩ := blink_product_bounds _ _ h3 h4
  exact ⟨a1, a2, b1, b2⟩

/-- Counterexample to C16 as stated: for the pattern byte 0xff both computed durations
are 120 units, above 30. -/
theorem blink_duration_range_counterexample :
    autoc4_blink_product_high 0xff = 120 ∧ autoc4_blink_product_low 0xff = 120
      ∧ ¬ (autoc4_blink_product_high 0xff ≤ 30) := by
  decide

/-! ## Output read-back -/

theorem ddr_init_output_testBit (cfg : Config) (s : State) (j P Q : Nat) (hQ : Q < 8) :
    ((autoc4_ddr_init_output cfg s j).ddrs P).testBit Q
      = ((s.ddrs P).testBit Q
        || (decide ((cfg.output_configs j).port_index = P)
          && decide ((cfg.output_configs j).pin_index = Q))) := by
  unfold autoc4_ddr_init_output upd
  by_cases hP : P = (cfg.output_configs j).port_index
  · subst hP
    simp [testBit_reg_or, hQ]
  · have hP' : ¬ (cfg.output_configs j).port_index = P := fun h => hP h.symm
    simp [hP, hP']

theorem ddr_init_outputs_testBit (cfg : Config) (l : List Nat) (s : State) (P Q : Nat)
    (hQ : Q < 8) :
    ((l.foldl (autoc4_ddr_init_output cfg) s).ddrs P).testBit Q
      = ((s.ddrs P).testBit Q
        || l.any (fun j => decide ((cfg.output_configs j).port_index = P)
            && decide ((cfg.output_configs j).pin_index = Q))) := by
  induction l generalizing s with
  | nil => simp
  | cons a rest ih =>
    rw [List.foldl_cons, ih, ddr_init_output_testBit cfg s a P Q hQ, List.any_cons,
      Bool.or_assoc]

theorem ddr_init_inputs_ddrs (cfg : Config) (l : List Nat) (s : State) :
    (l.foldl (autoc4_ddr_init_input cfg) s).ddrs = s.ddrs := by
  induction l generalizing s with
  | nil => rfl
  | cons a rest ih =>
    rw [List.foldl_cons, ih]
    unfold autoc4_ddr_init_input
    split_ifs <;> rfl

theorem ddr_init_sets_direction (cfg : Config) (s : State) (i : Nat)
    (hi : i < cfg.output_count) (hQ : (cfg.output_configs i).pin_index < 8) :
    (autoc4_ddr_init cfg s).ddrs (cfg.output_configs i).port_index
      &&& (1 <<< (cfg.output_configs i).pin_index) ≠ 0 := by
  have h : ((autoc4_ddr_init cfg s).ddrs (cfg.output_configs i).port_index).testBit
      (cfg.output_configs i).pin_index = true := by
    unfold autoc4_ddr_init
    rw [ddr_init_inputs_ddrs, ddr_init_outputs_testBit cfg _ s _ _ hQ]
    have : (List.range cfg.output_count).any
        (fun j => decide ((cfg.output_configs j).port_index = (cfg.output_configs i).port_index)
          && decide ((cfg.output_configs j).pin_index = (cfg.output_configs i).pin_index))
        = true := by
      rw [List.any_eq_true]
      exact ⟨i, List.mem_range.mpr hi, by simp⟩
    rw [this, Bool.or_true]
  rw [← and_one_shiftLeft_ne_zero] at h
  simpa using h

/-- C17 (get_output contract), as amended: for every output index, configuration and
register contents, `autoc4_get_output(i)` is nonzero iff the pin's port bit is set or
its direction bit is clear, whatever the open-drain flag.  For an output that is
configured open-drain or whose direction bit is set this is the same as: (direction bit
set and port bit set) or (open-drain and direction bit clear); and `autoc4_ddr_init`
leaves the direction bit of every output with a pin index below 8 set. -/
theorem get_output_contract (cfg : Config) (i : Nat) (s : State) :
    (autoc4_get_output cfg i s = true
        ↔ (s.ports (cfg.output_configs i).port_index
              &&& (1 <<< (cfg.output_configs i).pin_index) ≠ 0
            ∨ s.ddrs (cfg.output_configs i).port_index
              &&& (1 <<< (cfg.output_configs i).pin_index) = 0))
      ∧ ((cfg.output_configs i).opendrain = true
          ∨ s.ddrs (cfg.output_configs i).port_index
              &&& (1 <<< (cfg.output_configs i).pin_index) ≠ 0 →
        (autoc4_get_output cfg i s = true
          ↔ ((s.ddrs (cfg.output_configs i).port_index
                  &&& (1 <<< (cfg.output_configs i).pin_index) ≠ 0
                ∧ s.ports (cfg.output_configs i).port_index
                  &&& (1 <<< (cfg.output_configs i).pin_index) ≠ 0)
              ∨ ((cfg.output_configs i).opendrain = true
                ∧ s.ddrs (cfg.output_configs i).port_index
                  &&& (1 <<< (cfg.output_configs i).pin_index) = 0))))
      ∧ (i < cfg.output_count → (cfg.output_configs i).pin_index < 8 →
        (autoc4_ddr_init cfg s).ddrs (cfg.output_configs i).port_index
          &&& (1 <<< (cfg.output_configs i).pin_index) ≠ 0) := by
  have hget : autoc4_get_output cfg i s = true
      ↔ (s.ports (cfg.output_configs i).port_index
            &&& (1 <<< (cfg.output_configs i).pin_index) ≠ 0
          ∨ s.ddrs (cfg.output_configs i).port_index
            &&& (1 <<< (cfg.output_configs i).pin_index) = 0) := by
    unfold autoc4_get_output
    simp
  refine ⟨hget, fun h => ?_, fun hi hQ => ddr_init_sets_direction cfg s i hi hQ⟩
  rw [hget]
  by_cases hd : s.ddrs (cfg.output_configs i).port_index
      &&& (1 <<< (cfg.output_configs i).pin_index) = 0
  · rcases h with hod | hnz
    · simp [hd, hod]
    · exact absurd hd hnz
  · simp [hd]

/-- Witness for C17 as amended: output 0 of `demo_config` is push-pull with its
direction bit set and its port bit clear in `demo_state`, and reads off. -/
theorem get_output_contract_witness :
    ¬ autoc4_get_output demo_config 0 demo_state = true := by
  have h := (get_output_contract demo_config 0 demo_state).2.1 (Or.inr (by decide))
  rw [h]
  decide

/-- Counterexample to C17 as stated: output 0 of `demo_config` is push-pull; in
`demo_undriven` its direction bit and its port bit are clear, so neither (direction set
and port set) nor (open-drain and direction clear) holds, yet `autoc4_get_output`
returns nonzero. -/
theorem get_output_contract_counterexample :
    (demo_config.output_configs 0).opendrain = false
      ∧ demo_undriven.ddrs (demo_config.output_configs 0).port_index
          &&& (1 <<< (demo_config.output_configs 0).pin_index) = 0
      ∧ demo_undriven.ports (demo_config.output_configs 0).port_index
          &&& (1 <<< (demo_config.output_configs 0).pin_index) = 0
      ∧ autoc4_get_output demo_config 0 demo_undriven = true := by
  decide

/-! ## Periodic scheduler -/

theorem periodic_counters (cfg : Config) (env : Nat → Bool × (Nat → Nat)) (s : State)
    (n : Nat) :
    (autoc4_periodic_iterate cfg env n (autoc4_periodic_start s)).counter_100ms
        = 10 - n % 10
      ∧ (autoc4_periodic_iterate cfg env n (autoc4_periodic_start s)).counter_1s
        = 100 - n % 100 := by
  induction n with
  | zero => exact ⟨rfl, rfl⟩
  | succ n ih =>
    obtain ⟨h1, h2⟩ := ih
    simp only [autoc4_periodic_iterate, autoc4_periodic, h1, h2]
    clear h1 h2
    constructor
    · split_ifs <;> omega
    · split_ifs <;> omega

theorem update_status_light_calls (connected : Bool) (s : State) :
    (autoc4_update_status_light connected s).1 = s
      ∧ ∃ w, (autoc4_update_status_light connected s).2 = [w] := by
  unfold autoc4_update_status_light
  dsimp only
  split_ifs <;> exact ⟨rfl, _, rfl⟩

/-- C15 (scheduler cadence): counting calls of `autoc4_periodic` from 1 after start-up,
the counters are `10 - n % 10` and `100 - n % 100` after `n` calls, so they stay within
1..10 and 1..100 between calls.  Call number `n + 1` runs `autoc4_poll_blinking` iff
`n + 1` is a multiple of 10, runs `autoc4_update_status_light` iff `n + 1` is a multiple
of 100, and always runs `autoc4_read_inputs`: the indicator calls made by call number
`n + 1` are exactly those of `autoc4_update_status_light` (one call) when `n + 1` is a
multiple of 100 and none otherwise, and the state it leaves is that of
`autoc4_read_inputs` applied to the state the blink scheduler left when `n + 1` is a
multiple of 10 and to the previous state otherwise. -/
theorem scheduler_cadence (cfg : Config) (env : Nat → Bool × (Nat → Nat)) (s : State)
    (n : Nat) :
    (1 ≤ (autoc4_periodic_iterate cfg env n (autoc4_periodic_start s)).counter_100ms
        ∧ (autoc4_periodic_iterate cfg env n (autoc4_periodic_start s)).counter_100ms ≤ 10)
      ∧ (1 ≤ (autoc4_periodic_iterate cfg env n (autoc4_periodic_start s)).counter_1s
        ∧ (autoc4_periodic_iterate cfg env n (autoc4_periodic_start s)).counter_1s ≤ 100)
      ∧ ((autoc4_periodic cfg (env n).1 (env n).2
            (autoc4_periodic_iterate cfg env n (autoc4_periodic_start s))).ran_poll_blinking
          = true ↔ 10 ∣ n + 1)
      ∧ ((autoc4_periodic cfg (env n).1 (env n).2
            (autoc4_periodic_iterate cfg env n
              (autoc4_periodic_start s))).ran_update_status_light
          = true ↔ 100 ∣ n + 1)
      ∧ (autoc4_periodic cfg (env n).1 (env n).2
            (autoc4_periodic_iterate cfg env n (autoc4_periodic_start s))).ran_read_inputs
          = true
      ∧ (autoc4_periodic cfg (env n).1 (env n).2
            (autoc4_periodic_iterate cfg env n (autoc4_periodic_start s))).next.state
          = autoc4_read_inputs cfg (env n).1 (env n).2
              (if 10 ∣ n + 1 then
                autoc4_poll_blinking cfg
                  (autoc4_periodic_iterate cfg env n (autoc4_periodic_start s)).state
              else (autoc4_periodic_iterate cfg env n (autoc4_periodic_start s)).state)
      ∧ (autoc4_periodic cfg (env n).1 (env n).2
            (autoc4_periodic_iterate cfg env n (autoc4_periodic_start s))).leds
          = (if 100 ∣ n + 1 then
              (autoc4_update_status_light (env n).1
                (if 10 ∣ n + 1 then
                  autoc4_poll_blinking cfg
                    (autoc4_periodic_iterate cfg env n (autoc4_periodic_start s)).state
                else (autoc4_periodic_iterate cfg env n (autoc4_periodic_start s)).state)).2
            else [])
      ∧ ((autoc4_periodic cfg (env n).1 (env n).2
            (autoc4_periodic_iterate cfg env n (autoc4_periodic_start s))).leds.length
          = if 100 ∣ n + 1 then 1 else 0) := by
  have e1 : ((10 - n % 10 + 255) % 256 = 0) ↔ 10 ∣ n + 1 := by omega
  have e2 : ((100 - n % 100 + 255) % 256 = 0) ↔ 100 ∣ n + 1 := by omega
  obtain ⟨h1, h2⟩ := periodic_counters cfg env s n
  generalize autoc4_periodic_iterate cfg env n (autoc4_periodic_start s) = p at h1 h2 ⊢
  have hleds : (autoc4_periodic cfg (env n).1 (env n).2 p).leds
      = (if 100 ∣ n + 1 then
          (autoc4_update_status_light (env n).1
            (if 10 ∣ n + 1 then autoc4_poll_blinking cfg p.state else p.state)).2
        else []) := by
    simp only [autoc4_periodic, h1, h2]
    by_cases hd : 10 ∣ n + 1
    · rw [if_pos hd, if_pos (e1.mpr hd)]
      by_cases hc : 100 ∣ n + 1
      · rw [if_pos hc, if_pos (e2.mpr hc)]
      · rw [if_neg hc, if_neg (fun h => hc (e2.mp h))]
    · rw [if_neg hd, if_neg (fun h => hd (e1.mp h))]
      by_cases hc : 100 ∣ n + 1
      · rw [if_pos hc, if_pos (e2.mpr hc)]
      · rw [if_neg hc, if_neg (fun h => hc (e2.mp h))]
  refine ⟨?_, ?_, ?_, ?_, rfl, ?_, hleds, ?_⟩
  · rw [h1]; constructor <;> omega
  · rw [h2]; constructor <;> omega
  · simp only [autoc4_periodic, h1, decide_eq_true_eq]
    exact e1
  · simp only [autoc4_periodic, h2, decide_eq_true_eq]
    exact e2
  · simp only [autoc4_periodic, h1, h2]
    by_cases hd : 10 ∣ n + 1
    · rw [if_pos hd, if_pos (e1.mpr hd)]
      unfold autoc4_update_status_light
      dsimp only
      congr 1
      split_ifs <;> rfl
    · rw [if_neg hd, if_neg (fun h => hd (e1.mp h))]
      unfold autoc4_update_status_light
      dsimp only
      congr 1
      split_ifs <;> rfl
  · rw [hleds]
    by_cases hc : 100 ∣ n + 1
    · rw [if_pos hc, if_pos hc]
      obtain ⟨_, w, hw⟩ := update_status_light_calls (env n).1
        (if 10 ∣ n + 1 then autoc4_poll_blinking cfg p.state else p.state)
      rw [hw]
      rfl
    · rw [if_neg hc, if_neg hc]
      rfl

/-- Witness for C15: the tenth call after start-up runs the blink scheduler and makes
no indicator call; the hundredth call makes exactly one indicator call. -/
theorem scheduler_cadence_witness :
    (autoc4_periodic demo_config true (fun _ => 0)
        (autoc4_periodic_iterate demo_config (fun _ => (true, fun _ => 0)) 9
          (autoc4_periodic_start demo_state))).ran_poll_blinking = true
      ∧ (autoc4_periodic demo_config true (fun _ => 0)
        (autoc4_periodic_iterate demo_config (fun _ => (true, fun _ => 0)) 9
          (autoc4_periodic_start demo_state))).leds = []
      ∧ (autoc4_periodic demo_config true (fun _ => 0)
        (autoc4_periodic_iterate demo_config (fun _ => (true, fun _ => 0)) 99
          (autoc4_periodic_start demo_state))).leds.length = 1 :=
  ⟨(scheduler_cadence demo_config (fun _ => (true, fun _ => 0)) demo_state 9).2.2.1.mpr
      (by decide),
    (scheduler_cadence demo_config (fun _ => (true, fun _ => 0)) demo_state 9).2.2.2.2.2.2.1,
    (scheduler_cadence demo_config (fun _ => (true, fun _ => 0)) demo_state 99).2.2.2.2.2.2.2⟩

/-! ## Blink scheduler -/

/-- C12 (blink pattern 0), evaluated at a failing input: all three outputs of
`demo_config` are blink-enabled; in `demo_sentinel_first` output 0 holds the pattern
0x01 with timer 0 and reads high, output 1 holds the pattern 0 and is driven high.  One
call of `autoc4_poll_blinking` executes the loop body of output 0 only, which leaves
through `return`, and output 1 is not driven off: its port bit is still set and it
still reads on. -/
theorem blink_pattern_zero_skipped_after_return :
    (demo_config.output_configs 1).enable_blinking = true
      ∧ (demo_sentinel_first.output_states 1).value = 0
      ∧ autoc4_get_output demo_config 1 demo_sentinel_first = true
      ∧ autoc4_poll_blinking_visited demo_config (List.range demo_config.output_count)
          demo_sentinel_first = [0]
      ∧ (autoc4_poll_blinking demo_config demo_sentinel_first).ports 1 = 3
      ∧ autoc4_get_output demo_config 1 (autoc4_poll_blinking demo_config demo_sentinel_first)
          = true
      ∧ autoc4_get_output demo_config 1
          (autoc4_set_output demo_config 1 0 demo_sentinel_first) = false := by
  decide

theorem blink_set_timer_output_states (s : State) (i t j : Nat) :
    (autoc4_blink_set_timer s i t).output_states j
      = if j = i then ⟨(s.output_states i).value, t % 256⟩ else s.output_states j := by
  unfold autoc4_blink_set_timer upd
  rfl

theorem blink_decrement_output_states (s : State) (i j : Nat) :
    (autoc4_blink_decrement s i).output_states j
      = if j = i then ⟨(s.output_states i).value, ((s.output_states i).timer + 255) % 256⟩
        else s.output_states j := by
  unfold autoc4_blink_decrement
  rw [blink_set_timer_output_states]

theorem blink_product_high_mod (value : Nat) :
    autoc4_blink_product_high value % 256 = autoc4_blink_product_high value := by
  have := blink_products_range value
  omega

theorem blink_product_low_mod (value : Nat) :
    autoc4_blink_product_low value % 256 = autoc4_blink_product_low value := by
  have := blink_products_range value
  omega

/-- The effect of the loop body of `autoc4_poll_blinking` for output `i`, case by
case. -/
theorem poll_blinking_step_cases (cfg : Config) (s : State) (i : Nat) :
    ((cfg.output_configs i).enable_blinking = false →
        autoc4_poll_blinking_step cfg s i = (s, false))
      ∧ ((cfg.output_configs i).enable_blinking = true → (s.output_states i).value = 0 →
        autoc4_poll_blinking_step cfg s i = (autoc4_set_output cfg i 0 s, false))
      ∧ ((cfg.output_configs i).enable_blinking = true → (s.output_states i).value ≠ 0 →
        (s.output_states i).timer ≠ 0 →
        autoc4_poll_blinking_step cfg s i = (autoc4_blink_decrement s i, false))
      ∧ ((cfg.output_configs i).enable_blinking = true → (s.output_states i).value ≠ 0 →
        (s.output_states i).timer = 0 → autoc4_get_output cfg i s = true →
        autoc4_blink_product_high (s.output_states i).value = 1 →
        autoc4_poll_blinking_step cfg s i = (autoc4_blink_set_timer s i 1, true))
      ∧ ((cfg.output_configs i).enable_blinking = true → (s.output_states i).value ≠ 0 →
        (s.output_states i).timer = 0 → autoc4_get_output cfg i s = true →
        autoc4_blink_product_high (s.output_states i).value ≠ 1 →
        autoc4_poll_blinking_step cfg s i
          = (autoc4_blink_decrement (autoc4_set_output cfg i 0
              (autoc4_blink_set_timer s i
                (autoc4_blink_product_high (s.output_states i).value))) i, false))
      ∧ ((cfg.output_configs i).enable_blinking = true → (s.output_states i).value ≠ 0 →
        (s.output_states i).timer = 0 → autoc4_get_output cfg i s = false →
        autoc4_blink_product_low (s.output_states i).value = 1 →
        autoc4_poll_blinking_step cfg s i = (autoc4_blink_set_timer s i 1, true))
      ∧ ((cfg.output_configs i).enable_blinking = true → (s.output_states i).value ≠ 0 →
        (s.output_states i).timer = 0 → autoc4_get_output cfg i s = false →
        autoc4_blink_product_low (s.output_states i).value ≠ 1 →
        autoc4_poll_blinking_step cfg s i
          = (autoc4_blink_decrement (autoc4_set_output cfg i 1
              (autoc4_blink_set_timer s i
                (autoc4_blink_product_low (s.output_states i).value))) i, false)) := by
  refine ⟨?_, ?_, ?_, ?_, ?_, ?_, ?_⟩
  · intro he
    simp [autoc4_poll_blinking_step, he]
  · intro he hv
    simp [autoc4_poll_blinking_step, he, hv]
  · intro he hv ht
    simp [autoc4_poll_blinking_step, he, hv, ht]
  · intro he hv ht hg hp
    simp [autoc4_poll_blinking_step, he, hv, ht, hg, hp, blink_set_timer_output_states]
  · intro he hv ht hg hp
    have hp' : ¬ autoc4_blink_product_high (s.output_states i).value % 256 = 1 := by
      rw [blink_product_high_mod]; exact hp
    simp [autoc4_poll_blinking_step, he, hv, ht, hg, hp', blink_set_timer_output_states]
  · intro he hv ht hg hp
    simp [autoc4_poll_blinking_step, he, hv, ht, hg, hp, blink_set_timer_output_states]
  · intro he hv ht hg hp
    have hp' : ¬ autoc4_blink_product_low (s.output_states i).value % 256 = 1 := by
      rw [blink_product_low_mod]; exact hp
    simp [autoc4_poll_blinking_step, he, hv, ht, hg, hp', blink_set_timer_output_states]

theorem poll_blinking_step_shape (cfg : Config) (s : State) (i : Nat) :
    ((cfg.output_configs i).enable_blinking = false
        ∧ autoc4_poll_blinking_step cfg s i = (s, false))
      ∨ ((cfg.output_configs i).enable_blinking = true ∧ (s.output_states i).value = 0
        ∧ autoc4_poll_blinking_step cfg s i = (autoc4_set_output cfg i 0 s, false))
      ∨ ((cfg.output_configs i).enable_blinking = true ∧ (s.output_states i).value ≠ 0
        ∧ (s.output_states i).timer ≠ 0
        ∧ autoc4_poll_blinking_step cfg s i = (autoc4_blink_decrement s i, false))
      ∨ ((cfg.output_configs i).enable_blinking = true ∧ (s.output_states i).value ≠ 0
        ∧ (s.output_states i).timer = 0
        ∧ ((autoc4_get_output cfg i s = true
            ∧ autoc4_blink_product_high (s.output_states i).value = 1)
          ∨ (autoc4_get_output cfg i s = false
            ∧ autoc4_blink_product_low (s.output_states i).value = 1))
        ∧ autoc4_poll_blinking_step cfg s i = (autoc4_blink_set_timer s i 1, true))
      ∨ ((cfg.output_configs i).enable_blinking = true ∧ (s.output_states i).value ≠ 0
        ∧ (s.output_states i).timer = 0
        ∧ ∃ x p, 2 ≤ p ∧ p ≤ 120
          ∧ ((autoc4_get_output cfg i s = true ∧ x = 0
              ∧ p = autoc4_blink_product_high (s.output_states i).value)
            ∨ (autoc4_get_output cfg i s = false ∧ x = 1
              ∧ p = autoc4_blink_product_low (s.output_states i).value))
          ∧ autoc4_poll_blinking_step cfg s i
            = (autoc4_blink_decrement (autoc4_set_output cfg i x
                (autoc4_blink_set_timer s i p)) i, false)) := by
  obtain ⟨c1, c2, c3, c4, c5, c6, c7⟩ := poll_blinking_step_cases cfg s i
  obtain ⟨b1, b2, b3, b4⟩ := blink_products_range (s.output_states i).value
  by_cases he : (cfg.output_configs i).enable_blinking = true
  swap
  · have he' : (cfg.output_configs i).enable_blinking = false := by simpa using he
    exact Or.inl ⟨he', c1 he'⟩
  by_cases hv : (s.output_states i).value = 0
  · exact Or.inr (Or.inl ⟨he, hv, c2 he hv⟩)
  by_cases ht : (s.output_states i).timer = 0
  swap
  · exact Or.inr (Or.inr (Or.inl ⟨he, hv, ht, c3 he hv ht⟩))
  cases hg : autoc4_get_output cfg i s
  · by_cases hp : autoc4_blink_product_low (s.output_states i).value = 1
    · exact Or.inr (Or.inr (Or.inr (Or.inl ⟨he, hv, ht, Or.inr ⟨rfl, hp⟩, c6 he hv ht hg hp⟩)))
    · exact Or.inr (Or.inr (Or.inr (Or.inr ⟨he, hv, ht, 1, _, by omega, b4,
        Or.inr ⟨rfl, rfl, rfl⟩, c7 he hv ht hg hp⟩)))
  · by_cases hp : autoc4_blink_product_high (s.output_states i).value = 1
    · exact Or.inr (Or.inr (Or.inr (Or.inl ⟨he, hv, ht, Or.inl ⟨rfl, hp⟩, c4 he hv ht hg hp⟩)))
    · exact Or.inr (Or.inr (Or.inr (Or.inr ⟨he, hv, ht, 0, _, by omega, b2,
        Or.inl ⟨rfl, rfl, rfl⟩, c5 he hv ht hg hp⟩)))

theorem poll_blinking_step_other_output (cfg : Config) (s : State) (i j : Nat) (hji : j ≠ i) :
    (autoc4_poll_blinking_step cfg s i).1.output_states j = s.output_states j := by
  rcases poll_blinking_step_shape cfg s i with ⟨_, h⟩ | ⟨_, _, h⟩ | ⟨_, _, _, h⟩
    | ⟨_, _, _, _, h⟩ | ⟨_, _, _, x, p, _, _, _, h⟩ <;> rw [h]
  · simp
  · simp [blink_decrement_output_states, hji]
  · simp [blink_set_timer_output_states, hji]
  · simp [blink_decrement_output_states, blink_set_timer_output_states, hji]

theorem poll_blinking_step_timer_change (cfg : Config) (s : State) (i : Nat) :
    blink_timer_change (s.output_states i)
      ((autoc4_poll_blinking_step cfg s i).1.output_states i) := by
  unfold blink_timer_change
  rcases poll_blinking_step_shape cfg s i with ⟨_, h⟩ | ⟨_, _, h⟩ | ⟨_, _, ht, h⟩
    | ⟨_, _, ht, _, h⟩ | ⟨_, _, ht, x, p, hp2, hp120, _, h⟩ <;> rw [h]
  · simp
  · simp
  · simp [blink_decrement_output_states, ht]
  · simp only [blink_set_timer_output_states, if_true, true_and]
    exact Or.inr (Or.inr ⟨ht, by omega, by omega⟩)
  · simp only [blink_decrement_output_states, set_output_output_states,
      blink_set_timer_output_states, if_true, true_and]
    refine Or.inr (Or.inr ⟨ht, ?_, ?_⟩) <;> omega

theorem poll_blinking_loop_other_output (cfg : Config) (l : List Nat) (s : State) (j : Nat)
    (hj : j ∉ l) :
    (autoc4_poll_blinking_loop cfg l s).output_states j = s.output_states j := by
  induction l generalizing s with
  | nil => rfl
  | cons a rest ih =>
    have hja : j ≠ a := fun h => hj (h ▸ List.mem_cons_self _ _)
    have hjr : j ∉ rest := fun h => hj (List.mem_cons_of_mem _ h)
    unfold autoc4_poll_blinking_loop
    split_ifs
    · exact poll_blinking_step_other_output cfg s a j hja
    · rw [ih _ hjr, poll_blinking_step_other_output cfg s a j hja]

theorem poll_blinking_loop_timer_change (cfg : Config) (l : List Nat) (s : State) (i : Nat)
    (hnd : l.Nodup) :
    blink_timer_change (s.output_states i)
      ((autoc4_poll_blinking_loop cfg l s).output_states i) := by
  induction l generalizing s with
  | nil => simp [autoc4_poll_blinking_loop, blink_timer_change]
  | cons a rest ih =>
    obtain ⟨ha, hnd'⟩ := List.nodup_cons.mp hnd
    unfold autoc4_poll_blinking_loop
    by_cases hia : i = a
    · subst hia
      split_ifs
      · exact poll_blinking_step_timer_change cfg s i
      · rw [poll_blinking_loop_other_output cfg rest _ i ha]
        exact poll_blinking_step_timer_change cfg s i
    · split_ifs
      · rw [poll_blinking_step_other_output cfg s a i hia]
        simp [blink_timer_change]
      · have := ih (autoc4_poll_blinking_step cfg s a).1 hnd'
        rw [poll_blinking_step_other_output cfg s a i hia] at this
        exact this

theorem poll_blinking_decrement_operand_spec (cfg : Config) (s : State) (i : Nat) :
    (∀ t, autoc4_poll_blinking_decrement_operand cfg s i = some t →
        t ≠ 0
          ∧ ((autoc4_poll_blinking_step cfg s i).1.output_states i).timer = (t + 255) % 256)
      ∧ (autoc4_poll_blinking_decrement_operand cfg s i = none →
        ((autoc4_poll_blinking_step cfg s i).1.output_states i).timer
            = (s.output_states i).timer
          ∨ ((autoc4_poll_blinking_step cfg s i).1.output_states i).timer = 1) := by
  unfold autoc4_poll_blinking_decrement_operand
  rcases poll_blinking_step_shape cfg s i with ⟨he, h⟩ | ⟨he, hv, h⟩ | ⟨he, hv, ht, h⟩
    | ⟨he, hv, ht, hc, h⟩ | ⟨he, hv, ht, x, p, hp2, hp120, hc, h⟩ <;> rw [h]
  · simp [he]
  · simp [he, hv]
  · simp [he, hv, ht, blink_decrement_output_states]
  · rcases hc with ⟨hg, hp⟩ | ⟨hg, hp⟩ <;>
      simp [he, hv, ht, hg, hp, blink_set_timer_output_states]
  · rcases hc with ⟨hg, _, hp⟩ | ⟨hg, _, hp⟩
    · have h1 : p % 256 = p := by omega
      have h2 : ¬ p = 1 := by omega
      have h3 : ¬ p = 0 := by omega
      simp [he, hv, ht, hg, ← hp, h1, h2, h3, blink_decrement_output_states,
        blink_set_timer_output_states]
    · have h1 : p % 256 = p := by omega
      have h2 : ¬ p = 1 := by omega
      have h3 : ¬ p = 0 := by omega
      simp [he, hv, ht, hg, ← hp, h1, h2, h3, blink_decrement_output_states,
        blink_set_timer_output_states]

/-- C20 (timer never wraps), as amended: for every configuration and every state, the
8-bit product `blink_timeouts[idx] * (mult + 1)` never exceeds 255, and whenever the
loop body of `autoc4_poll_blinking` executes `output_states[i].timer--` the timer is
nonzero, so no timer wraps around.  After a call every entry of `output_states` has its
pattern byte unchanged and its timer either unchanged, or decremented by one from a
nonzero value, or reloaded from zero to a value between 1 and 119. -/
theorem blink_timer_never_wraps (cfg : Config) (s : State) :
    (∀ value, autoc4_blink_product_high value ≤ 255 ∧ autoc4_blink_product_low value ≤ 255)
      ∧ (∀ (s' : State) (i t : Nat),
          autoc4_poll_blinking_decrement_operand cfg s' i = some t →
          t ≠ 0
            ∧ ((autoc4_poll_blinking_step cfg s' i).1.output_states i).timer
                = (t + 255) % 256)
      ∧ (∀ (s' : State) (i : Nat), autoc4_poll_blinking_decrement_operand cfg s' i = none →
          ((autoc4_poll_blinking_step cfg s' i).1.output_states i).timer
              = (s'.output_states i).timer
            ∨ ((autoc4_poll_blinking_step cfg s' i).1.output_states i).timer = 1)
      ∧ (∀ i, ((autoc4_poll_blinking cfg s).output_states i).value
            = (s.output_states i).value
          ∧ (((autoc4_poll_blinking cfg s).output_states i).timer = (s.output_states i).timer
            ∨ ((s.output_states i).timer ≠ 0
              ∧ ((autoc4_poll_blinking cfg s).output_states i).timer
                  = ((s.output_states i).timer + 255) % 256
              ∧ ((s.output_states i).timer < 256 →
                ((autoc4_poll_blinking cfg s).output_states i).timer + 1
                  = (s.output_states i).timer))
            ∨ ((s.output_states i).timer = 0
              ∧ 1 ≤ ((autoc4_poll_blinking cfg s).output_states i).timer
              ∧ ((autoc4_poll_blinking cfg s).output_states i).timer ≤ 119))) := by
  refine ⟨fun value => ?_, fun s' i t h => (poll_blinking_decrement_operand_spec cfg s' i).1 t h,
    fun s' i h => (poll_blinking_decrement_operand_spec cfg s' i).2 h, fun i => ?_⟩
  · have := blink_products_range value
    omega
  · obtain ⟨hv, ht⟩ := poll_blinking_loop_timer_change cfg (List.range cfg.output_count) s i
      (List.nodup_range _)
    refine ⟨hv, ?_⟩
    rcases ht with h | ⟨h0, h⟩ | h
    · exact Or.inl h
    · refine Or.inr (Or.inl ⟨h0, h, fun hlt => ?_⟩)
      unfold autoc4_poll_blinking
      omega
    · exact Or.inr (Or.inr h)

/-- Witness for C20 as amended: for output 0 of `demo_blink_start` (pattern 0x44, timer
0, reading off) the loop body reloads the timer to 5 and decrements it to 4. -/
theorem blink_timer_never_wraps_witness :
    (5 : Nat) ≠ 0
      ∧ ((autoc4_poll_blinking_step demo_config demo_blink_start 0).1.output_states 0).timer
          = (5 + 255) % 256 :=
  (blink_timer_never_wraps demo_config demo_blink_start).2.1 demo_blink_start 0 5 (by decide)

/-- Counterexample to C20 as stated: output 0 of `demo_long_timer` holds a nonzero
pattern and timer 200; one call of `autoc4_poll_blinking` modifies the timer to 199,
which is above 120. -/
theorem blink_timer_counterexample :
    (demo_config.output_configs 0).enable_blinking = true
      ∧ (demo_long_timer.output_states 0).timer = 200
      ∧ ((autoc4_poll_blinking demo_config demo_long_timer).output_states 0).timer = 199
      ∧ ¬ (199 ≤ 120) := by
  decide

theorem get_output_of_view (cfg : Config) (i : Nat) (s : State) :
    autoc4_get_output cfg i s
      = ((autoc4_output_view cfg i s).2.1 || !(autoc4_output_view cfg i s).2.2) := by
  rw [get_output_eq_testBit]
  rfl

theorem output_state_of_view (cfg : Config) (i : Nat) (s : State) :
    s.output_states i = (autoc4_output_view cfg i s).1 := rfl

theorem set_output_other_view (cfg : Config) (s : State) (i j x : Nat)
    (hQ : (cfg.output_configs i).pin_index < 8)
    (hpin : ¬ ((cfg.output_configs j).port_index = (cfg.output_configs i).port_index
      ∧ (cfg.output_configs j).pin_index = (cfg.output_configs i).pin_index)) :
    autoc4_output_view cfg i (autoc4_set_output cfg j x s) = autoc4_output_view cfg i s := by
  unfold autoc4_output_view
  rw [set_output_ports_testBit cfg j x s _ _ hQ, set_output_ddrs_testBit cfg j x s _ _ hQ,
    if_neg (fun h => hpin h.2), if_neg (fun h => hpin h.2), set_output_output_states]

theorem blink_set_timer_other_view (cfg : Config) (s : State) (i j t : Nat) (hji : j ≠ i) :
    autoc4_output_view cfg i (autoc4_blink_set_timer s j t) = autoc4_output_view cfg i s := by
  unfold autoc4_output_view
  rw [blink_set_timer_output_states, if_neg (fun h => hji h.symm)]
  rfl

theorem blink_decrement_other_view (cfg : Config) (s : State) (i j : Nat) (hji : j ≠ i) :
    autoc4_output_view cfg i (autoc4_blink_decrement s j) = autoc4_output_view cfg i s := by
  unfold autoc4_blink_decrement
  exact blink_set_timer_other_view cfg s i j _ hji

theorem poll_blinking_step_other_view (cfg : Config) (s : State) (i j : Nat) (hji : j ≠ i)
    (hQ : (cfg.output_configs i).pin_index < 8)
    (hpin : (cfg.output_configs j).enable_blinking = true →
      ¬ ((cfg.output_configs j).port_index = (cfg.output_configs i).port_index
        ∧ (cfg.output_configs j).pin_index = (cfg.output_configs i).pin_index)) :
    autoc4_output_view cfg i (autoc4_poll_blinking_step cfg s j).1
      = autoc4_output_view cfg i s := by
  rcases poll_blinking_step_shape cfg s j with ⟨_, h⟩ | ⟨he, _, h⟩ | ⟨_, _, _, h⟩
    | ⟨_, _, _, _, h⟩ | ⟨he, _, _, x, p, _, _, _, h⟩ <;> rw [h]
  · exact set_output_other_view cfg s i j 0 hQ (hpin he)
  · exact blink_decrement_other_view cfg s i j hji
  · exact blink_set_timer_other_view cfg s i j 1 hji
  · dsimp only
    rw [blink_decrement_other_view cfg _ i j hji, set_output_other_view cfg _ i j x hQ (hpin he),
      blink_set_timer_other_view cfg s i j p hji]

theorem poll_blinking_visited_subset (cfg : Config) (l : List Nat) (s : State) :
    ∀ x ∈ autoc4_poll_blinking_visited cfg l s, x ∈ l := by
  induction l generalizing s with
  | nil => intro x hx; cases hx
  | cons a rest ih =>
    intro x hx
    unfold autoc4_poll_blinking_visited at hx
    split_ifs at hx
    · rw [List.mem_singleton] at hx
      exact hx ▸ List.mem_cons_self _ _
    · rcases List.mem_cons.mp hx with h | h
      · exact h ▸ List.mem_cons_self _ _
      · exact List.mem_cons_of_mem _ (ih _ x h)

theorem poll_blinking_loop_view (cfg : Config) (l : List Nat) (s : State) (i : Nat)
    (hnd : l.Nodup) (hQ : (cfg.output_configs i).pin_index < 8)
    (hpins : ∀ j ∈ l, j ≠ i → (cfg.output_configs j).enable_blinking = true →
      ¬ ((cfg.output_configs j).port_index = (cfg.output_configs i).port_index
        ∧ (cfg.output_configs j).pin_index = (cfg.output_configs i).pin_index)) :
    (i ∉ autoc4_poll_blinking_visited cfg l s →
        autoc4_output_view cfg i (autoc4_poll_blinking_loop cfg l s)
          = autoc4_output_view cfg i s)
      ∧ (i ∈ autoc4_poll_blinking_visited cfg l s →
        ∃ s', autoc4_output_view cfg i s' = autoc4_output_view cfg i s
          ∧ autoc4_output_view cfg i (autoc4_poll_blinking_loop cfg l s)
            = autoc4_output_view cfg i (autoc4_poll_blinking_step cfg s' i).1) := by
  induction l generalizing s with
  | nil =>
    exact ⟨fun _ => rfl, fun h => by cases h⟩
  | cons a rest ih =>
    obtain ⟨ha, hnd'⟩ := List.nodup_cons.mp hnd
    have hpins' : ∀ j ∈ rest, j ≠ i → (cfg.output_configs j).enable_blinking = true →
        ¬ ((cfg.output_configs j).port_index = (cfg.output_configs i).port_index
          ∧ (cfg.output_configs j).pin_index = (cfg.output_configs i).pin_index) :=
      fun j hj => hpins j (List.mem_cons_of_mem _ hj)
    obtain ⟨ih1, ih2⟩ := ih (autoc4_poll_blinking_step cfg s a).1 hnd' hpins'
    unfold autoc4_poll_blinking_visited autoc4_poll_blinking_loop
    by_cases hai : a = i
    · subst hai
      have hnv : a ∉ autoc4_poll_blinking_visited cfg rest (autoc4_poll_blinking_step cfg s a).1 :=
        fun h => ha (poll_blinking_visited_subset cfg rest _ a h)
      by_cases hret : (autoc4_poll_blinking_step cfg s a).2 = true
      · rw [if_pos hret, if_pos hret]
        exact ⟨fun h => absurd (List.mem_singleton.mpr rfl) h, fun _ => ⟨s, rfl, rfl⟩⟩
      · rw [if_neg hret, if_neg hret]
        exact ⟨fun h => absurd (List.mem_cons_self _ _) h, fun _ => ⟨s, rfl, ih1 hnv⟩⟩
    · have hstep := poll_blinking_step_other_view cfg s i a hai hQ
        (hpins a (List.mem_cons_self _ _) hai)
      by_cases hret : (autoc4_poll_blinking_step cfg s a).2 = true
      · rw [if_pos hret, if_pos hret]
        refine ⟨fun _ => hstep, fun h => ?_⟩
        rw [List.mem_singleton] at h
        exact absurd h.symm hai
      · rw [if_neg hret, if_neg hret]
        refine ⟨fun h => ?_, fun h => ?_⟩
        · rw [ih1 (fun h' => h (List.mem_cons_of_mem _ h')), hstep]
        · have h' : i ∈ autoc4_poll_blinking_visited cfg rest
              (autoc4_poll_blinking_step cfg s a).1 := by
            rcases List.mem_cons.mp h with h1 | h1
            · exact absurd h1.symm hai
            · exact h1
          obtain ⟨s', hs1, hs2⟩ := ih2 h'
          exact ⟨s', hs1.trans hstep, hs2⟩

theorem view_eq_imp (cfg : Config) (i : Nat) (a b : State)
    (h : autoc4_output_view cfg i a = autoc4_output_view cfg i b) :
    a.output_states i = b.output_states i
      ∧ autoc4_get_output cfg i a = autoc4_get_output cfg i b := by
  rw [get_output_of_view, get_output_of_view, output_state_of_view cfg i a,
    output_state_of_view cfg i b, h]
  exact ⟨rfl, rfl⟩

theorem blink_product_high_of_fields_zero (v : Nat) (h : v &&& 0xf0 = 0) :
    autoc4_blink_product_high v = 1 := by
  have h1 : v &&& 0xc0 = 0 := by
    have : v &&& 0xc0 = (v &&& 0xf0) &&& 0xc0 := by
      rw [Nat.and_assoc]
      rfl
    rw [this, h]
    rfl
  have h2 : v &&& 0x30 = 0 := by
    have : v &&& 0x30 = (v &&& 0xf0) &&& 0x30 := by
      rw [Nat.and_assoc]
      rfl
    rw [this, h]
    rfl
  unfold autoc4_blink_product_high
  rw [h1, h2]
  rfl

theorem blink_product_low_of_fields_zero (v : Nat) (h : v &&& 0x0f = 0) :
    autoc4_blink_product_low v = 1 := by
  have h1 : v &&& 0x0c = 0 := by
    have : v &&& 0x0c = (v &&& 0x0f) &&& 0x0c := by
      rw [Nat.and_assoc]
      rfl
    rw [this, h]
    rfl
  have h2 : v &&& 0x03 = 0 := by
    have : v &&& 0x03 = (v &&& 0x0f) &&& 0x03 := by
      rw [Nat.and_assoc]
      rfl
    rw [this, h]
    rfl
  unfold autoc4_blink_product_low
  rw [h1, h2]
  rfl

theorem poll_blinking_step_sentinel (cfg : Config) (s : State) (i : Nat) (level : Bool)
    (hv : (s.output_states i).value ≠ 0)
    (hg : autoc4_get_output cfg i s = level)
    (hf : if level = true then autoc4_blink_product_high (s.output_states i).value = 1
      else autoc4_blink_product_low (s.output_states i).value = 1) :
    ((autoc4_poll_blinking_step cfg s i).1.output_states i).value = (s.output_states i).value
      ∧ autoc4_get_output cfg i (autoc4_poll_blinking_step cfg s i).1 = level := by
  rcases poll_blinking_step_shape cfg s i with ⟨_, h⟩ | ⟨_, hv0, _⟩ | ⟨_, _, _, h⟩
    | ⟨_, _, _, _, h⟩ | ⟨_, _, _, x, p, hp2, _, hc, _⟩
  · rw [h]; exact ⟨rfl, hg⟩
  · exact absurd hv0 hv
  · rw [h]
    refine ⟨by simp [blink_decrement_output_states], ?_⟩
    rw [← hg]; rfl
  · rw [h]
    refine ⟨by simp [blink_set_timer_output_states], ?_⟩
    rw [← hg]; rfl
  · exfalso
    rcases hc with ⟨hg', _, hp⟩ | ⟨hg', _, hp⟩
    · rw [hg'] at hg
      subst hg
      simp only [if_true] at hf
      omega
    · rw [hg'] at hg
      subst hg
      simp only [Bool.false_eq_true, if_false] at hf
      omega

theorem poll_blinking_sentinel_call (cfg : Config) (s : State) (i : Nat) (level : Bool)
    (hQ : (cfg.output_configs i).pin_index < 8)
    (hpins : ∀ j < cfg.output_count, j ≠ i → (cfg.output_configs j).enable_blinking = true →
      ¬ ((cfg.output_configs j).port_index = (cfg.output_configs i).port_index
        ∧ (cfg.output_configs j).pin_index = (cfg.output_configs i).pin_index))
    (hv : (s.output_states i).value ≠ 0)
    (hg : autoc4_get_output cfg i s = level)
    (hf : if level = true then autoc4_blink_product_high (s.output_states i).value = 1
      else autoc4_blink_product_low (s.output_states i).value = 1) :
    ((autoc4_poll_blinking cfg s).output_states i).value = (s.output_states i).value
      ∧ autoc4_get_output cfg i (autoc4_poll_blinking cfg s) = level := by
  obtain ⟨h1, h2⟩ := poll_blinking_loop_view cfg (List.range cfg.output_count) s i
    (List.nodup_range _) hQ (fun j hj => hpins j (List.mem_range.mp hj))
  unfold autoc4_poll_blinking
  by_cases hvis : i ∈ autoc4_poll_blinking_visited cfg (List.range cfg.output_count) s
  · obtain ⟨s', hs1, hs2⟩ := h2 hvis
    obtain ⟨e1, e2⟩ := view_eq_imp cfg i _ _ hs1
    obtain ⟨f1, f2⟩ := view_eq_imp cfg i _ _ hs2
    obtain ⟨g1, g2⟩ := poll_blinking_step_sentinel cfg s' i level (by rw [e1]; exact hv)
      (by rw [e2]; exact hg) (by rw [e1]; exact hf)
    rw [f1, f2, g1, g2, e1]
    exact ⟨rfl, rfl⟩
  · obtain ⟨e1, e2⟩ := view_eq_imp cfg i _ _ (h1 hvis)
    rw [e1, e2]
    exact ⟨rfl, hg⟩

theorem poll_blinking_sentinel_iterate (cfg : Config) (s : State) (i : Nat) (level : Bool)
    (hQ : (cfg.output_configs i).pin_index < 8)
    (hpins : ∀ j < cfg.output_count, j ≠ i → (cfg.output_configs j).enable_blinking = true →
      ¬ ((cfg.output_configs j).port_index = (cfg.output_configs i).port_index
        ∧ (cfg.output_configs j).pin_index = (cfg.output_configs i).pin_index))
    (hv : (s.output_states i).value ≠ 0)
    (hg : autoc4_get_output cfg i s = level)
    (hf : if level = true then autoc4_blink_product_high (s.output_states i).value = 1
      else autoc4_blink_product_low (s.output_states i).value = 1) (n : Nat) :
    ((autoc4_poll_blinking_iterate cfg n s).output_states i).value = (s.output_states i).value
      ∧ autoc4_get_output cfg i (autoc4_poll_blinking_iterate cfg n s) = level := by
  induction n with
  | zero => exact ⟨rfl, hg⟩
  | succ n ih =>
    obtain ⟨ih1, ih2⟩ := ih
    obtain ⟨h1, h2⟩ := poll_blinking_sentinel_call cfg (autoc4_poll_blinking_iterate cfg n s) i
      level hQ hpins (by rw [ih1]; exact hv) ih2 (by rw [ih1]; exact hf)
    exact ⟨h1.trans ih1, h2⟩

/-- C13 (blink sentinel), as amended: for every output with a pin index below 8 whose
pin no other blink-enabled output is configured on, and a nonzero pattern: if the
high-phase fields (bits 7..4) are zero and the output reads high, then for every
starting timer value and every `n` it still reads high after `n` consecutive calls of
`autoc4_poll_blinking`; if the low-phase fields (bits 3..0) are zero and the output
reads low, it still reads low after `n` calls. -/
theorem blink_sentinel_holds_level (cfg : Config) (s : State) (i : Nat)
    (hQ : (cfg.output_configs i).pin_index < 8)
    (hpins : ∀ j < cfg.output_count, j ≠ i → (cfg.output_configs j).enable_blinking = true →
      ¬ ((cfg.output_configs j).port_index = (cfg.output_configs i).port_index
        ∧ (cfg.output_configs j).pin_index = (cfg.output_configs i).pin_index))
    (hv : (s.output_states i).value ≠ 0) :
    ((s.output_states i).value &&& 0xf0 = 0 → autoc4_get_output cfg i s = true →
        ∀ n, autoc4_get_output cfg i (autoc4_poll_blinking_iterate cfg n s) = true)
      ∧ ((s.output_states i).value &&& 0x0f = 0 → autoc4_get_output cfg i s = false →
        ∀ n, autoc4_get_output cfg i (autoc4_poll_blinking_iterate cfg n s) = false) := by
  constructor
  · intro hf hg n
    exact (poll_blinking_sentinel_iterate cfg s i true hQ hpins hv hg
      (by simpa using blink_product_high_of_fields_zero _ hf) n).2
  · intro hf hg n
    exact (poll_blinking_sentinel_iterate cfg s i false hQ hpins hv hg
      (by simpa using blink_product_low_of_fields_zero _ hf) n).2

/-- Witness for C13 as amended: output 0 of `demo_sentinel_first` holds the pattern
0x01 and reads high; it still reads high after 1000 calls. -/
theorem blink_sentinel_holds_level_witness :
    (demo_config.output_configs 0).enable_blinking = true
      ∧ (demo_sentinel_first.output_states 0).value &&& 0xf0 = 0
      ∧ autoc4_get_output demo_config 0 demo_sentinel_first = true
      ∧ autoc4_get_output demo_config 0
          (autoc4_poll_blinking_iterate demo_config 1000 demo_sentinel_first) = true :=
  ⟨rfl, by decide, by decide,
    (blink_sentinel_holds_level demo_config demo_sentinel_first 0 (by decide) (by decide)
      (by decide)).1 (by decide) (by decide) 1000⟩

/-- Counterexample to C13 as stated: both outputs of `shared_pin_config` are
blink-enabled on port 1 pin 0; in `demo_shared_high` output 0 holds the pattern 0x01
(nonzero, high-phase fields zero) with timer 5 and reads high, output 1 holds the
pattern 0.  After one call of `autoc4_poll_blinking` output 0 reads low. -/
theorem blink_sentinel_counterexample :
    (shared_pin_config.output_configs 0).enable_blinking = true
      ∧ (demo_shared_high.output_states 0).value ≠ 0
      ∧ (demo_shared_high.output_states 0).value &&& 0xf0 = 0
      ∧ autoc4_get_output shared_pin_config 0 demo_shared_high = true
      ∧ autoc4_get_output shared_pin_config 0
          (autoc4_poll_blinking_iterate shared_pin_config 1 demo_shared_high) = false := by
  decide

theorem set_output_with_inputs (cfg : Config) (i v : Nat) (s : State)
    (f : Nat → InputState) :
    autoc4_set_output cfg i v { s with pin_input_states := f }
      = { autoc4_set_output cfg i v s with pin_input_states := f } := by
  unfold autoc4_set_output
  dsimp only
  split_ifs <;> rfl

theorem emergency_loop_with_inputs (cfg : Config) (any_output_on : Nat) (l : List Nat)
    (s : State) (f : Nat → InputState) :
    autoc4_emergency_loop cfg any_output_on l { s with pin_input_states := f }
      = { autoc4_emergency_loop cfg any_output_on l s with pin_input_states := f } := by
  induction l generalizing s with
  | nil => rfl
  | cons a rest ih =>
    by_cases ht : (cfg.output_configs a).emergency_toggled = true
    · simp only [autoc4_emergency_loop, ht, if_true]
      rw [set_output_with_inputs, ih]
    · by_cases hz : (cfg.output_configs a).emergency_zeroed = true
      · simp only [autoc4_emergency_loop, ht, hz, if_true, Bool.false_eq_true, if_false]
        rw [set_output_with_inputs, ih]
      · simp only [autoc4_emergency_loop, ht, hz, Bool.false_eq_true, if_false]
        exact ih s

theorem emergency_with_inputs (cfg : Config) (s : State) (f : Nat → InputState) :
    autoc4_emergency_switch_toggled cfg { s with pin_input_states := f }
      = { autoc4_emergency_switch_toggled cfg s with pin_input_states := f } := by
  unfold autoc4_emergency_switch_toggled
  exact emergency_loop_with_inputs cfg _ _ (autoc4_emergency_zero_dmx cfg s) f

theorem emergency_fold_with_inputs (cfg : Config) (l : List Nat) (s : State)
    (f : Nat → InputState) :
    l.foldl (fun st _ => autoc4_emergency_switch_toggled cfg st) { s with pin_input_states := f }
      = { l.foldl (fun st _ => autoc4_emergency_switch_toggled cfg st) s
          with pin_input_states := f } := by
  induction l generalizing s with
  | nil => rfl
  | cons a rest ih =>
    rw [List.foldl_cons, List.foldl_cons, emergency_with_inputs, ih]

theorem read_inputs_step_decomp (cfg : Config) (connected : Bool) (pins : Nat → Nat)
    (s : State) (i : Nat) (rest : List Nat) :
    (autoc4_read_inputs_step cfg connected pins s i
        = { (if (autoc4_input_level cfg pins i != (s.pin_input_states i).prev_state)
                && (!connected || !s.logicer_state)
                && (cfg.input_configs i).is_emergency_switch
              then autoc4_emergency_switch_toggled cfg s else s)
            with pin_input_states :=
              (autoc4_read_inputs_step cfg connected pins s i).pin_input_states })
      ∧ autoc4_read_inputs_triggers cfg connected pins (i :: rest) s
        = (if (autoc4_input_level cfg pins i != (s.pin_input_states i).prev_state)
              && (!connected || !s.logicer_state)
              && (cfg.input_configs i).is_emergency_switch
            then [i] else [])
          ++ autoc4_read_inputs_triggers cfg connected pins rest
              (autoc4_read_inputs_step cfg connected pins s i) := by
  constructor
  · unfold autoc4_read_inputs_step
    dsimp only
    cases autoc4_input_level cfg pins i <;> cases (s.pin_input_states i).prev_state
      <;> cases connected <;> cases s.logicer_state
      <;> cases (cfg.input_configs i).is_emergency_switch <;> rfl
  · rw [autoc4_read_inputs_triggers]
    cases autoc4_input_level cfg pins i <;> cases (s.pin_input_states i).prev_state
      <;> cases connected <;> cases s.logicer_state
      <;> cases (cfg.input_configs i).is_emergency_switch <;> rfl

theorem read_inputs_loop_decomp (cfg : Config) (connected : Bool) (pins : Nat → Nat)
    (l : List Nat) (s : State) :
    autoc4_read_inputs_loop cfg connected pins l s
      = { (autoc4_read_inputs_triggers cfg connected pins l s).foldl
            (fun st _ => autoc4_emergency_switch_toggled cfg st) s
          with pin_input_states :=
            (autoc4_read_inputs_loop cfg connected pins l s).pin_input_states } := by
  induction l generalizing s with
  | nil => rfl
  | cons a rest ih =>
    obtain ⟨h1, h2⟩ := read_inputs_step_decomp cfg connected pins s a rest
    have hloop : autoc4_read_inputs_loop cfg connected pins (a :: rest) s
        = autoc4_read_inputs_loop cfg connected pins rest
            (autoc4_read_inputs_step cfg connected pins s a) := rfl
    have key : ∀ (T : List Nat) (X s1 : State) (h : Nat → InputState),
        s1 = { X with pin_input_states := s1.pin_input_states } →
        ({ T.foldl (fun st _ => autoc4_emergency_switch_toggled cfg st) s1
            with pin_input_states := h } : State)
          = { T.foldl (fun st _ => autoc4_emergency_switch_toggled cfg st) X
              with pin_input_states := h } := by
      intro T X s1 h e
      have e2 : T.foldl (fun st _ => autoc4_emergency_switch_toggled cfg st) s1
          = { T.foldl (fun st _ => autoc4_emergency_switch_toggled cfg st) X
              with pin_input_states := s1.pin_input_states } := by
        conv_lhs => rw [e]
        exact emergency_fold_with_inputs cfg T X _
      rw [e2]
    rw [hloop, h2, List.foldl_append]
    have hX : (if ((autoc4_input_level cfg pins a != (s.pin_input_states a).prev_state)
          && (!connected || !s.logicer_state)
          && (cfg.input_configs a).is_emergency_switch) = true then [a] else []).foldl
          (fun st _ => autoc4_emergency_switch_toggled cfg st) s
        = (if ((autoc4_input_level cfg pins a != (s.pin_input_states a).prev_state)
          && (!connected || !s.logicer_state)
          && (cfg.input_configs a).is_emergency_switch) = true
          then autoc4_emergency_switch_toggled cfg s else s) := by
      split_ifs <;> rfl
    rw [hX]
    exact (ih _).trans (key _ _ _ _ h1)

theorem read_inputs_triggers_mem (cfg : Config) (connected : Bool) (pins : Nat → Nat) :
    ∀ (n a : Nat) (s : State) (i : Nat),
      i ∈ autoc4_read_inputs_triggers cfg connected pins (List.range' a n) s
        ↔ a ≤ i ∧ i < a + n ∧ (cfg.input_configs i).is_emergency_switch = true
          ∧ autoc4_input_level cfg pins i ≠ (s.pin_input_states i).prev_state
          ∧ (connected = false ∨ s.logicer_state = false) := by
  intro n
  induction n with
  | zero =>
    intro a s i
    simp only [List.range', autoc4_read_inputs_triggers, List.not_mem_nil, false_iff]
    omega
  | succ n ih =>
    intro a s i
    obtain ⟨s1, _, s3⟩ := read_inputs_step_spec cfg connected pins s a
    rw [List.range'_succ, (read_inputs_step_decomp cfg connected pins s a _).2,
      List.mem_append, ih (a + 1) _ i, s1]
    by_cases hia : i = a
    · subst hia
      have hlt : ¬ i + 1 ≤ i := by omega
      have hin : i < i + (n + 1) := by omega
      cases hl : autoc4_input_level cfg pins i <;> cases hp : (s.pin_input_states i).prev_state
        <;> cases hc : connected <;> cases hg : s.logicer_state
        <;> cases he : (cfg.input_configs i).is_emergency_switch
        <;> simp [hlt, hin]
    · rw [s3 i hia]
      have hnot : i ∉ (if ((autoc4_input_level cfg pins a != (s.pin_input_states a).prev_state)
          && (!connected || !s.logicer_state)
          && (cfg.input_configs a).is_emergency_switch) = true then [a] else []) := by
        split_ifs <;> simp [hia]
      simp only [hnot, false_or]
      constructor
      · rintro ⟨h1, h2, h3⟩
        exact ⟨by omega, by omega, h3⟩
      · rintro ⟨h1, h2, h3⟩
        exact ⟨by omega, by omega, h3⟩

/-- C19 (interlock trigger condition): during a scan `autoc4_read_inputs` calls the
emergency interlock for input `i` iff `i` is flagged `is_emergency_switch`, has an edge
in that scan, and the transport is disconnected or `logicer_state` is false; so it
calls it at all iff some such input exists.  The scan's effect on everything but
`pin_input_states` is that of these interlock calls.  Consequently, whenever the
transport is connected and `logicer_state` is true, or no emergency-switch input
changes level, the scan leaves the port and direction registers, the lighting channels
and the output states unchanged. -/
theorem interlock_trigger_condition (cfg : Config) (connected : Bool) (pins : Nat → Nat)
    (s : State) :
    (∀ i, i ∈ autoc4_read_inputs_triggers cfg connected pins (List.range cfg.input_count) s
        ↔ i < cfg.input_count ∧ (cfg.input_configs i).is_emergency_switch = true
          ∧ autoc4_input_level cfg pins i ≠ (s.pin_input_states i).prev_state
          ∧ (connected = false ∨ s.logicer_state = false))
      ∧ (autoc4_read_inputs_triggers cfg connected pins (List.range cfg.input_count) s ≠ []
        ↔ ∃ i < cfg.input_count, (cfg.input_configs i).is_emergency_switch = true
          ∧ autoc4_input_level cfg pins i ≠ (s.pin_input_states i).prev_state
          ∧ (connected = false ∨ s.logicer_state = false))
      ∧ autoc4_read_inputs cfg connected pins s
        = { (autoc4_read_inputs_triggers cfg connected pins
                (List.range cfg.input_count) s).foldl
              (fun st _ => autoc4_emergency_switch_toggled cfg st) s
            with pin_input_states := (autoc4_read_inputs cfg connected pins s).pin_input_states }
      ∧ ((connected = true ∧ s.logicer_state = true)
          ∨ (∀ i < cfg.input_count, (cfg.input_configs i).is_emergency_switch = true →
              autoc4_input_level cfg pins i = (s.pin_input_states i).prev_state) →
        (autoc4_read_inputs cfg connected pins s).ports = s.ports
          ∧ (autoc4_read_inputs cfg connected pins s).ddrs = s.ddrs
          ∧ (autoc4_read_inputs cfg connected pins s).dmx = s.dmx
          ∧ (autoc4_read_inputs cfg connected pins s).output_states = s.output_states) := by
  have hmem : ∀ i,
      i ∈ autoc4_read_inputs_triggers cfg connected pins (List.range cfg.input_count) s
        ↔ i < cfg.input_count ∧ (cfg.input_configs i).is_emergency_switch = true
          ∧ autoc4_input_level cfg pins i ≠ (s.pin_input_states i).prev_state
          ∧ (connected = false ∨ s.logicer_state = false) := by
    intro i
    rw [List.range_eq_range', read_inputs_triggers_mem]
    constructor
    · rintro ⟨_, h2, h3⟩
      exact ⟨by omega, h3⟩
    · rintro ⟨h2, h3⟩
      exact ⟨Nat.zero_le i, by omega, h3⟩
  have hdec := read_inputs_loop_decomp cfg connected pins (List.range cfg.input_count) s
  refine ⟨hmem, ?_, hdec, ?_⟩
  · rw [Ne, List.eq_nil_iff_forall_not_mem, not_forall]
    constructor
    · rintro ⟨i, hi⟩
      have := (hmem i).mp (not_not.mp hi)
      exact ⟨i, this⟩
    · rintro ⟨i, hi⟩
      exact ⟨i, not_not.mpr ((hmem i).mpr hi)⟩
  · intro h
    have hnil : autoc4_read_inputs_triggers cfg connected pins (List.range cfg.input_count) s
        = [] := by
      rw [List.eq_nil_iff_forall_not_mem]
      intro i hi
      obtain ⟨h1, h2, h3, h4⟩ := (hmem i).mp hi
      rcases h with ⟨hc, hl⟩ | hno
      · rcases h4 with h4 | h4
        · rw [hc] at h4; cases h4
        · rw [hl] at h4; cases h4
      · exact h3 (hno i h1 h2)
    unfold autoc4_read_inputs
    rw [hdec, hnil]
    exact ⟨rfl, rfl, rfl, rfl⟩

/-- Witness for C19: with the transport disconnected, the emergency-switch input 0 of
`demo_config` goes high in `demo_clean`; the interlock is called once, for input 0. -/
theorem interlock_trigger_condition_witness :
    0 ∈ autoc4_read_inputs_triggers demo_config false (fun _ => 1)
        (List.range demo_config.input_count) demo_clean
      ∧ (autoc4_read_inputs demo_config true (fun _ => 1) demo_alive).ports = demo_alive.ports :=
  ⟨((interlock_trigger_condition demo_config false (fun _ => 1) demo_clean).1 0).mpr
      (by decide),
    ((interlock_trigger_condition demo_config true (fun _ => 1) demo_alive).2.2.2
      (Or.inl ⟨rfl, rfl⟩)).1⟩

/-! ## Dirty-flag invariant -/

/-- Counterexample to C18 as stated: start `demo_config` with all pins low, publish all
three inputs successfully, then scan with the transport connected, `logicer_state`
false and input 1 high.  Input 1 is then clean with `prev_state = true`, for which
`autoc4_poll` would publish the byte 0, but the only byte ever published for it is 1. -/
theorem dirty_flag_invariant_counterexample :
    ((autoc4_run demo_config (autoc4_run_start demo_config (fun _ => 0) demo_state)
        [Event.poll (fun _ => true), Event.read_inputs true (fun _ => 2)]).state.pin_input_states
          1).mqtt_dirty = false
      ∧ (autoc4_poll_call demo_config
          (autoc4_run demo_config (autoc4_run_start demo_config (fun _ => 0) demo_state)
            [Event.poll (fun _ => true), Event.read_inputs true (fun _ => 2)]).state 1).payload
          = [0]
      ∧ (autoc4_run demo_config (autoc4_run_start demo_config (fun _ => 0) demo_state)
          [Event.poll (fun _ => true), Event.read_inputs true (fun _ => 2)]).published
          = [(2, [1]), (1, [1]), (0, [1])]
      ∧ autoc4_last_published
          (autoc4_run demo_config (autoc4_run_start demo_config (fun _ => 0) demo_state)
            [Event.poll (fun _ => true), Event.read_inputs true (fun _ => 2)]).published 1
          = some [1] := by
  decide

theorem init_input_states_fold (cfg : Config) (pins : Nat → Nat) (s : State) (n : Nat) :
    (List.range n).foldl (autoc4_init_input_state cfg pins) s
      = { s with
          pin_input_states := fun j =>
            if j < n then ⟨autoc4_input_level cfg pins j, true⟩ else s.pin_input_states j } := by
  induction n with
  | zero => simp
  | succ n ih =>
    rw [List.range_succ, List.foldl_append, ih]
    simp only [List.foldl_cons, List.foldl_nil, autoc4_init_input_state]
    congr 1
    funext j
    by_cases hjn : j = n
    · subst hjn; simp [upd]
    · by_cases hlt : j < n
      · have : j < n + 1 := by omega
        simp [upd, hjn, hlt, this]
      · have : ¬ j < n + 1 := by omega
        simp [upd, hjn, hlt, this]

theorem poll_call_congr (cfg : Config) (a b : State) (i : Nat)
    (h : (a.pin_input_states i).prev_state = (b.pin_input_states i).prev_state) :
    autoc4_poll_call cfg a i = autoc4_poll_call cfg b i := by
  unfold autoc4_poll_call
  rw [h]

theorem poll_successes_entries (cfg : Config) (pub : Nat → Bool) (l : List Nat) (s : State) :
    ∀ e ∈ autoc4_poll_successes cfg pub l s,
      (s.pin_input_states e.1).mqtt_dirty = true
        ∧ e.2 = (autoc4_poll_call cfg s e.1).payload := by
  induction l generalizing s with
  | nil => intro e he; cases he
  | cons a rest ih =>
    intro e he
    unfold autoc4_poll_successes at he
    by_cases hd : (s.pin_input_states a).mqtt_dirty = true
    · by_cases hp : pub a = true
      · simp only [hd, hp, if_true, List.mem_cons] at he
        rcases he with rfl | he
        · exact ⟨hd, rfl⟩
        · obtain ⟨h1, h2⟩ := ih (autoc4_poll_clear s a) e he
          rw [poll_clear_pin_input_states] at h1
          by_cases hea : e.1 = a
          · simp [hea] at h1
          · rw [if_neg hea] at h1
            exact ⟨h1, by rw [h2, poll_call_poll_clear]⟩
      · simp [hd, hp] at he
    · simp only [hd, Bool.false_eq_true, if_false] at he
      exact ih s e he

theorem poll_loop_outside (cfg : Config) (pub : Nat → Bool) (l : List Nat) (s : State)
    (i : Nat) (hi : i ∉ l) :
    (autoc4_poll_loop cfg pub l s).1.pin_input_states i = s.pin_input_states i := by
  induction l generalizing s with
  | nil => rfl
  | cons a rest ih =>
    have hia : i ≠ a := fun h => hi (h ▸ List.mem_cons_self _ _)
    have hir : i ∉ rest := fun h => hi (List.mem_cons_of_mem _ h)
    unfold autoc4_poll_loop
    by_cases hd : (s.pin_input_states a).mqtt_dirty = true
    · by_cases hp : pub a = true
      · simp only [hd, hp, if_true]
        rw [ih _ hir, poll_clear_pin_input_states, if_neg hia]
      · simp [hd, hp]
    · simp only [hd, Bool.false_eq_true, if_false]
      exact ih s hir

theorem poll_successes_cleared (cfg : Config) (pub : Nat → Bool) (l : List Nat) (s : State)
    (i : Nat) (hd : (s.pin_input_states i).mqtt_dirty = true)
    (hc : ((autoc4_poll_loop cfg pub l s).1.pin_input_states i).mqtt_dirty = false) :
    ∃ e ∈ autoc4_poll_successes cfg pub l s, e.1 = i := by
  induction l generalizing s with
  | nil =>
    simp only [autoc4_poll_loop] at hc
    rw [hd] at hc
    cases hc
  | cons a rest ih =>
    unfold autoc4_poll_loop at hc
    unfold autoc4_poll_successes
    by_cases hda : (s.pin_input_states a).mqtt_dirty = true
    · by_cases hp : pub a = true
      · simp only [hda, hp, if_true] at hc ⊢
        by_cases hia : i = a
        · exact ⟨_, List.mem_cons_self _ _, hia.symm⟩
        · have hd' : ((autoc4_poll_clear s a).pin_input_states i).mqtt_dirty = true := by
            rw [poll_clear_pin_input_states, if_neg hia]; exact hd
          obtain ⟨e, he, hei⟩ := ih (autoc4_poll_clear s a) hd' hc
          exact ⟨e, List.mem_cons_of_mem _ he, hei⟩
      · simp only [hda, hp, if_true, Bool.false_eq_true, if_false] at hc
        rw [hd] at hc
        cases hc
    · simp only [hda, Bool.false_eq_true, if_false] at hc ⊢
      exact ih s hd hc

theorem publish_dispatch_pin_input_states (cfg : Config) (s : State) (topic : List Nat)
    (topic_length : Nat) (payload : List Nat) :
    (autoc4_publish_dispatch cfg s topic topic_length payload).pin_input_states
      = s.pin_input_states := by
  unfold autoc4_publish_dispatch
  by_cases hp : payload.length > 0
  swap
  · rw [if_neg hp]
  rw [if_pos hp]
  cases (List.range cfg.output_count).find?
      (fun i => strncmp_P topic (cfg.output_configs i).topic topic_length == 0) with
  | some i => simp
  | none =>
    dsimp only
    by_cases hdmx : strncmp_P topic cfg.dmx_topic topic_length = 0
    · rw [if_pos hdmx]
    rw [if_neg hdmx]
    cases (List.range cfg.dmx_count).find?
        (fun i => strncmp_P topic (cfg.dmx_configs i).topic topic_length == 0) with
    | some i => rfl
    | none =>
      dsimp only
      split_ifs <;> rfl

theorem publish_callback_pin_input_states (cfg : Config) (s : State) (topic : List Nat)
    (topic_length : Nat) (payload : List Nat) :
    (autoc4_publish_callback cfg s topic topic_length payload).pin_input_states
      = s.pin_input_states := by
  unfold autoc4_publish_callback
  split_ifs
  · exact publish_dispatch_pin_input_states cfg s _ _ _
  · rfl
  · exact publish_dispatch_pin_input_states cfg s _ _ _

theorem reconnect_resync_dirty (cfg : Config) (s : State) :
    ∀ i < cfg.input_count,
      ((autoc4_connack_callback cfg s).1.pin_input_states i).mqtt_dirty = true := by
  intro i hi
  rw [connack_state_eq]
  simp [hi]

theorem clean_inputs_published_start (cfg : Config) (pins : Nat → Nat) (s : State) :
    autoc4_clean_inputs_published cfg (autoc4_run_start cfg pins s) := by
  intro i hi hclean
  unfold autoc4_run_start autoc4_init_input_states at hclean
  rw [init_input_states_fold] at hclean
  simp [hi] at hclean

theorem read_inputs_input_state (cfg : Config) (connected : Bool) (pins : Nat → Nat)
    (s : State) (i : Nat) (hi : i < cfg.input_count) :
    (autoc4_read_inputs cfg connected pins s).pin_input_states i
      = ⟨autoc4_input_level cfg pins i,
          (s.pin_input_states i).mqtt_dirty
            || ((autoc4_input_level cfg pins i != (s.pin_input_states i).prev_state)
              && connected && s.logicer_state)⟩ := by
  unfold autoc4_read_inputs
  rw [List.range_eq_range']
  exact (read_inputs_loop_spec cfg connected pins cfg.input_count 0 s).2.1 i
    (Nat.zero_le i) (by omega)

theorem poll_call_payload_injective (cfg : Config) (a b : State) (i : Nat)
    (h : (autoc4_poll_call cfg a i).payload = (autoc4_poll_call cfg b i).payload) :
    (a.pin_input_states i).prev_state = (b.pin_input_states i).prev_state := by
  unfold autoc4_poll_call at h
  cases ha : (a.pin_input_states i).prev_state <;>
    cases hb : (b.pin_input_states i).prev_state <;>
    cases hinv : (cfg.input_configs i).inverted <;>
    simp [ha, hb, hinv, zero_one] at h ⊢

theorem clean_inputs_published_read_inputs (cfg : Config) (r : Run) (connected : Bool)
    (pins : Nat → Nat) (hinv : autoc4_clean_inputs_published cfg r)
    (hok : autoc4_scan_publishes_edges cfg connected pins r.state) :
    autoc4_clean_inputs_published cfg
      (autoc4_event_step cfg r (Event.read_inputs connected pins)) := by
  intro i hi hclean
  simp only [autoc4_event_step] at hclean ⊢
  have hst := read_inputs_input_state cfg connected pins r.state i hi
  rw [hst] at hclean
  simp only [Bool.or_eq_false_iff] at hclean
  obtain ⟨hd, he⟩ := hclean
  have hlevel : autoc4_input_level cfg pins i = (r.state.pin_input_states i).prev_state := by
    rcases hok with ⟨hc, hl⟩ | hno
    · rw [hc, hl] at he
      simpa using he
    · exact hno i hi hd
  rw [poll_call_congr cfg _ r.state i (by rw [hst]; exact hlevel)]
  exact hinv i hi hd

theorem clean_inputs_published_scan_edge (cfg : Config) (r : Run) (connected : Bool)
    (pins : Nat → Nat) (hinv : autoc4_clean_inputs_published cfg r)
    (hbad : ¬ autoc4_scan_publishes_edges cfg connected pins r.state) :
    ¬ autoc4_clean_inputs_published cfg
      (autoc4_event_step cfg r (Event.read_inputs connected pins)) := by
  intro hafter
  unfold autoc4_scan_publishes_edges at hbad
  rw [not_or] at hbad
  obtain ⟨hmode, hedge⟩ := hbad
  simp only [not_forall] at hedge
  obtain ⟨i, hi, hd, hne⟩ := hedge
  have hst := read_inputs_input_state cfg connected pins r.state i hi
  have hoff : (connected && r.state.logicer_state) = false := by
    cases hc : connected <;> cases hl : r.state.logicer_state <;> simp_all
  have hclean : ((autoc4_event_step cfg r
      (Event.read_inputs connected pins)).state.pin_input_states i).mqtt_dirty = false := by
    simp only [autoc4_event_step]
    rw [hst]
    simp only [hd, Bool.false_or, Bool.and_assoc, hoff, Bool.and_false]
  have h1 := hafter i hi hclean
  have h2 := hinv i hi hd
  simp only [autoc4_event_step] at h1
  rw [h2] at h1
  have h3 := poll_call_payload_injective cfg _ _ i (Option.some.inj h1)
  rw [hst] at h3
  exact hne h3.symm

theorem clean_inputs_published_poll (cfg : Config) (r : Run) (pub : Nat → Bool)
    (hinv : autoc4_clean_inputs_published cfg r) :
    autoc4_clean_inputs_published cfg (autoc4_event_step cfg r (Event.poll pub)) := by
  intro i hi hclean
  simp only [autoc4_event_step] at hclean ⊢
  have hcall : autoc4_poll_call cfg (autoc4_poll cfg pub r.state).1 i
      = autoc4_poll_call cfg r.state i :=
    poll_call_congr cfg _ _ i ((poll_loop_frame cfg pub _ r.state).1 i)
  rw [hcall]
  unfold autoc4_last_published
  rw [List.find?_append]
  by_cases hd : (r.state.pin_input_states i).mqtt_dirty = true
  · obtain ⟨e, he, hei⟩ := poll_successes_cleared cfg pub (List.range cfg.input_count)
      r.state i hd hclean
    have hsome : ((autoc4_poll_successes cfg pub (List.range cfg.input_count)
        r.state).reverse.find? (fun e => e.1 == i)).isSome = true := by
      rw [List.find?_isSome]
      exact ⟨e, List.mem_reverse.mpr he, by simp [hei]⟩
    obtain ⟨e', he'⟩ := Option.isSome_iff_exists.mp hsome
    rw [he']
    have hmem := List.mem_reverse.mp (List.mem_of_find?_eq_some he')
    have hp := List.find?_some he'
    have hidx : e'.1 = i := by simpa using hp
    obtain ⟨_, hpay⟩ := poll_successes_entries cfg pub _ r.state e' hmem
    simp [hpay, hidx]
  · have hd' : (r.state.pin_input_states i).mqtt_dirty = false := by simpa using hd
    have hnone : (autoc4_poll_successes cfg pub (List.range cfg.input_count)
        r.state).reverse.find? (fun e => e.1 == i) = none := by
      rw [List.find?_eq_none]
      intro e he hp
      have hidx : e.1 = i := by simpa using hp
      obtain ⟨hde, _⟩ := poll_successes_entries cfg pub _ r.state e (List.mem_reverse.mp he)
      rw [hidx, hd'] at hde
      cases hde
    rw [hnone]
    exact hinv i hi hd'

theorem clean_inputs_published_connack (cfg : Config) (r : Run) :
    autoc4_clean_inputs_published cfg (autoc4_event_step cfg r Event.connack) := by
  intro i hi hclean
  simp only [autoc4_event_step] at hclean
  rw [(reconnect_resync_dirty cfg r.state) i hi] at hclean
  cases hclean

theorem clean_inputs_published_publish (cfg : Config) (r : Run) (topic : List Nat)
    (topic_length : Nat) (payload : List Nat)
    (hinv : autoc4_clean_inputs_published cfg r) :
    autoc4_clean_inputs_published cfg
      (autoc4_event_step cfg r (Event.publish topic topic_length payload)) := by
  intro i hi hclean
  simp only [autoc4_event_step] at hclean ⊢
  rw [publish_callback_pin_input_states] at hclean
  rw [poll_call_congr cfg _ r.state i (by rw [publish_callback_pin_input_states])]
  exact hinv i hi hclean

theorem clean_inputs_published_run (cfg : Config) (events : List Event) :
    ∀ r : Run, autoc4_clean_inputs_published cfg r ∨ Event.connack ∈ events →
      autoc4_scans_publish_edges cfg r events →
      autoc4_clean_inputs_published cfg (autoc4_run cfg r events) := by
  induction events with
  | nil =>
    intro r h _
    rcases h with h | h
    · exact h
    · cases h
  | cons e rest ih =>
    intro r h hok
    unfold autoc4_run
    rw [List.foldl_cons]
    by_cases hc : Event.connack ∈ rest
    · cases e with
      | read_inputs connected pins =>
        simp only [autoc4_scans_publish_edges] at hok
        exact ih _ (Or.inr hc) hok.2
      | poll pub =>
        simp only [autoc4_scans_publish_edges] at hok
        exact ih _ (Or.inr hc) hok
      | connack =>
        simp only [autoc4_scans_publish_edges] at hok
        exact ih _ (Or.inr hc) hok
      | publish topic topic_length payload =>
        simp only [autoc4_scans_publish_edges] at hok
        exact ih _ (Or.inr hc) hok
    · cases e with
      | read_inputs connected pins =>
        simp only [autoc4_scans_publish_edges] at hok
        have hinv : autoc4_clean_inputs_published cfg r := by
          rcases h with h | h
          · exact h
          · rcases List.mem_cons.mp h with h | h
            · cases h
            · exact absurd h hc
        exact ih _ (Or.inl (clean_inputs_published_read_inputs cfg r connected pins hinv
          (hok.1.resolve_right hc))) hok.2
      | poll pub =>
        simp only [autoc4_scans_publish_edges] at hok
        have hinv : autoc4_clean_inputs_published cfg r := by
          rcases h with h | h
          · exact h
          · rcases List.mem_cons.mp h with h | h
            · cases h
            · exact absurd h hc
        exact ih _ (Or.inl (clean_inputs_published_poll cfg r pub hinv)) hok
      | connack =>
        simp only [autoc4_scans_publish_edges] at hok
        exact ih _ (Or.inl (clean_inputs_published_connack cfg r)) hok
      | publish topic topic_length payload =>
        simp only [autoc4_scans_publish_edges] at hok
        have hinv : autoc4_clean_inputs_published cfg r := by
          rcases h with h | h
          · exact h
          · rcases List.mem_cons.mp h with h | h
            · cases h
            · exact absurd h hc
        exact ih _ (Or.inl (clean_inputs_published_publish cfg r topic topic_length payload
          hinv)) hok

/-- C18 (dirty-flag invariant), as amended: start from `autoc4_init_input_states` and
run any sequence of `autoc4_read_inputs`, `autoc4_poll`, `autoc4_connack_callback` and
`autoc4_publish_callback` events (arbitrary pin levels, connection status, publish
outcomes and messages) in which every scan is made in normal mode (transport connected
and `logicer_state` true), or sees no edge on a clean input, or is followed by a later
`autoc4_connack_callback`.  Then every input with `mqtt_dirty = false` has a successful
publish, and the most recent one carries exactly the payload `autoc4_poll` would compute
from the input's current `prev_state`.  The condition on scans is needed: a further scan
keeps this invariant iff it is made in normal mode or sees no edge on a clean input. -/
theorem dirty_flag_invariant (cfg : Config) (pins0 : Nat → Nat) (s0 : State)
    (events : List Event)
    (hok : autoc4_scans_publish_edges cfg (autoc4_run_start cfg pins0 s0) events) :
    (∀ i < cfg.input_count,
      ((autoc4_run cfg (autoc4_run_start cfg pins0 s0) events).state.pin_input_states
          i).mqtt_dirty = false →
      autoc4_last_published (autoc4_run cfg (autoc4_run_start cfg pins0 s0) events).published i
        = some (autoc4_poll_call cfg
            (autoc4_run cfg (autoc4_run_start cfg pins0 s0) events).state i).payload)
      ∧ ∀ (connected : Bool) (pins : Nat → Nat),
        ((∀ i < cfg.input_count,
            ((autoc4_read_inputs cfg connected pins
              (autoc4_run cfg (autoc4_run_start cfg pins0 s0) events).state).pin_input_states
                i).mqtt_dirty = false →
            autoc4_last_published
                (autoc4_run cfg (autoc4_run_start cfg pins0 s0) events).published i
              = some (autoc4_poll_call cfg
                  (autoc4_read_inputs cfg connected pins
                    (autoc4_run cfg (autoc4_run_start cfg pins0 s0) events).state) i).payload)
          ↔ autoc4_scan_publishes_edges cfg connected pins
              (autoc4_run cfg (autoc4_run_start cfg pins0 s0) events).state) := by
  have hR := clean_inputs_published_run cfg events _
    (Or.inl (clean_inputs_published_start cfg pins0 s0)) hok
  refine ⟨hR, fun connected pins => ⟨fun h => ?_, fun h => ?_⟩⟩
  · by_contra hbad
    exact clean_inputs_published_scan_edge cfg _ connected pins hR hbad h
  · exact clean_inputs_published_read_inputs cfg _ connected pins hR h

/-- Witness for C18: `demo_config` started with all pins low.  All inputs are published;
a scan with the transport disconnected sees input 1 go high (a clean input, so its
published byte 1 is stale); the reconnect marks every input dirty and the next poll
publishes them; then the supervisor heartbeat arrives, a connected scan sees input 2 go
high, and the next poll publishes it.  Inputs 1 and 2 are then clean with
`prev_state = true`, and the latest byte published for each is 0. -/
theorem dirty_flag_invariant_witness :
    autoc4_scans_publish_edges demo_config
        (autoc4_run_start demo_config (fun _ => 0) demo_state)
        [Event.poll (fun _ => true), Event.read_inputs false (fun _ => 2), Event.connack,
          Event.poll (fun _ => true), Event.publish [108, 103] 2 [1],
          Event.read_inputs true (fun _ => 6), Event.poll (fun _ => true)]
      ∧ (autoc4_poll_call demo_config
          (autoc4_run demo_config (autoc4_run_start demo_config (fun _ => 0) demo_state)
            [Event.poll (fun _ => true), Event.read_inputs false (fun _ => 2), Event.connack,
              Event.poll (fun _ => true), Event.publish [108, 103] 2 [1],
              Event.read_inputs true (fun _ => 6), Event.poll (fun _ => true)]).state
          1).payload = [0]
      ∧ autoc4_last_published
          (autoc4_run demo_config (autoc4_run_start demo_config (fun _ => 0) demo_state)
            [Event.poll (fun _ => true), Event.read_inputs false (fun _ => 2), Event.connack,
              Event.poll (fun _ => true), Event.publish [108, 103] 2 [1],
              Event.read_inputs true (fun _ => 6), Event.poll (fun _ => true)]).published 1
        = some (autoc4_poll_call demo_config
            (autoc4_run demo_config (autoc4_run_start demo_config (fun _ => 0) demo_state)
              [Event.poll (fun _ => true), Event.read_inputs false (fun _ => 2),
                Event.connack, Event.poll (fun _ => true), Event.publish [108, 103] 2 [1],
                Event.read_inputs true (fun _ => 6), Event.poll (fun _ => true)]).state
            1).payload
      ∧ (autoc4_run demo_config (autoc4_run_start demo_config (fun _ => 0) demo_state)
          [Event.poll (fun _ => true), Event.read_inputs false (fun _ => 2), Event.connack,
            Event.poll (fun _ => true), Event.publish [108, 103] 2 [1],
            Event.read_inputs true (fun _ => 6), Event.poll (fun _ => true)]).published
        = [(2, [0]), (2, [1]), (1, [0]), (0, [1]), (2, [1]), (1, [1]), (0, [1])] :=
  have hok : autoc4_scans_publish_edges demo_config
      (autoc4_run_start demo_config (fun _ => 0) demo_state)
      [Event.poll (fun _ => true), Event.read_inputs false (fun _ => 2), Event.connack,
        Event.poll (fun _ => true), Event.publish [108, 103] 2 [1],
        Event.read_inputs true (fun _ => 6), Event.poll (fun _ => true)] := by
    simp only [autoc4_scans_publish_edges, and_true]
    exact ⟨Or.inr (List.mem_cons_self _ _), Or.inl (Or.inl ⟨rfl, by decide⟩)⟩
  ⟨hok, by decide,
    (dirty_flag_invariant demo_config (fun _ => 0) demo_state _ hok).1 1 (by decide)
      (by decide),
    by decide⟩

end Autoc4
